import Mathlib

/-!
Verification of the Rust core of the pyhgf Hierarchical Gaussian Filter
(`rshgf`) against its natural-language specification.

The development is a shallow embedding of the Rust sources into Lean:

* `f64` values are modelled as exact rationals (`ℚ`).  The transcendental
  leaf functions (`f64::exp`, `f64::ln`, `f64::sqrt`) are not exactly
  representable over `ℚ`, so the whole embedding is parametrised by an
  `Ops` record carrying rational stand-ins for them; theorems either hold
  for every choice of `Ops` or carry explicit rational bounds on the few
  values of `Ops.exp` that a concrete run reaches (bounds wide enough to
  contain the true `f64` result).
* `HashMap<usize, HashMap<String, f64>>` attribute tables are modelled as
  total functions `Nat → String → Option ℚ`: `none` plays the role of an
  absent key.  Hash-map iteration during trajectory recording is modelled
  pointwise per key (each present key is visited exactly once and the
  per-key effects are independent, so iteration order is irrelevant).
* `edges : HashMap<usize, AdjacencyLists>` is modelled as an association
  list (no duplicate keys by construction); the scheduler sorts the key
  set, which makes the hash iteration order irrelevant there as well.
* Rust function pointers (`FnType`) stored in the update sequence are
  modelled by the enumeration `FnTag` together with the interpreter
  `applyFn`; `Vec<(usize, FnType)>` becomes `List (Nat × FnTag)`.
* a `.expect(..)` / out-of-bounds panic in the source is modelled by an
  arbitrary junk value (`Option.getD 0` and friends); every theorem below
  only evaluates the embedding on states where those panic paths are not
  reached, except where explicitly noted.
* `1e-128`, the precision floor of the source, is modelled by the exact
  rational `tiny = 10 ^ (-128)` (the `f64` literal denotes the closest
  double, which differs from `10 ^ (-128)` by a relative error below
  `2 ^ (-52)`; no statement below depends on that difference).
-/

namespace Pyhgf

/-- Rational stand-ins for the three transcendental `f64` functions used by
the kernels (`exp`, `ln`, `sqrt`).  The embedding is parametric in them. -/
structure Ops where
  exp : ℚ → ℚ
  log : ℚ → ℚ
  sqrt : ℚ → ℚ

/-- Exact model of the `1e-128` floor used throughout the source. -/
def tiny : ℚ := 1 / 10 ^ 128

/-- Model of Rust `x.clamp(lo, hi)` (for `lo ≤ hi`). -/
def qclamp (x lo hi : ℚ) : ℚ := max lo (min hi x)

/-- Model of `fn sigmoid(x) = 1.0 / (1.0 + (-x).exp())` from
`updates/posterior/continuous.rs` and `updates/posterior/volatile.rs`. -/
def sigmoidQ (ops : Ops) (x : ℚ) : ℚ := 1 / (1 + ops.exp (-x))

/-- Model of the parametrised sigmoid `s(x, θ, φ) = sigmoid(φ·(x−θ))`. -/
def sFun (ops : Ops) (x theta phi : ℚ) : ℚ := sigmoidQ ops (phi * (x - theta))

/-- Model of the smoothed rectangular weighting function
`b(x, θl, φl, θr, φr) = s(x, θl, φl) · (1 − s(x, θr, φr))`. -/
def bFun (ops : Ops) (x thetaL phiL thetaR phiR : ℚ) : ℚ :=
  sFun ops x thetaL phiL * (1 - sFun ops x thetaR phiR)

/-- Model of `struct AdjacencyLists` from `model.rs` (the `node_type`
string and the four optional neighbour lists). -/
structure AdjacencyLists where
  node_type : String
  value_parents : Option (List Nat)
  value_children : Option (List Nat)
  volatility_parents : Option (List Nat)
  volatility_children : Option (List Nat)
deriving DecidableEq, Repr

/-- Model of `math::CouplingFn`: an activation function with its first and
second derivatives (stored per parent edge on the child node). -/
structure CouplingFn where
  f : ℚ → ℚ
  df : ℚ → ℚ
  d2f : ℚ → ℚ

/-- Model of `struct Attributes` from `model.rs`: per-node scalar floats,
vector attributes and function-pointer attributes, each keyed by node id
and attribute name.  `none` is an absent key. -/
structure Attributes where
  floats : Nat → String → Option ℚ
  vectors : Nat → String → Option (List ℚ)
  fnPtrs : Nat → String → Option (List CouplingFn)

/-- Model of `struct NodeTrajectories` from `model.rs`. -/
structure NodeTrajectories where
  floats : Nat → String → Option (List ℚ)
  vectors : Nat → String → Option (List (List ℚ))

/-- Enumeration of the update-kernel function pointers stored in the
update sequence (the Rust side stores raw `fn` pointers of type `FnType`;
`applyFn` below interprets a tag as the corresponding kernel). -/
inductive FnTag where
  | predictionContinuous
  | predictionVolatile
  | peContinuous
  | peVolatile
  | peExponential
  | poContinuous
  | poContinuousEhgf
  | poContinuousUnbounded
  | poVolatile
  | poVolatileEhgf
  | poVolatileUnbounded
deriving DecidableEq, Repr

/-- Model of `struct UpdateSequence` from `model.rs`. -/
structure UpdateSeq where
  predictions : List (Nat × FnTag)
  updates : List (Nat × FnTag)
deriving DecidableEq, Repr

/-- Model of `struct Network` from `model.rs`. -/
structure Network where
  attributes : Attributes
  edges : List (Nat × AdjacencyLists)
  inputs : List Nat
  update_type : String
  update_sequence : UpdateSeq
  node_trajectories : NodeTrajectories

/-- Lookup of a node id in the association-list model of the edge table. -/
def lookupAdj (edges : List (Nat × AdjacencyLists)) (i : Nat) : Option AdjacencyLists :=
  (edges.find? (fun p => p.1 == i)).map (·.2)

/-- Lookup of `network.edges.get(&i)`. -/
def Network.edge (net : Network) (i : Nat) : Option AdjacencyLists :=
  lookupAdj net.edges i

/-- Read a float attribute (`attributes.floats.get(&i).get(k)`). -/
def Network.getF (net : Network) (i : Nat) (k : String) : Option ℚ :=
  net.attributes.floats i k

/-- Read a float attribute, panicking reads (`.expect`) modelled by the
junk default `0` (never reached in the theorems below). -/
def Network.getFD (net : Network) (i : Nat) (k : String) (d : ℚ) : ℚ :=
  (net.attributes.floats i k).getD d

/-- Read a vector attribute. -/
def Network.getV (net : Network) (i : Nat) (k : String) : Option (List ℚ) :=
  net.attributes.vectors i k

/-- Write (insert) one float attribute of one node. -/
def Network.setF (net : Network) (i : Nat) (k : String) (v : ℚ) : Network :=
  { net with attributes :=
    { net.attributes with floats := fun j k2 =>
        if j = i ∧ k2 = k then some v else net.attributes.floats j k2 } }

/-- Write (insert) one vector attribute of one node. -/
def Network.setV (net : Network) (i : Nat) (k : String) (v : List ℚ) : Network :=
  { net with attributes :=
    { net.attributes with vectors := fun j k2 =>
        if j = i ∧ k2 = k then some v else net.attributes.vectors j k2 } }

/-- Rust `cs[i]` on a coupling-strength vector wrapped in
`.map(|cs| cs[i]).unwrap_or(default)`: a `none` vector yields the default,
an out-of-range index is a panic (junk `0`). -/
def couplingAt (cs : Option (List ℚ)) (i : Nat) (d : ℚ) : ℚ :=
  match cs with
  | none => d
  | some l => (l.get? i).getD 0

/-- Index-carrying fold used to model
`for (i, &idx) in list.iter().enumerate()`. -/
def foldEnumAux (f : ℚ → Nat → Nat → ℚ) : Nat → List Nat → ℚ → ℚ
  | _, [], acc => acc
  | i, x :: xs, acc => foldEnumAux f (i + 1) xs (f acc i x)

/-- Iteration `for (i, &idx) in list.iter().enumerate()` accumulating a
rational value. -/
def foldEnum (l : List Nat) (init : ℚ) (f : ℚ → Nat → Nat → ℚ) : ℚ :=
  foldEnumAux f 0 l init

/-! ### Prediction kernel for continuous state nodes
(`updates/prediction/continuous.rs`) -/

/-- Model of `prediction_continuous_state_node`.  Computes the expected
mean from the autoconnection, tonic drift and value parents, the expected
precision from the tonic volatility and volatility parents (with the
`[-80, 80]` exponent clamp and the `1e-128` volatility floor), stores
`expected_mean`, `current_variance`, `effective_precision`, and stores
`expected_precision` except for input nodes without volatility parents. -/
def prediction_continuous_state_node (ops : Ops) (net : Network) (node_idx : Nat)
    (time_step : ℚ) : Network :=
  -- 1. predict the mean
  let mean := net.getFD node_idx "mean" 0
  let tonic_drift := net.getFD node_idx "tonic_drift" 0
  let autoconnection_strength := net.getFD node_idx "autoconnection_strength" 0
  let value_parents := (net.edge node_idx).bind (·.value_parents)
  let driftrate :=
    match value_parents with
    | none => tonic_drift
    | some vp_idxs =>
      let coupling_strengths := net.getV node_idx "value_coupling_parents"
      foldEnum vp_idxs tonic_drift (fun acc i parent_idx =>
        acc + couplingAt coupling_strengths i 1 * net.getFD parent_idx "expected_mean" 0)
  let expected_mean := autoconnection_strength * mean + time_step * driftrate
  -- 2. predict the precision
  let precision := net.getFD node_idx "precision" 0
  let tonic_volatility := net.getFD node_idx "tonic_volatility" 0
  let volatility_parents := (net.edge node_idx).bind (·.volatility_parents)
  let total_volatility :=
    match volatility_parents with
    | none => tonic_volatility
    | some vol_parent_idxs =>
      let vol_coupling_strengths := net.getV node_idx "volatility_coupling_parents"
      foldEnum vol_parent_idxs tonic_volatility (fun acc i parent_idx =>
        acc + couplingAt vol_coupling_strengths i 1 * net.getFD parent_idx "mean" 0)
  let predicted_volatility :=
    max (time_step * ops.exp (qclamp total_volatility (-80) 80)) tiny
  let expected_precision := 1 / (1 / precision + predicted_volatility)
  let effective_precision := predicted_volatility * expected_precision
  -- 3. store results
  let is_input : Bool := match net.edge node_idx with
    | none => true
    | some e => e.value_children.isNone && e.volatility_children.isNone
  let has_volatility_parents : Bool := match net.edge node_idx with
    | none => false
    | some e => e.volatility_parents.isSome
  let net1 := if is_input && !has_volatility_parents then net
    else net.setF node_idx "expected_precision" expected_precision
  let current_variance := 1 / (net1.getFD node_idx "precision" 1)
  let net2 := net1.setF node_idx "current_variance" current_variance
  let net3 := net2.setF node_idx "expected_mean" expected_mean
  net3.setF node_idx "effective_precision" effective_precision

/-! ### Prediction-error kernel for continuous state nodes
(`updates/prediction_error/continuous.rs`) -/

/-- Model of `prediction_error_continuous_state_node`.  Stores
`value_prediction_error = mean − expected_mean`, divided by the length of
the `value_parents` list whenever that list is present (note: the source
divides by the raw length, which is `0` for a present-but-empty list; in
`f64` that division produces a non-finite value, modelled here by the
`ℚ` convention `x / 0 = 0`), and the volatility prediction error
`expected_precision/precision + expected_precision·δ² − 1` divided by the
length of the `volatility_parents` list whenever present. -/
def prediction_error_continuous_state_node (net : Network) (node_idx : Nat) : Network :=
  let n_value_parents := ((net.edge node_idx).bind (·.value_parents)).map (·.length)
  let n_volatility_parents := ((net.edge node_idx).bind (·.volatility_parents)).map (·.length)
  let mean := net.getFD node_idx "mean" 0
  let expected_mean := net.getFD node_idx "expected_mean" 0
  let precision := net.getFD node_idx "precision" 0
  let expected_precision := net.getFD node_idx "expected_precision" 0
  let value_prediction_error :=
    match n_value_parents with
    | none => mean - expected_mean
    | some n => (mean - expected_mean) / (n : ℚ)
  let vol_pe_raw := expected_precision / precision
      + expected_precision * value_prediction_error ^ 2 - 1
  let volatility_prediction_error :=
    match n_volatility_parents with
    | none => vol_pe_raw
    | some n => vol_pe_raw / (n : ℚ)
  let net1 := net.setF node_idx "value_prediction_error" value_prediction_error
  net1.setF node_idx "volatility_prediction_error" volatility_prediction_error

/-! ### Prediction kernel for volatile state nodes
(`updates/prediction/volatile.rs`) -/

/-- Model of `prediction_volatile_state_node`.  Stores the value-level
`current_variance = 1/precision`, predicts the internal volatility level
(`expected_mean_vol`, `expected_precision_vol`, `effective_precision_vol`)
from the `*_vol` parameters, then predicts the value level whose total
volatility is `tonic_volatility + volatility_coupling_internal · expected_mean_vol`,
with drift contributions from external value parents. -/
def prediction_volatile_state_node (ops : Ops) (net : Network) (node_idx : Nat)
    (time_step : ℚ) : Network :=
  -- store current variance for potential unbounded updates
  let precision := net.getFD node_idx "precision" 0
  let net0 := net.setF node_idx "current_variance" (1 / precision)
  -- 1. predict the volatility level
  let mean_vol := net0.getFD node_idx "mean_vol" 0
  let precision_vol := net0.getFD node_idx "precision_vol" 0
  let tonic_drift_vol := net0.getFD node_idx "tonic_drift_vol" 0
  let autoconnection_strength_vol := net0.getFD node_idx "autoconnection_strength_vol" 0
  let tonic_volatility_vol := net0.getFD node_idx "tonic_volatility_vol" 0
  let expected_mean_vol := autoconnection_strength_vol * mean_vol + time_step * tonic_drift_vol
  let predicted_volatility_vol :=
    max (time_step * ops.exp (qclamp tonic_volatility_vol (-80) 80)) tiny
  let expected_precision_vol := 1 / (1 / precision_vol + predicted_volatility_vol)
  let effective_precision_vol := predicted_volatility_vol * expected_precision_vol
  let net1 := ((net0.setF node_idx "expected_mean_vol" expected_mean_vol).setF
      node_idx "expected_precision_vol" expected_precision_vol).setF
      node_idx "effective_precision_vol" effective_precision_vol
  -- 2a. predict the value-level precision (depends on the volatility level)
  let tonic_volatility := net1.getFD node_idx "tonic_volatility" 0
  let volatility_coupling_internal := net1.getFD node_idx "volatility_coupling_internal" 0
  let total_volatility := tonic_volatility + volatility_coupling_internal * expected_mean_vol
  let predicted_volatility :=
    max (time_step * ops.exp (qclamp total_volatility (-80) 80)) tiny
  let expected_precision := 1 / (1 / precision + predicted_volatility)
  let effective_precision := predicted_volatility * expected_precision
  -- 2b. predict the value-level mean (including value parents if any)
  let mean := net1.getFD node_idx "mean" 0
  let tonic_drift := net1.getFD node_idx "tonic_drift" 0
  let autoconnection_strength := net1.getFD node_idx "autoconnection_strength" 0
  let value_parents := (net1.edge node_idx).bind (·.value_parents)
  let driftrate :=
    match value_parents with
    | none => tonic_drift
    | some vp_idxs =>
      let coupling_strengths := net1.getV node_idx "value_coupling_parents"
      foldEnum vp_idxs tonic_drift (fun acc i parent_idx =>
        acc + couplingAt coupling_strengths i 1 * net1.getFD parent_idx "expected_mean" 0)
  let expected_mean := autoconnection_strength * mean + time_step * driftrate
  ((net1.setF node_idx "expected_mean" expected_mean).setF
      node_idx "expected_precision" expected_precision).setF
      node_idx "effective_precision" effective_precision

/-! ### Posterior kernels for continuous state nodes
(`updates/posterior/continuous.rs`) -/

/-- Lookup of the coupling function stored on a child for the parent at
`node_idx` (the `parent_pos`-based lookup shared by the posterior and
prospective helpers). -/
def couplingFnFor (net : Network) (child_idx node_idx : Nat) : Option CouplingFn :=
  (((net.edge child_idx).bind (·.value_parents)).bind
      (fun vp => vp.indexOf? node_idx)).bind
    (fun pos => (net.attributes.fnPtrs child_idx "value_coupling_fn_parents").bind
      (fun fns => fns.get? pos))

/-- Model of `precision_update_from_children`: the total precision-weighted
prediction error contributed by value children
(`π̂_c · (κ²·g'(μ)² − g''(μ)·δ_c)`, with `(1, 0)` for a missing coupling
function) and volatility children
(`½(κγ)² + (κγ)²Δ − ½κ²γΔ`). -/
def precision_update_from_children (net : Network) (node_idx : Nat) : ℚ :=
  let valuePart :=
    match (net.edge node_idx).bind (·.value_children) with
    | none => 0
    | some vc_idxs =>
      let coupling_strengths := net.getV node_idx "value_coupling_children"
      let parent_mean := net.getFD node_idx "mean" 0
      foldEnum vc_idxs 0 (fun acc i child_idx =>
        let child_expected_precision := net.getFD child_idx "expected_precision" 0
        let kappa := couplingAt coupling_strengths i 1
        let pair :=
          match couplingFnFor net child_idx node_idx with
          | some cf =>
            (cf.df parent_mean ^ 2,
             cf.d2f parent_mean * net.getFD child_idx "value_prediction_error" 0)
          | none => ((1 : ℚ), (0 : ℚ))
        acc + child_expected_precision * (kappa ^ 2 * pair.1 - pair.2))
  let volPart :=
    match (net.edge node_idx).bind (·.volatility_children) with
    | none => 0
    | some volc_idxs =>
      let vol_coupling_strengths := net.getV node_idx "volatility_coupling_children"
      foldEnum volc_idxs 0 (fun acc i child_idx =>
        let effective_precision := net.getFD child_idx "effective_precision" 0
        let volatility_pe := net.getFD child_idx "volatility_prediction_error" 0
        let kappa := couplingAt vol_coupling_strengths i 1
        acc + ((1 : ℚ) / 2) * (kappa * effective_precision) ^ 2
            + (kappa * effective_precision) ^ 2 * volatility_pe
            - ((1 : ℚ) / 2) * kappa ^ 2 * effective_precision * volatility_pe)
  valuePart + volPart

/-- Model of `mean_update_from_children`: the total value plus volatility
precision-weighted prediction error for the mean update, with
`node_precision` as denominator. -/
def mean_update_from_children (net : Network) (node_idx : Nat) (node_precision : ℚ) : ℚ :=
  let value_pwpe :=
    match (net.edge node_idx).bind (·.value_children) with
    | none => 0
    | some vc_idxs =>
      let coupling_strengths := net.getV node_idx "value_coupling_children"
      let parent_mean := net.getFD node_idx "mean" 0
      foldEnum vc_idxs 0 (fun acc i child_idx =>
        let child_expected_precision := net.getFD child_idx "expected_precision" 0
        let child_vape := net.getFD child_idx "value_prediction_error" 0
        let kappa := couplingAt coupling_strengths i 1
        let coupling_fn_prime :=
          match couplingFnFor net child_idx node_idx with
          | some cf => cf.df parent_mean
          | none => (1 : ℚ)
        acc + (kappa * coupling_fn_prime * child_expected_precision / node_precision)
            * child_vape)
  let volatility_pwpe :=
    match (net.edge node_idx).bind (·.volatility_children) with
    | none => 0
    | some volc_idxs =>
      let vol_coupling_strengths := net.getV node_idx "volatility_coupling_children"
      foldEnum volc_idxs 0 (fun acc i child_idx =>
        let effective_precision := net.getFD child_idx "effective_precision" 0
        let volatility_pe := net.getFD child_idx "volatility_prediction_error" 0
        let kappa := couplingAt vol_coupling_strengths i 1
        acc + (kappa * effective_precision * volatility_pe) / (2 * node_precision))
  value_pwpe + volatility_pwpe

/-- Model of `posterior_update_continuous_state_node` (standard variant):
posterior precision `max(expected_precision + Δπ, 1e-128)` first, then the
posterior mean using the posterior precision as denominator. -/
def posterior_update_continuous_state_node (net : Network) (node_idx : Nat) : Network :=
  let expected_precision := net.getFD node_idx "expected_precision" 0
  let expected_mean := net.getFD node_idx "expected_mean" 0
  let precision_wpe := precision_update_from_children net node_idx
  let posterior_precision := max (expected_precision + precision_wpe) tiny
  let mean_wpe := mean_update_from_children net node_idx posterior_precision
  let posterior_mean := expected_mean + mean_wpe
  (net.setF node_idx "precision" posterior_precision).setF node_idx "mean" posterior_mean

/-- Model of `posterior_update_continuous_state_node_ehgf`: posterior mean
first (denominator `expected_precision`), stored immediately, then the
posterior precision `max(expected_precision + Δπ, 1e-128)`. -/
def posterior_update_continuous_state_node_ehgf (net : Network) (node_idx : Nat) : Network :=
  let expected_precision := net.getFD node_idx "expected_precision" 0
  let expected_mean := net.getFD node_idx "expected_mean" 0
  let mean_wpe := mean_update_from_children net node_idx expected_precision
  let posterior_mean := expected_mean + mean_wpe
  let net1 := net.setF node_idx "mean" posterior_mean
  let precision_wpe := precision_update_from_children net1 node_idx
  let posterior_precision := max (expected_precision + precision_wpe) tiny
  net1.setF node_idx "precision" posterior_precision

/-- Model of `posterior_update_continuous_state_node_unbounded`: the
two-quadratic approximation (L1, L2) blended by the smoothed rectangle
`b`; note that the blended posterior precision is stored without any
`1e-128` floor. -/
def posterior_update_continuous_state_node_unbounded (ops : Ops) (net : Network)
    (node_idx : Nat) : Network :=
  let volatility_child_idx :=
    (((net.edge node_idx).bind (·.volatility_children)).bind (·.get? 0)).getD 0
  let expected_mean := net.getFD node_idx "expected_mean" 0
  let expected_precision := net.getFD node_idx "expected_precision" 0
  let vol_coupling := couplingAt (net.getV node_idx "volatility_coupling_children") 0 1
  let child_mean := net.getFD volatility_child_idx "mean" 0
  let child_precision := net.getFD volatility_child_idx "precision" 0
  let child_expected_mean := net.getFD volatility_child_idx "expected_mean" 0
  let child_tonic_volatility := net.getFD volatility_child_idx "tonic_volatility" 0
  let previous_child_variance := max (net.getFD volatility_child_idx "current_variance" 0) tiny
  -- first quadratic approximation L1
  let x := vol_coupling * expected_mean + child_tonic_volatility
  let w_child := sigmoidQ ops (x - ops.log previous_child_variance)
  let child_prediction_error_sq := (child_mean - child_expected_mean) ^ 2
  let numerator := 1 / child_precision + child_prediction_error_sq
  let exp_x_clamped := ops.exp (qclamp x (-80) 80)
  let delta_child := numerator / (previous_child_variance + exp_x_clamped) - 1
  let pi_l1 := expected_precision + ((1 : ℚ) / 2) * vol_coupling ^ 2 * w_child * (1 - w_child)
  let mu_l1 := expected_mean + (vol_coupling * w_child / (2 * pi_l1)) * delta_child
  -- second quadratic approximation L2
  let phi := ops.log (previous_child_variance * (2 + ops.sqrt 3))
  let exp_kappa_phi := ops.exp (qclamp (vol_coupling * phi + child_tonic_volatility) (-80) 80)
  let w_phi := exp_kappa_phi / (previous_child_variance + exp_kappa_phi)
  let delta_phi := numerator / (previous_child_variance + exp_kappa_phi) - 1
  let pi_l2 := expected_precision
      + ((1 : ℚ) / 2) * vol_coupling ^ 2 * w_phi * (w_phi + (2 * w_phi - 1) * delta_phi)
  let mu_hat_phi := ((2 * pi_l2 - 1) * phi + expected_mean) / (2 * pi_l2)
  let mu_l2 := mu_hat_phi + (vol_coupling * w_phi / (2 * pi_l2)) * delta_phi
  -- full quadratic approximation
  let theta_l := ops.sqrt ((6 / 5) * numerator / (previous_child_variance * pi_l1))
  let weighting := bFun ops expected_mean theta_l 8 0 1
  let posterior_precision := (1 - weighting) * pi_l1 + weighting * pi_l2
  let posterior_mean := (1 - weighting) * mu_l1 + weighting * mu_l2
  (net.setF node_idx "precision" posterior_precision).setF node_idx "mean" posterior_mean

/-! ### Posterior kernels for volatile state nodes
(`updates/posterior/volatile.rs`) -/

/-- Model of `precision_update_value_level`: the value-level posterior
precision `expected_precision + Σ κ²·π̂_child` over value children (stored
without any floor). -/
def precision_update_value_level (net : Network) (node_idx : Nat) : ℚ :=
  let expected_precision := net.getFD node_idx "expected_precision" 0
  match (net.edge node_idx).bind (·.value_children) with
  | none => expected_precision
  | some vc_idxs =>
    let coupling_strengths := net.getV node_idx "value_coupling_children"
    foldEnum vc_idxs expected_precision (fun acc i child_idx =>
      acc + (couplingAt coupling_strengths i 1) ^ 2
          * net.getFD child_idx "expected_precision" 0)

/-- Model of `mean_update_value_level`: the value-level posterior mean
`expected_mean + Σ (κ·π̂_c/π)·δ_c` over value children. -/
def mean_update_value_level (net : Network) (node_idx : Nat) (node_precision : ℚ) : ℚ :=
  let expected_mean := net.getFD node_idx "expected_mean" 0
  match (net.edge node_idx).bind (·.value_children) with
  | none => expected_mean
  | some vc_idxs =>
    let coupling_strengths := net.getV node_idx "value_coupling_children"
    foldEnum vc_idxs expected_mean (fun acc i child_idx =>
      acc + (couplingAt coupling_strengths i 1
              * net.getFD child_idx "expected_precision" 0 / node_precision)
          * net.getFD child_idx "value_prediction_error" 0)

/-- Model of `precision_update_volatility_level`:
`π̂_vol + ½(κγ)² + (κγ)²Δ − ½κ²γΔ` with `κ = volatility_coupling_internal`
and `γ = effective_precision` (stored without any floor). -/
def precision_update_volatility_level (net : Network) (node_idx : Nat) : ℚ :=
  let expected_precision_vol := net.getFD node_idx "expected_precision_vol" 0
  let volatility_pe := net.getFD node_idx "volatility_prediction_error" 0
  let effective_precision := net.getFD node_idx "effective_precision" 0
  let volatility_coupling := net.getFD node_idx "volatility_coupling_internal" 0
  expected_precision_vol
    + ((1 : ℚ) / 2) * (volatility_coupling * effective_precision) ^ 2
    + (volatility_coupling * effective_precision) ^ 2 * volatility_pe
    - ((1 : ℚ) / 2) * volatility_coupling ^ 2 * effective_precision * volatility_pe

/-- Model of `mean_update_volatility_level`:
`μ̂_vol + ((κ·γ·Δ)/(2·π_vol)) · observed` (with `observed` defaulting
to `1`). -/
def mean_update_volatility_level (net : Network) (node_idx : Nat)
    (node_precision_vol : ℚ) : ℚ :=
  let expected_mean_vol := net.getFD node_idx "expected_mean_vol" 0
  let volatility_pe := net.getFD node_idx "volatility_prediction_error" 0
  let effective_precision := net.getFD node_idx "effective_precision" 0
  let volatility_coupling := net.getFD node_idx "volatility_coupling_internal" 0
  let observed := net.getFD node_idx "observed" 1
  let precision_weighted_pe :=
    (volatility_coupling * effective_precision * volatility_pe) / (2 * node_precision_vol)
  expected_mean_vol + precision_weighted_pe * observed

/-- Model of `recompute_prediction_errors`: after the value level has been
updated, re-store `value_prediction_error = mean − expected_mean` (divided
by the number of value parents when that list is present) and the
volatility prediction error from the updated value level. -/
def recompute_prediction_errors (net : Network) (node_idx : Nat) : Network :=
  let mean := net.getFD node_idx "mean" 0
  let expected_mean := net.getFD node_idx "expected_mean" 0
  let precision := net.getFD node_idx "precision" 0
  let expected_precision := net.getFD node_idx "expected_precision" 0
  let n_value_parents := ((net.edge node_idx).bind (·.value_parents)).map (·.length)
  let value_pe :=
    match n_value_parents with
    | none => mean - expected_mean
    | some n => (mean - expected_mean) / (n : ℚ)
  let volatility_pe := expected_precision / precision
      + expected_precision * value_pe ^ 2 - 1
  (net.setF node_idx "value_prediction_error" value_pe).setF
    node_idx "volatility_prediction_error" volatility_pe

/-- Value-level update shared by the three volatile posteriors: precision
first (no floor), then mean, then the internal prediction-error
recomputation. -/
def volatile_value_level_step (net : Network) (node_idx : Nat) : Network :=
  let precision_value := precision_update_value_level net node_idx
  let net1 := net.setF node_idx "precision" precision_value
  let mean_value := mean_update_value_level net1 node_idx precision_value
  let net2 := net1.setF node_idx "mean" mean_value
  recompute_prediction_errors net2 node_idx

/-- Model of `posterior_update_volatile_state_node` (standard variant):
value level (precision then mean), recompute prediction errors, then the
volatility level (precision then mean), with no precision floor. -/
def posterior_update_volatile_state_node (net : Network) (node_idx : Nat) : Network :=
  let net2 := volatile_value_level_step net node_idx
  let precision_vol := precision_update_volatility_level net2 node_idx
  let net3 := net2.setF node_idx "precision_vol" precision_vol
  let mean_vol := mean_update_volatility_level net3 node_idx precision_vol
  net3.setF node_idx "mean_vol" mean_vol

/-- Model of `posterior_update_volatile_state_node_ehgf`: value level as in
the standard variant, then the volatility level mean first (denominator
`expected_precision_vol`), then the volatility-level precision (no
floor). -/
def posterior_update_volatile_state_node_ehgf (net : Network) (node_idx : Nat) : Network :=
  let net2 := volatile_value_level_step net node_idx
  let expected_precision_vol := net2.getFD node_idx "expected_precision_vol" 0
  let mean_vol := mean_update_volatility_level net2 node_idx expected_precision_vol
  let net3 := net2.setF node_idx "mean_vol" mean_vol
  let precision_vol := precision_update_volatility_level net3 node_idx
  net3.setF node_idx "precision_vol" precision_vol

/-- Model of `unbounded_volatility_level_update`: the two-quadratic
approximation applied to the internal volatility level (the value level of
the same node plays the role of the volatility child). -/
def unbounded_volatility_level_update (ops : Ops) (net : Network) (node_idx : Nat) :
    ℚ × ℚ :=
  let expected_mean_vol := net.getFD node_idx "expected_mean_vol" 0
  let expected_precision_vol := net.getFD node_idx "expected_precision_vol" 0
  let volatility_coupling := net.getFD node_idx "volatility_coupling_internal" 0
  let tonic_volatility := net.getFD node_idx "tonic_volatility" 0
  let mean := net.getFD node_idx "mean" 0
  let expected_mean := net.getFD node_idx "expected_mean" 0
  let precision := net.getFD node_idx "precision" 0
  let previous_child_variance := max (net.getFD node_idx "current_variance" 0) tiny
  let numerator := 1 / precision + (mean - expected_mean) ^ 2
  -- first quadratic approximation L1
  let x := volatility_coupling * expected_mean_vol + tonic_volatility
  let w_child := sigmoidQ ops (x - ops.log previous_child_variance)
  let exp_x_clamped := ops.exp (qclamp x (-80) 80)
  let delta_child := numerator / (previous_child_variance + exp_x_clamped) - 1
  let pi_l1 := expected_precision_vol
      + ((1 : ℚ) / 2) * volatility_coupling ^ 2 * w_child * (1 - w_child)
  let mu_l1 := expected_mean_vol
      + (volatility_coupling * w_child / (2 * pi_l1)) * delta_child
  -- second quadratic approximation L2
  let phi := ops.log (previous_child_variance * (2 + ops.sqrt 3))
  let exp_kappa_phi := ops.exp (qclamp (volatility_coupling * phi + tonic_volatility) (-80) 80)
  let w_phi := exp_kappa_phi / (previous_child_variance + exp_kappa_phi)
  let delta_phi := numerator / (previous_child_variance + exp_kappa_phi) - 1
  let pi_l2 := expected_precision_vol
      + ((1 : ℚ) / 2) * volatility_coupling ^ 2 * w_phi
          * (w_phi + (2 * w_phi - 1) * delta_phi)
  let mu_hat_phi := ((2 * pi_l2 - 1) * phi + expected_mean_vol) / (2 * pi_l2)
  let mu_l2 := mu_hat_phi + (volatility_coupling * w_phi / (2 * pi_l2)) * delta_phi
  -- full quadratic approximation
  let theta_l := ops.sqrt ((6 / 5) * numerator / (previous_child_variance * pi_l1))
  let weighting := bFun ops expected_mean_vol theta_l 8 0 1
  ((1 - weighting) * pi_l1 + weighting * pi_l2,
   (1 - weighting) * mu_l1 + weighting * mu_l2)

/-- Model of `posterior_update_volatile_state_node_unbounded`: value level
as in the standard variant, then the volatility level by the unbounded
quadratic approximation. -/
def posterior_update_volatile_state_node_unbounded (ops : Ops) (net : Network)
    (node_idx : Nat) : Network :=
  let net2 := volatile_value_level_step net node_idx
  let pm := unbounded_volatility_level_update ops net2 node_idx
  (net2.setF node_idx "precision_vol" pm.1).setF node_idx "mean_vol" pm.2

/-! ### Prediction-error kernel for volatile state nodes
(`updates/prediction_error/volatile.rs`) -/

/-- Model of `prediction_error_volatile_state_node`: value PE divided by
the number of value parents when that list is present; volatility PE from
the internal coupling, never divided. -/
def prediction_error_volatile_state_node (net : Network) (node_idx : Nat) : Network :=
  let n_value_parents := ((net.edge node_idx).bind (·.value_parents)).map (·.length)
  let mean := net.getFD node_idx "mean" 0
  let expected_mean := net.getFD node_idx "expected_mean" 0
  let precision := net.getFD node_idx "precision" 0
  let expected_precision := net.getFD node_idx "expected_precision" 0
  let value_prediction_error :=
    match n_value_parents with
    | none => mean - expected_mean
    | some n => (mean - expected_mean) / (n : ℚ)
  let volatility_prediction_error := expected_precision / precision
      + expected_precision * value_prediction_error ^ 2 - 1
  (net.setF node_idx "value_prediction_error" value_prediction_error).setF
    node_idx "volatility_prediction_error" volatility_prediction_error

/-! ### Prediction-error kernel for exponential-family state nodes -/

/-- Modelled from the spec: the source file
`src/updates/prediction_error/exponential.rs` (the body of
`prediction_error_exponential_state_node`) is not included under `src/`;
only its callers are.  Per spec §4.5, on each observation the kernel adds
the sufficient statistics `(x, x²)` of the observed `mean` componentwise
to the running-sum vector `xis`.  No run in this development ever executes
this kernel; it exists so that the scheduler's output can mention it. -/
def prediction_error_exponential_state_node (net : Network) (node_idx : Nat) : Network :=
  let mean := net.getFD node_idx "mean" 0
  let xis := (net.getV node_idx "xis").getD [0, 1]
  net.setV node_idx "xis" [(xis.get? 0).getD 0 + mean, (xis.get? 1).getD 0 + mean ^ 2]

/-! ### Kernel dispatcher -/

/-- Interpreter for the function-pointer tags: applies the kernel that a
tag denotes (the Rust side calls the stored `fn` pointer directly). -/
def applyFn (ops : Ops) (tag : FnTag) (net : Network) (idx : Nat) (dt : ℚ) : Network :=
  match tag with
  | .predictionContinuous => prediction_continuous_state_node ops net idx dt
  | .predictionVolatile => prediction_volatile_state_node ops net idx dt
  | .peContinuous => prediction_error_continuous_state_node net idx
  | .peVolatile => prediction_error_volatile_state_node net idx
  | .peExponential => prediction_error_exponential_state_node net idx
  | .poContinuous => posterior_update_continuous_state_node net idx
  | .poContinuousEhgf => posterior_update_continuous_state_node_ehgf net idx
  | .poContinuousUnbounded => posterior_update_continuous_state_node_unbounded ops net idx
  | .poVolatile => posterior_update_volatile_state_node net idx
  | .poVolatileEhgf => posterior_update_volatile_state_node_ehgf net idx
  | .poVolatileUnbounded => posterior_update_volatile_state_node_unbounded ops net idx

/-! ### Scheduler (`utils/set_sequence.rs`) -/

/-- Insertion of one element into a sorted list (ascending). -/
def insertSorted (x : Nat) : List Nat → List Nat
  | [] => [x]
  | y :: ys => if x ≤ y then x :: y :: ys else y :: insertSorted x ys

/-- Model of collecting `edges.keys()` and sorting ascending (the hash-map
iteration order is irrelevant after sorting). -/
def sortedKeys (net : Network) : List Nat :=
  (net.edges.map (·.1)).foldr insertSorted []

/-- Merged parent list (`value_parents` chained with `volatility_parents`)
used by the prediction scheduler. -/
def mergedParents (adj : AdjacencyLists) : Option (List Nat) :=
  match adj.value_parents, adj.volatility_parents with
  | some v1, some v2 => some (v1 ++ v2)
  | some v, none => some v
  | none, some v => some v
  | none, none => none

/-- One pass of the prediction scheduler: the first remaining node none of
whose parents is still in the remaining list. -/
def findReady (net : Network) (nodes : List Nat) : Option Nat :=
  nodes.find? (fun idx =>
    match (net.edge idx).bind mergedParents with
    | some vec => !(vec.any (fun item => nodes.contains item))
    | none => true)

/-- Prediction kernel pushed for a node (continuous and volatile state
nodes only; other kinds are removed without a kernel). -/
def predictionKernelFor (net : Network) (idx : Nat) : List (Nat × FnTag) :=
  match net.edge idx with
  | some adj =>
    if adj.node_type = "continuous-state" then [(idx, .predictionContinuous)]
    else if adj.node_type = "volatile-state" then [(idx, .predictionVolatile)]
    else []
  | none => []

/-- Fuel-indexed loop of `get_predictions_sequence`: repeatedly emit the
first node all of whose parents have been emitted; stop when no node can
be emitted (remaining disconnected or cyclic nodes are dropped).  The fuel
is an upper bound on the number of iterations; `get_predictions_sequence`
passes enough fuel for the loop to run to completion. -/
def predictionsLoop (net : Network) : Nat → List Nat → List (Nat × FnTag) →
    List (Nat × FnTag)
  | 0, _, acc => acc
  | fuel + 1, nodes, acc =>
    match findReady net nodes with
    | none => acc
    | some idx =>
      predictionsLoop net fuel (nodes.filter (· ≠ idx))
        (acc ++ predictionKernelFor net idx)

/-- Model of `get_predictions_sequence`. -/
def get_predictions_sequence (net : Network) : List (Nat × FnTag) :=
  let nodes := sortedKeys net
  predictionsLoop net nodes.length nodes []

/-- Model of `get_all_children`: value children chained with volatility
children. -/
def getAllChildren (adj : AdjacencyLists) : List Nat :=
  match adj.value_children, adj.volatility_children with
  | some v, some vol => v ++ vol
  | some v, none => v
  | none, some vol => vol
  | none, none => []

/-- Posterior kernel chosen for an eligible node, by
`(node_type, update_type, has volatility children)`; `ef-state` and
unknown kinds emit nothing. -/
def posteriorKernelFor (net : Network) (idx : Nat) : List (Nat × FnTag) :=
  match net.edge idx with
  | some adj =>
    if adj.node_type = "continuous-state" then
      if adj.volatility_children.isSome then
        if net.update_type = "eHGF" then [(idx, .poContinuousEhgf)]
        else if net.update_type = "unbounded" then [(idx, .poContinuousUnbounded)]
        else [(idx, .poContinuous)]
      else [(idx, .poContinuous)]
    else if adj.node_type = "volatile-state" then
      if net.update_type = "eHGF" then [(idx, .poVolatileEhgf)]
      else if net.update_type = "unbounded" then [(idx, .poVolatileUnbounded)]
      else [(idx, .poVolatile)]
    else []
  | none => []

/-- Prediction-error kernel emitted for an eligible node: continuous and
volatile state nodes only when they have at least one (value or
volatility) parent list present, `ef-state` nodes unconditionally. -/
def peKernelFor (net : Network) (idx : Nat) : List (Nat × FnTag) :=
  let has_parents :=
    match (net.edge idx).bind (·.value_parents),
          (net.edge idx).bind (·.volatility_parents) with
    | none, none => false
    | _, _ => true
  match net.edge idx with
  | some adj =>
    if adj.node_type == "continuous-state" && has_parents then [(idx, .peContinuous)]
    else if adj.node_type == "volatile-state" && has_parents then [(idx, .peVolatile)]
    else if adj.node_type = "ef-state" then [(idx, .peExponential)]
    else []
  | none => []

/-- Fuel-indexed loop of `get_updates_sequence`: per iteration, the batch
of posterior-eligible nodes (all children have left the PE queue) followed
by the batch of PE-eligible nodes (no pending posterior); the loop stops
when both queues are empty or no progress was made (`has_update` is set by
every eligible posterior node, emitting or not, and by every emitted
prediction-error step, mirroring the source exactly). -/
def updatesLoop (net : Network) : Nat → List Nat → List Nat → List (Nat × FnTag) →
    List (Nat × FnTag)
  | 0, _, _, acc => acc
  | fuel + 1, pe, po, acc =>
    let eligiblePo := po.filter (fun idx =>
      (getAllChildren ((net.edge idx).getD ⟨"", none, none, none, none⟩)).all
        (fun c => !pe.contains c))
    let poSteps := eligiblePo.flatMap (posteriorKernelFor net)
    let po2 := po.filter (fun x => !eligiblePo.contains x)
    let eligiblePe := pe.filter (fun idx => !po2.contains idx)
    let peSteps := eligiblePe.flatMap (peKernelFor net)
    let pe2 := pe.filter (fun x => !eligiblePe.contains x)
    let acc2 := acc ++ poSteps ++ peSteps
    let has_update := !eligiblePo.isEmpty || !peSteps.isEmpty
    if pe2.isEmpty && po2.isEmpty then acc2
    else if !has_update then acc2
    else updatesLoop net fuel pe2 po2 acc2

/-- Model of `get_updates_sequence`: PE queue and posterior queue start as
the sorted key set, inputs are removed from the posterior queue, then the
two-phase batch loop runs (the fuel `|pe| + |po| + 1` dominates the number
of progressing iterations, each of which removes at least one node). -/
def get_updates_sequence (net : Network) : List (Nat × FnTag) :=
  let pe := sortedKeys net
  let po := (sortedKeys net).filter (fun x => !net.inputs.contains x)
  updatesLoop net (pe.length + po.length + 1) pe po []

/-- Model of `set_update_sequence` / `Network::set_update_sequence`. -/
def set_update_sequence (net : Network) : Network :=
  { net with update_sequence :=
      { predictions := get_predictions_sequence net,
        updates := get_updates_sequence net } }

/-! ### Observation injection (`updates/observations.rs`) -/

/-- Model of `observation_update`: writes the observation into the node's
`mean` attribute, but only when both the node's float map and its `mean`
key already exist. -/
def observation_update (net : Network) (node_idx : Nat) (observations : ℚ) : Network :=
  match net.getF node_idx "mean" with
  | some _ => net.setF node_idx "mean" observations
  | none => net

/-! ### Belief propagation driver (`utils/beliefs_propagation.rs` and
`Network::input_data` in `model.rs`) -/

/-- Sequential application of a stored kernel sequence. -/
def applySeq (ops : Ops) (net : Network) (seq : List (Nat × FnTag)) (dt : ℚ) : Network :=
  seq.foldl (fun n p => applyFn ops p.2 n p.1 dt) net

/-- Model of `belief_propagation`: all prediction kernels, then one
observation write per entry of `observations_set` into
`network.inputs[i]` (an out-of-range index is a panic in the source,
modelled as a no-op), then all update kernels. -/
def belief_propagation (ops : Ops) (net : Network) (observations_set : List ℚ)
    (predictions updates : List (Nat × FnTag)) (time_step : ℚ) : Network :=
  let net1 := applySeq ops net predictions time_step
  let net2 := observations_set.enum.foldl (fun n p =>
    match n.inputs.get? p.1 with
    | some idx => observation_update n idx p.2
    | none => n) net1
  applySeq ops net2 updates time_step

/-- One trajectory-recording step for the float attributes: every present
(node, key) float is appended to its trajectory (hash-map iteration
visits each present key exactly once; the per-key effects are independent,
so the iteration is modelled pointwise). -/
def recordFloats (floats : Nat → String → Option ℚ)
    (traj : Nat → String → Option (List ℚ)) : Nat → String → Option (List ℚ) :=
  fun n k =>
    match floats n k with
    | some v => some ((traj n k).getD [] ++ [v])
    | none => traj n k

/-- One trajectory-recording step for the vector attributes. -/
def recordVectors (vectors : Nat → String → Option (List ℚ))
    (traj : Nat → String → Option (List (List ℚ))) :
    Nat → String → Option (List (List ℚ)) :=
  fun n k =>
    match vectors n k with
    | some v => some ((traj n k).getD [] ++ [v])
    | none => traj n k

/-- Preallocation of the trajectory store: one empty series per (node,
key) present at the start of `input_data`. -/
def preallocTrajectories (net : Network) : NodeTrajectories :=
  { floats := fun n k => (net.attributes.floats n k).map (fun _ => []),
    vectors := fun n k => (net.attributes.vectors n k).map (fun _ => []) }

/-- Model of the per-observation loop body of `Network::input_data`: one
`belief_propagation` call with the single-element observation vector
`vec![observation]`, then the recording of every float and vector
attribute. -/
def inputDataStep (ops : Ops) (predictions updates : List (Nat × FnTag))
    (state : Network × NodeTrajectories) (obs dt : ℚ) : Network × NodeTrajectories :=
  let net := belief_propagation ops state.1 [obs] predictions updates dt
  (net,
   { floats := recordFloats net.attributes.floats state.2.floats,
     vectors := recordVectors net.attributes.vectors state.2.vectors })

/-- Model of `Network::input_data`: recompute the update sequence when it
is empty, default the time steps to `1.0`, snapshot both kernel sequences,
preallocate the trajectory store, then run one `belief_propagation` plus
recording step per observation (`time_steps[t]`, a panic when the
user-provided list is too short, is modelled by the junk default `1`). -/
def input_data (ops : Ops) (net0 : Network) (observations : List ℚ)
    (time_steps : Option (List ℚ)) : Network :=
  let net := if net0.update_sequence.predictions.isEmpty
      && net0.update_sequence.updates.isEmpty then set_update_sequence net0 else net0
  let n_time := observations.length
  let ts := time_steps.getD (List.replicate n_time 1)
  let predictions := net.update_sequence.predictions
  let updates := net.update_sequence.updates
  let final := observations.enum.foldl (fun state p =>
      inputDataStep ops predictions updates state p.2 ((ts.get? p.1).getD 1))
    (net, preallocTrajectories net)
  { final.1 with node_trajectories := final.2 }

/-! ### Network construction (`Network::new` and `Network::add_nodes` in
`model.rs`) -/

/-- Finite float-attribute map given by an association list of defaults. -/
def mkFloats (l : List (String × ℚ)) : String → Option ℚ :=
  fun k => (l.find? (fun p => p.1 == k)).map (·.2)

/-- Finite vector-attribute map given by an association list. -/
def mkVecs (l : List (String × List ℚ)) : String → Option (List ℚ) :=
  fun k => (l.find? (fun p => p.1 == k)).map (·.2)

/-- Model of `Network::new(update_type)`: empty attribute tables, edges,
inputs, sequences and trajectories; the update-type string is stored
verbatim (no validation happens here or anywhere else). -/
def Network.new (update_type : String) : Network :=
  { attributes := ⟨fun _ _ => none, fun _ _ => none, fun _ _ => none⟩,
    edges := [],
    inputs := [],
    update_type := update_type,
    update_sequence := ⟨[], []⟩,
    node_trajectories := ⟨fun _ _ => none, fun _ _ => none⟩ }

/-- Model of `HashMap::insert` on the edge table (replace or append; new
node ids are fresh, so this is an append in every reachable state). -/
def insertEdge (edges : List (Nat × AdjacencyLists)) (k : Nat) (v : AdjacencyLists) :
    List (Nat × AdjacencyLists) :=
  if edges.any (fun p => p.1 == k) then
    edges.map (fun p => if p.1 == k then (k, v) else p)
  else edges ++ [(k, v)]

/-- Model of `edges.get_mut(&k)` followed by a mutation: absent keys are
silently skipped. -/
def modifyEdge (edges : List (Nat × AdjacencyLists)) (k : Nat)
    (f : AdjacencyLists → AdjacencyLists) : List (Nat × AdjacencyLists) :=
  edges.map (fun p => if p.1 == k then (p.1, f p.2) else p)

/-- Append the new parent id to a child's parent list (`Some → push`,
`None → vec![node_id]`). -/
def pushParent (node_id : Nat) (cur : Option (List Nat)) : Option (List Nat) :=
  match cur with
  | some parents => some (parents ++ [node_id])
  | none => some [node_id]

/-- Model of growing a child's coupling vector by one default entry
(`entry(child).or_default()`, then `entry(key)` push `1.0` or insert
`vec![1.0]`). -/
def pushChildCoupling (vectors : Nat → String → Option (List ℚ)) (child : Nat)
    (key : String) : Nat → String → Option (List ℚ) :=
  fun j k =>
    if j = child ∧ k = key then some ((vectors child key).getD [] ++ [1])
    else vectors j k

/-- Model of `Network::add_nodes` (the `IntOrList` arguments are taken
already converted to optional id lists, as by `IntOrList::into_vec`).
Inserts the node's adjacency record and per-kind attribute defaults,
establishes the reciprocal edges and coupling-vector entries for the
children arguments, and appends the node to `inputs` when both children
arguments are absent (this happens before the kind dispatch, so it applies
to every kind, including unknown ones for which nothing else is done). -/
def add_nodes (net : Network) (kind : String)
    (value_parents value_children volatility_parents volatility_children :
      Option (List Nat)) : Network :=
  let node_id := net.edges.length
  let is_input := value_children.isNone && volatility_children.isNone
  let inputs2 := if is_input then net.inputs ++ [node_id] else net.inputs
  let edgesRec : AdjacencyLists :=
    ⟨kind, value_parents, value_children, volatility_parents, volatility_children⟩
  if kind = "continuous-state" then
    let autoTonic : ℚ × ℚ := if is_input then (0, 0) else (1, -4)
    let floats2 := fun j k => if j = node_id then
        mkFloats [("mean", 0), ("expected_mean", 0), ("precision", 1),
          ("expected_precision", 1), ("tonic_volatility", autoTonic.2),
          ("tonic_drift", 0), ("autoconnection_strength", autoTonic.1),
          ("current_variance", 1)] k
      else net.attributes.floats j k
    let edges2 := insertEdge net.edges node_id edgesRec
    -- reciprocal value edges and coupling entries for the children
    let edges3 := match value_children with
      | some vc => vc.foldl (fun es c => modifyEdge es c
          (fun adj => { adj with value_parents := pushParent node_id adj.value_parents })) edges2
      | none => edges2
    let vectors3 := match value_children with
      | some vc => vc.foldl (fun vs c => pushChildCoupling vs c "value_coupling_parents")
          net.attributes.vectors
      | none => net.attributes.vectors
    -- reciprocal volatility edges and coupling entries for the children
    let edges4 := match volatility_children with
      | some volc => volc.foldl (fun es c => modifyEdge es c
          (fun adj => { adj with volatility_parents := pushParent node_id adj.volatility_parents })) edges3
      | none => edges3
    let vectors4 := match volatility_children with
      | some volc => volc.foldl
          (fun vs c => pushChildCoupling vs c "volatility_coupling_parents") vectors3
      | none => vectors3
    -- the node's own coupling-strength vectors (inserted last, as in the source)
    let vecAttrs : List (String × List ℚ) :=
      (match value_parents with
        | some vp => [("value_coupling_parents", List.replicate vp.length 1)]
        | none => []) ++
      (match value_children with
        | some vc => [("value_coupling_children", List.replicate vc.length 1)]
        | none => []) ++
      (match volatility_parents with
        | some volp => [("volatility_coupling_parents", List.replicate volp.length 1)]
        | none => []) ++
      (match volatility_children with
        | some volc => [("volatility_coupling_children", List.replicate volc.length 1)]
        | none => [])
    let vectors5 := if vecAttrs.isEmpty then vectors4
      else fun j k => if j = node_id then mkVecs vecAttrs k else vectors4 j k
    { net with
      attributes := { net.attributes with floats := floats2, vectors := vectors5 },
      edges := edges4, inputs := inputs2 }
  else if kind = "ef-state" then
    let floats2 := fun j k => if j = node_id then
        mkFloats [("mean", 0), ("nus", 3)] k
      else net.attributes.floats j k
    let vectors2 := fun j k => if j = node_id then
        mkVecs [("xis", [0, 1])] k
      else net.attributes.vectors j k
    { net with
      attributes := { net.attributes with floats := floats2, vectors := vectors2 },
      edges := insertEdge net.edges node_id edgesRec, inputs := inputs2 }
  else if kind = "volatile-state" then
    -- volatile nodes never record external volatility edges
    let volatileEdges : AdjacencyLists :=
      ⟨kind, value_parents, value_children, none, none⟩
    let floats2 := fun j k => if j = node_id then
        mkFloats [("mean", 0), ("expected_mean", 0), ("precision", 1),
          ("expected_precision", 1), ("tonic_volatility", -4), ("tonic_drift", 0),
          ("autoconnection_strength", 1), ("current_variance", 1),
          ("mean_vol", 0), ("expected_mean_vol", 0), ("precision_vol", 1),
          ("expected_precision_vol", 1), ("tonic_volatility_vol", -4),
          ("tonic_drift_vol", 0), ("autoconnection_strength_vol", 1),
          ("volatility_coupling_internal", 1), ("observed", 1),
          ("effective_precision", 0), ("value_prediction_error", 0),
          ("volatility_prediction_error", 0), ("effective_precision_vol", 0)] k
      else net.attributes.floats j k
    let edges2 := insertEdge net.edges node_id volatileEdges
    let edges3 := match value_children with
      | some vc => vc.foldl (fun es c => modifyEdge es c
          (fun adj => { adj with value_parents := pushParent node_id adj.value_parents })) edges2
      | none => edges2
    let vectors3 := match value_children with
      | some vc => vc.foldl (fun vs c => pushChildCoupling vs c "value_coupling_parents")
          net.attributes.vectors
      | none => net.attributes.vectors
    let vecAttrs : List (String × List ℚ) :=
      (match value_parents with
        | some vp => [("value_coupling_parents", List.replicate vp.length 1)]
        | none => []) ++
      (match value_children with
        | some vc => [("value_coupling_children", List.replicate vc.length 1)]
        | none => [])
    let vectors4 := if vecAttrs.isEmpty then vectors3
      else fun j k => if j = node_id then mkVecs vecAttrs k else vectors3 j k
    { net with
      attributes := { net.attributes with floats := floats2, vectors := vectors4 },
      edges := edges3, inputs := inputs2 }
  else
    { net with inputs := inputs2 }

/-! ### Coupling updates (`utils/set_coupling.rs`) -/

/-- One side of `set_coupling`: write the coupling at the given position
of node `n`'s coupling vector `key`; silently skipped when the position,
the vector, or the index does not exist (the `if pos < couplings.len()`
guard of the source). -/
def couplingWrite (net : Network) (n : Nat) (key : String) (pos : Option Nat)
    (coupling : ℚ) : Network :=
  match pos with
  | some i =>
    match net.getV n key with
    | some couplings =>
      if i < couplings.length then net.setV n key (couplings.set i coupling)
      else net
    | none => net
  | none => net

/-- Model of `set_coupling`: write the coupling to the matching position
of the child's `value_coupling_parents` vector and of the parent's
`value_coupling_children` vector; each side is silently skipped when the
edge position, the vector, or the index does not exist. -/
def set_coupling (net : Network) (parent_idx child_idx : Nat) (coupling : ℚ) : Network :=
  -- 1. child side
  let net1 := couplingWrite net child_idx "value_coupling_parents"
    (((net.edge child_idx).bind (·.value_parents)).bind
      (fun vp => vp.indexOf? parent_idx)) coupling
  -- 2. parent side
  couplingWrite net1 parent_idx "value_coupling_children"
    (((net1.edge parent_idx).bind (·.value_children)).bind
      (fun vc => vc.indexOf? child_idx)) coupling

/-! ### Concrete networks and a concrete `Ops` instance

These are the networks used by the repository's own tests and by the
end-to-end scenarios of the spec, rebuilt through `Network.new` /
`add_nodes` exactly as the tests build them. -/

/-- Concrete rational stand-in for the transcendental operations: `exp 0`
is `1` (exact) and `exp (-4)` is `18315639 / 10^9`, within `2·10^-10` of
the true `e^(-4) = 0.0183156388887...` (and of the `f64` result, which is
correctly rounded).  All other arguments return the junk value `1`; every
concrete run below either never reaches them or (in the equivalence
witness) reaches them at identical arguments on both sides, so the junk
value never influences a comparison. -/
def opsApprox : Ops :=
  ⟨fun x => if x = -4 then 18315639 / 10 ^ 9 else if x = 0 then 1 else 1,
   fun _ => 0, fun _ => 0⟩

/-- Two-node continuous HGF of test `test_one_node_hgf` and spec scenario
1: node 0 an input, node 1 its value parent. -/
def net2cont : Network :=
  add_nodes (add_nodes (Network.new "eHGF") "continuous-state" none none none none)
    "continuous-state" none (some [0]) none none

/-- Volatile-node network of the `test_volatile_node_*_matches_explicit`
tests: node 0 an input, node 1 a `volatile-state` value parent. -/
def volNet (ut : String) : Network :=
  add_nodes (add_nodes (Network.new ut) "continuous-state" none none none none)
    "volatile-state" none (some [0]) none none

/-- Explicit three-node network of the same tests: node 0 an input, node 1
its continuous value parent, node 2 the volatility parent of node 1. -/
def expNet (ut : String) : Network :=
  add_nodes (add_nodes (add_nodes (Network.new ut) "continuous-state" none none none none)
    "continuous-state" none (some [0]) none none) "continuous-state" none none none
    (some [1])

/-- One continuous node whose `value_parents` list is present but empty
(`add_nodes(value_parents=[])`, expressible from Python), with its mean
moved off the expected mean; exercises the division by a zero parent
count in the prediction-error kernel. -/
def netEmptyVP : Network :=
  (add_nodes (Network.new "eHGF") "continuous-state" (some []) none none none).setF
    0 "mean" 1

/-- Two independent input nodes (both childless); exercises the
observation phase with more than one input node. -/
def netTwoInputs : Network :=
  add_nodes (add_nodes (Network.new "eHGF") "continuous-state" none none none none)
    "continuous-state" none none none none

/-- One continuous node created with a present-but-empty `value_children`
list (`add_nodes(value_children=[])`): it has no children, yet it is not
recorded in `inputs`. -/
def netEmptyVC : Network :=
  add_nodes (Network.new "eHGF") "continuous-state" none (some []) none none

/-- One-sided construction of the edge-symmetry counterexample: node 1 is
added with a `value_parents` argument naming the existing node 0; the
source records the parent on node 1 only (reciprocal bookkeeping exists
for children arguments alone). -/
def netParentArg : Network :=
  add_nodes (add_nodes (Network.new "eHGF") "continuous-state" none none none none)
    "continuous-state" (some [0]) none none none

/-! ### Statement-level predicates (used only to phrase theorems) -/

/-- The coupling strength stored at position `i` of node `n`'s coupling
vector `key` (absent vector or out-of-range index give `none`). -/
def coupAt (net : Network) (n : Nat) (key : String) (i : Nat) : Option ℚ :=
  (net.getV n key).bind (fun v => v.get? i)

/-- The coupling vector `key` of node `n` is present exactly when the edge
list `l` is, with matching length. -/
def alignedWith (net : Network) (n : Nat) (key : String) (l : Option (List Nat)) : Prop :=
  (net.getV n key).map List.length = l.map List.length

/-- Every node's parent-side coupling vectors align with its parent lists,
and the parent lists are duplicate-free. -/
def parentListsAligned (net : Network) : Prop :=
  ∀ c adj, net.edge c = some adj →
    (alignedWith net c "value_coupling_parents" adj.value_parents
      ∧ ∀ vps, adj.value_parents = some vps → vps.Nodup)
    ∧ (alignedWith net c "volatility_coupling_parents" adj.volatility_parents
      ∧ ∀ vps, adj.volatility_parents = some vps → vps.Nodup)

/-- Value-edge symmetry: whenever node `c` lists `p` at position `i` of its
`value_parents`, node `p` exists, lists `c` at some position `j` of its
`value_children`, its `value_coupling_children` vector aligns with that
list, and the two stored coupling strengths agree. -/
def valueSymmetric (net : Network) : Prop :=
  ∀ c adj vps i p, net.edge c = some adj → adj.value_parents = some vps →
    vps.get? i = some p →
    ∃ adjp vcs, net.edge p = some adjp ∧ adjp.value_children = some vcs ∧
      alignedWith net p "value_coupling_children" (some vcs) ∧
      ∃ j, vcs.get? j = some c ∧
        coupAt net c "value_coupling_parents" i = coupAt net p "value_coupling_children" j

/-- Volatility-edge symmetry, the volatility counterpart of
`valueSymmetric`. -/
def volatilitySymmetric (net : Network) : Prop :=
  ∀ c adj vps i p, net.edge c = some adj → adj.volatility_parents = some vps →
    vps.get? i = some p →
    ∃ adjp vcs, net.edge p = some adjp ∧ adjp.volatility_children = some vcs ∧
      alignedWith net p "volatility_coupling_children" (some vcs) ∧
      ∃ j, vcs.get? j = some c ∧
        coupAt net c "volatility_coupling_parents" i
          = coupAt net p "volatility_coupling_children" j

/-- Vector attributes exist only at node indices with an edge entry. -/
def vectorsOnNodesOnly (net : Network) : Prop :=
  ∀ n, net.edge n = none → ∀ k, net.getV n k = none

/-- Every edge key is below the edge count (so the next node id is fresh). -/
def keysBelowLength (net : Network) : Prop :=
  ∀ pr ∈ net.edges, pr.1 < net.edges.length

/-- The construction invariant: fresh ids, vectors only on existing nodes,
aligned duplicate-free parent lists, and value and volatility edge
symmetry including the stored coupling strengths. -/
def wellFormedNet (net : Network) : Prop :=
  keysBelowLength net ∧ vectorsOnNodesOnly net ∧ parentListsAligned net
    ∧ valueSymmetric net ∧ volatilitySymmetric net

/-- A children argument of `add_nodes` is admissible when it is
duplicate-free and refers only to existing nodes. -/
def childArgsOk (net : Network) : Option (List Nat) → Prop
  | none => True
  | some vc => vc.Nodup ∧ ∀ ch ∈ vc, (net.edge ch).isSome = true

/-- Whether a tag denotes one of the six posterior-update kernels. -/
def isPosteriorTag : FnTag → Bool
  | .poContinuous | .poContinuousEhgf | .poContinuousUnbounded
  | .poVolatile | .poVolatileEhgf | .poVolatileUnbounded => true
  | _ => false

/-- Whether a tag denotes one of the three prediction-error kernels. -/
def isPredErrorTag : FnTag → Bool
  | .peContinuous | .peVolatile | .peExponential => true
  | _ => false

/-- A node is a well-formed child for scheduling purposes: it exists, its
kind is one of the three known kinds, and it either is an `ef-state` node
or has at least one parent list present (so that its pass through the PE
queue emits a prediction-error step).  Every network built bottom-up by
`add_nodes` satisfies this for all of its children. -/
def childOk (net : Network) (c : Nat) : Bool :=
  match net.edge c with
  | some adj =>
    adj.node_type == "ef-state" ||
      ((adj.node_type == "continuous-state" || adj.node_type == "volatile-state") &&
       (adj.value_parents.isSome || adj.volatility_parents.isSome))
  | none => false

/-! ### Statement material for the volatile-equivalence claim

The two networks of the volatile-equivalence tests share node ids 0 (the
input) and 1 (the value parent); `expNet` adds node 2 (the explicit
volatility parent).  The predicates below record the structural facts the
kernels read during one `input_data` step (shapes), the exact state
correspondence between the two networks (`VolCorr`), and the recorded
trajectory correspondence (`TrajCorr`). -/

/-- Adjacency record of the input node 0 (shared by `volNet` and
`expNet`). -/
def volAdj0 : AdjacencyLists := ⟨"continuous-state", some [1], none, none, none⟩

/-- Adjacency record of the volatile node 1 of `volNet`. -/
def volAdj1 : AdjacencyLists := ⟨"volatile-state", none, some [0], none, none⟩

/-- Adjacency record of the explicit value parent 1 of `expNet`. -/
def expAdj1 : AdjacencyLists := ⟨"continuous-state", none, some [0], some [2], none⟩

/-- Adjacency record of the explicit volatility parent 2 of `expNet`. -/
def expAdj2 : AdjacencyLists := ⟨"continuous-state", none, none, none, some [1]⟩

/-- Structural shape of the volatile-pair network: the edge, coupling
vector and input facts the kernels read during one step (all preserved by
the float-writing kernels). -/
structure VShape (V : Network) : Prop where
  e0 : V.edge 0 = some volAdj0
  e1 : V.edge 1 = some volAdj1
  cp0 : V.getV 0 "value_coupling_parents" = some [1]
  cc1 : V.getV 1 "value_coupling_children" = some [1]
  inp : V.inputs = [0]
  m0 : (V.getF 0 "mean").isSome = true

/-- Structural shape of the explicit three-node network. -/
structure EShape (E : Network) : Prop where
  e0 : E.edge 0 = some volAdj0
  e1 : E.edge 1 = some expAdj1
  e2 : E.edge 2 = some expAdj2
  cp0 : E.getV 0 "value_coupling_parents" = some [1]
  cc1 : E.getV 1 "value_coupling_children" = some [1]
  vp1 : E.getV 1 "volatility_coupling_parents" = some [1]
  vc2 : E.getV 2 "volatility_coupling_children" = some [1]
  fn0 : E.attributes.fnPtrs 0 "value_coupling_fn_parents" = none
  inp : E.inputs = [0]
  m0 : (E.getF 0 "mean").isSome = true

/-- Exact state correspondence between the volatile pair `V` and the
explicit triple `E`: node 0 agrees pointwise, the value level of the
volatile node agrees with node 1, the `_vol` level agrees with node 2
(the temporaries that a fresh explicit node lacks are compared under the
kernels' read default `0`), and the parameters that make the two
parameterisations coincide are pinned (`volatility_coupling_internal = 1`,
`observed = 1`, volatility-level autoconnection `1` and drift `0` on both
sides). -/
structure VolCorr (V E : Network) : Prop where
  node0 : ∀ k, V.getF 0 k = E.getF 0 k
  prec1some : (V.getF 1 "precision").isSome = true
  mean1 : V.getF 1 "mean" = E.getF 1 "mean"
  emean1 : V.getF 1 "expected_mean" = E.getF 1 "expected_mean"
  prec1 : V.getF 1 "precision" = E.getF 1 "precision"
  eprec1 : V.getF 1 "expected_precision" = E.getF 1 "expected_precision"
  tvol1 : V.getF 1 "tonic_volatility" = E.getF 1 "tonic_volatility"
  tdrift1 : V.getF 1 "tonic_drift" = E.getF 1 "tonic_drift"
  auto1 : V.getF 1 "autoconnection_strength" = E.getF 1 "autoconnection_strength"
  cvar1 : V.getF 1 "current_variance" = E.getF 1 "current_variance"
  effp1 : (V.getF 1 "effective_precision").getD 0
    = (E.getF 1 "effective_precision").getD 0
  vpe1 : (V.getF 1 "value_prediction_error").getD 0
    = (E.getF 1 "value_prediction_error").getD 0
  wpe1 : (V.getF 1 "volatility_prediction_error").getD 0
    = (E.getF 1 "volatility_prediction_error").getD 0
  mean2 : V.getF 1 "mean_vol" = E.getF 2 "mean"
  emean2 : V.getF 1 "expected_mean_vol" = E.getF 2 "expected_mean"
  prec2 : V.getF 1 "precision_vol" = E.getF 2 "precision"
  eprec2 : V.getF 1 "expected_precision_vol" = E.getF 2 "expected_precision"
  tvol2 : V.getF 1 "tonic_volatility_vol" = E.getF 2 "tonic_volatility"
  effp2 : (V.getF 1 "effective_precision_vol").getD 0
    = (E.getF 2 "effective_precision").getD 0
  vci : V.getF 1 "volatility_coupling_internal" = some 1
  obs1 : V.getF 1 "observed" = some 1
  autoVol : V.getF 1 "autoconnection_strength_vol" = some 1
  driftVol : V.getF 1 "tonic_drift_vol" = some 0
  auto2 : E.getF 2 "autoconnection_strength" = some 1
  drift2 : E.getF 2 "tonic_drift" = some 0

/-- Correspondence of the recorded trajectories: the eight series the
volatile-equivalence tests compare. -/
structure TrajCorr (tV tE : NodeTrajectories) : Prop where
  mean1 : tV.floats 1 "mean" = tE.floats 1 "mean"
  emean1 : tV.floats 1 "expected_mean" = tE.floats 1 "expected_mean"
  prec1 : tV.floats 1 "precision" = tE.floats 1 "precision"
  eprec1 : tV.floats 1 "expected_precision" = tE.floats 1 "expected_precision"
  mean2 : tV.floats 1 "mean_vol" = tE.floats 2 "mean"
  emean2 : tV.floats 1 "expected_mean_vol" = tE.floats 2 "expected_mean"
  prec2 : tV.floats 1 "precision_vol" = tE.floats 2 "precision"
  eprec2 : tV.floats 1 "expected_precision_vol" = tE.floats 2 "expected_precision"

/-- The prediction sequence the scheduler produces for `volNet`. -/
def volPreds : List (Nat × FnTag) := [(1, .predictionVolatile), (0, .predictionContinuous)]

/-- The updates sequence the scheduler produces for `volNet` (the
posterior tag depends on the update type). -/
def volUpds (tag : FnTag) : List (Nat × FnTag) := [(0, .peContinuous), (1, tag)]

/-- The prediction sequence the scheduler produces for `expNet`. -/
def expPreds : List (Nat × FnTag) :=
  [(2, .predictionContinuous), (1, .predictionContinuous), (0, .predictionContinuous)]

/-- The updates sequence the scheduler produces for `expNet`: node 1 gets
the *standard* continuous posterior in every update type (it has no
volatility children), node 2 the variant posterior. -/
def expUpds (tagE : FnTag) : List (Nat × FnTag) :=
  [(0, .peContinuous), (1, .poContinuous), (1, .peContinuous), (2, tagE)]

/-- One `belief_propagation` step of the volatile pair (unit time step). -/
def volStep (ops : Ops) (tag : FnTag) (V : Network) (o : ℚ) : Network :=
  belief_propagation ops V [o] volPreds (volUpds tag) 1

/-- One `belief_propagation` step of the explicit triple (unit time
step). -/
def expStep (ops : Ops) (tagE : FnTag) (E : Network) (o : ℚ) : Network :=
  belief_propagation ops E [o] expPreds (expUpds tagE) 1

/-- The volatile pair's state after predictions, observation and the
input-node prediction error — the state on which the volatile posterior
runs. -/
def volMid (ops : Ops) (V : Network) (o : ℚ) : Network :=
  prediction_error_continuous_state_node
    (observation_update (applySeq ops V volPreds 1) 0 o) 0

/-- The explicit triple's state after predictions, observation and the
input-node prediction error. -/
def expMid (ops : Ops) (E : Network) (o : ℚ) : Network :=
  prediction_error_continuous_state_node
    (observation_update (applySeq ops E expPreds 1) 0 o) 0

/-- The precision-floor side conditions along a run of the volatile pair:
at every step, the (unfloored) value-level posterior precision clears
`1e-128`, and — for the standard and eHGF posteriors (`needVol`) — so does
the volatility-level posterior precision.  On the explicit side these two
quantities pass through `.max(1e-128)`, on the volatile side they do not;
the runs agree exactly whenever the floor never engages. -/
def floorsOK (ops : Ops) (tag : FnTag) (needVol : Bool) : Network → List ℚ → Prop
  | _, [] => True
  | V, o :: rest =>
    tiny ≤ precision_update_value_level (volMid ops V o) 1
    ∧ (needVol = true → tiny ≤ precision_update_volatility_level
        (volatile_value_level_step (volMid ops V o) 1) 1)
    ∧ floorsOK ops tag needVol (volStep ops tag V o) rest

/-- The volatile posterior tag the scheduler selects for an update
type. -/
def volTagFor (ut : String) : FnTag :=
  if ut = "eHGF" then .poVolatileEhgf
  else if ut = "unbounded" then .poVolatileUnbounded else .poVolatile

/-- The continuous posterior tag the scheduler selects for node 2 of the
explicit triple. -/
def expTagFor (ut : String) : FnTag :=
  if ut = "eHGF" then .poContinuousEhgf
  else if ut = "unbounded" then .poContinuousUnbounded else .poContinuous

/-- Whether the volatility-level floor condition is needed (the unbounded
volatility-level update has no floor on either side). -/
def volNeedVol (ut : String) : Bool := if ut = "unbounded" then false else true

/-! ### Float-level embedding of the learning routines
(`utils/learning.rs`, `utils/prospective.rs`, `utils/set_coupling.rs`)

The learning claims (C8, C10) are about NaN/Inf handling, which ℚ cannot
express.  `F` models an `f64` as an exact rational, NaN, or a signed
infinity; the arithmetic below follows IEEE-754 special-value propagation
exactly, while finite arithmetic is exact rational arithmetic (no
rounding, no overflow to infinity — none of the theorems below depends on
rounding, and overflow only *adds* ways to produce an infinity, which the
counterexamples produce directly).  There is a single zero (no signed
zero); the sign of `x / 0` is taken from `x` alone. -/

namespace FModel

/-- An `f64` value: finite (exact rational), NaN, or ±∞ (`inf true` is
`+∞`). -/
inductive F where
  | num : ℚ → F
  | nan : F
  | inf : Bool → F
deriving DecidableEq, Repr

/-- IEEE negation. -/
def F.neg : F → F
  | .num a => .num (-a)
  | .nan => .nan
  | .inf s => .inf (!s)

/-- IEEE addition (finite part exact). -/
def F.add : F → F → F
  | .nan, _ => .nan
  | _, .nan => .nan
  | .num a, .num b => .num (a + b)
  | .inf s, .inf t => if s = t then .inf s else .nan
  | .inf s, .num _ => .inf s
  | .num _, .inf t => .inf t

/-- IEEE subtraction (`a - b = a + (-b)`). -/
def F.sub (a b : F) : F := F.add a (F.neg b)

/-- IEEE multiplication (finite part exact; `±∞ · 0 = NaN`). -/
def F.mul : F → F → F
  | .nan, _ => .nan
  | _, .nan => .nan
  | .num a, .num b => .num (a * b)
  | .inf s, .inf t => .inf (s == t)
  | .inf s, .num b => if b = 0 then .nan else .inf (s == decide (0 < b))
  | .num b, .inf s => if b = 0 then .nan else .inf (s == decide (0 < b))

/-- IEEE division (finite part exact; `0/0 = NaN`, `x/0 = ±∞`,
`x/±∞ = 0`, `±∞/±∞ = NaN`). -/
def F.div : F → F → F
  | .nan, _ => .nan
  | _, .nan => .nan
  | .num a, .num b =>
    if b = 0 then (if a = 0 then .nan else .inf (decide (0 < a))) else .num (a / b)
  | .num _, .inf _ => .num 0
  | .inf s, .num b => if b = 0 then .inf s else .inf (s == decide (0 < b))
  | .inf _, .inf _ => .nan

/-- IEEE absolute value. -/
def F.abs : F → F
  | .num a => .num |a|
  | .nan => .nan
  | .inf _ => .inf true

/-- `f64::is_nan`. -/
def F.isNaN : F → Bool
  | .nan => true
  | _ => false

/-- `f64::is_infinite`. -/
def F.isInf : F → Bool
  | .inf _ => true
  | _ => false

/-- IEEE `<` (any comparison with NaN is false). -/
def F.lt : F → F → Bool
  | .nan, _ => false
  | _, .nan => false
  | .num a, .num b => decide (a < b)
  | .inf s, .num _ => !s
  | .num _, .inf t => t
  | .inf s, .inf t => !s && t

/-- A coupling function triple over `F` (`math::CouplingFn`). -/
structure FCouplingFn where
  f : F → F
  df : F → F
  d2f : F → F

/-- The fields of `Network` read or written by the learning routines,
with `f64` values embedded as `F` and the per-node hash maps kept nested
(`attributes.floats.get(&i)` is `floats i`).  `inputs` is carried to
state the frame property. -/
structure FNetwork where
  floats : Nat → Option (String → Option F)
  vectors : Nat → Option (String → Option (List F))
  fnPtrs : Nat → Option (String → Option (List FCouplingFn))
  edges : List (Nat × AdjacencyLists)
  inputs : List Nat

/-- `network.edges.get(&i)`. -/
def FNetwork.edge (net : FNetwork) (i : Nat) : Option AdjacencyLists :=
  lookupAdj net.edges i

/-- Scalar read `attributes.floats.get(&i).and_then(|f| f.get(k))`. -/
def FNetwork.getF (net : FNetwork) (i : Nat) (k : String) : Option F :=
  (net.floats i).bind (fun f => f k)

/-- Vector-cell read `attributes.vectors.get(&i).and_then(|v| v.get(k))`. -/
def FNetwork.getVec (net : FNetwork) (i : Nat) (k : String) : Option (List F) :=
  (net.vectors i).bind (fun v => v k)

/-- In-place overwrite of one existing vector attribute (the
`get_mut`/`get_mut` write of `set_coupling`): nodes without a vector
table are unchanged. -/
def FNetwork.setVec (net : FNetwork) (i : Nat) (k : String) (v : List F) : FNetwork :=
  { net with vectors := fun j =>
      if j = i then (net.vectors i).map (fun m => fun k2 => if k2 = k then some v else m k2)
      else net.vectors j }

/-- `cs[i]` under `.map(|cs| cs[i]).unwrap_or(d)`: an absent vector gives
the default, an out-of-range index is a panic (junk `0`). -/
def couplingAtF (cs : Option (List F)) (i : Nat) (d : F) : F :=
  match cs with
  | none => d
  | some l => (l.get? i).getD (.num 0)

/-- `for (i, &idx) in list.iter().enumerate()` accumulating an `F`. -/
def foldEnumF (f : F → Nat → Nat → F) : Nat → List Nat → F → F
  | _, [], acc => acc
  | i, x :: xs, acc => foldEnumF f (i + 1) xs (f acc i x)

/-- Model of `prospective_precision` (value children only): per child,
`π += π̂_child · (κ² · g′(μ)² − g″(μ)·δ_child)` with the linear default
`(g′² , g″·δ) = (1, 0)`; children without a float table are skipped.
`powi(2)` is written as self-multiplication. -/
def prospective_precision (net : FNetwork) (node_idx : Nat) : F :=
  let expected_precision := (net.getF node_idx "expected_precision").getD (.num 1)
  match (net.edge node_idx).bind (·.value_children) with
  | none => expected_precision
  | some vc_idxs =>
    let coupling_strengths := net.getVec node_idx "value_coupling_children"
    let parent_mean := (net.getF node_idx "mean").getD (.num 0)
    foldEnumF (fun acc i child_idx =>
      match net.floats child_idx with
      | none => acc
      | some child_floats =>
        let child_expected_precision := (child_floats "expected_precision").getD (.num 1)
        let kappa := couplingAtF coupling_strengths i (.num 1)
        let parent_pos := ((net.edge child_idx).bind (·.value_parents)).bind
          (fun vp => vp.indexOf? node_idx)
        let coupling_fn := parent_pos.bind (fun pos =>
          ((net.fnPtrs child_idx).bind (fun fp => fp "value_coupling_fn_parents")).bind
            (fun fns => fns.get? pos))
        let gg : F × F := match coupling_fn with
          | some cf =>
            let g_prime := cf.df parent_mean
            let g_second := cf.d2f parent_mean
            let child_vape := (child_floats "value_prediction_error").getD (.num 0)
            (F.mul g_prime g_prime, F.mul g_second child_vape)
          | none => (.num 1, .num 0)
        F.add acc (F.mul child_expected_precision
          (F.sub (F.mul (F.mul kappa kappa) gg.1) gg.2)))
      0 vc_idxs expected_precision

/-- Model of `prospective_mean` (value children only): per child,
`μ += (κ · g′(μ) · π̂_child / π_node) · δ_child`. -/
def prospective_mean (net : FNetwork) (node_idx : Nat) (node_precision : F) : F :=
  let expected_mean := (net.getF node_idx "expected_mean").getD (.num 0)
  match (net.edge node_idx).bind (·.value_children) with
  | none => expected_mean
  | some vc_idxs =>
    let coupling_strengths := net.getVec node_idx "value_coupling_children"
    let parent_mean := (net.getF node_idx "mean").getD (.num 0)
    foldEnumF (fun acc i child_idx =>
      match net.floats child_idx with
      | none => acc
      | some child_floats =>
        let child_expected_precision := (child_floats "expected_precision").getD (.num 1)
        let child_vape := (child_floats "value_prediction_error").getD (.num 0)
        let kappa := couplingAtF coupling_strengths i (.num 1)
        let parent_pos := ((net.edge child_idx).bind (·.value_parents)).bind
          (fun vp => vp.indexOf? node_idx)
        let coupling_fn_prime := ((parent_pos.bind (fun pos =>
          ((net.fnPtrs child_idx).bind (fun fp => fp "value_coupling_fn_parents")).bind
            (fun fns => fns.get? pos))).map (fun cf => cf.df parent_mean)).getD (.num 1)
        F.add acc (F.mul (F.div (F.mul (F.mul kappa coupling_fn_prime)
          child_expected_precision) node_precision) child_vape))
      0 vc_idxs expected_mean

/-- One side of `set_coupling` over `F` (same structure as the
rational-level `couplingWrite`). -/
def couplingWrite (net : FNetwork) (n : Nat) (key : String) (pos : Option Nat)
    (coupling : F) : FNetwork :=
  match pos with
  | some i =>
    match net.getVec n key with
    | some couplings =>
      if i < couplings.length then net.setVec n key (couplings.set i coupling)
      else net
    | none => net
  | none => net

/-- Model of `set_coupling` over `F`: child's `value_coupling_parents`
slot and parent's `value_coupling_children` slot, each silently skipped
if missing. -/
def set_coupling (net : FNetwork) (parent_idx child_idx : Nat) (coupling : F) : FNetwork :=
  let net1 := couplingWrite net child_idx "value_coupling_parents"
    (((net.edge child_idx).bind (·.value_parents)).bind
      (fun vp => vp.indexOf? parent_idx)) coupling
  couplingWrite net1 parent_idx "value_coupling_children"
    (((net1.edge parent_idx).bind (·.value_children)).bind
      (fun vc => vc.indexOf? child_idx)) coupling

/-- Loop body shared shape of `learning_weights_fixed`: prospective
posterior, coupling function, guarded expected coupling, guarded step,
then the symmetric write-back. -/
def learningStep (net : FNetwork) (node_idx : Nat) (child_mean lr weighting : F)
    (parent_idx : Nat) (value_coupling : F) : FNetwork :=
  let prosp_precision := prospective_precision net parent_idx
  let prosp_mean := prospective_mean net parent_idx prosp_precision
  let coupling_fn := (((net.edge node_idx).bind (·.value_parents)).bind
    (fun vp => vp.indexOf? parent_idx)).bind (fun pos =>
      ((net.fnPtrs node_idx).bind (fun fp => fp "value_coupling_fn_parents")).bind
        (fun fns => fns.get? pos))
  let g_value := match coupling_fn with
    | some cf => cf.f prosp_mean
    | none => prosp_mean
  let expected_coupling0 := if F.lt g_value.abs (.num tiny) then value_coupling
    else F.div child_mean g_value
  let expected_coupling := if expected_coupling0.isNaN || expected_coupling0.isInf
    then value_coupling else expected_coupling0
  let new0 := F.add value_coupling
    (F.mul (F.mul (F.sub expected_coupling value_coupling) lr) weighting)
  set_coupling net parent_idx node_idx (if new0.isInf then value_coupling else new0)

/-- Model of `learning_weights_fixed`: for every value parent (zipped
with the cloned coupling vector, default all-ones), move the coupling
towards `child_mean / g(prospective_mean)` at rate `lr · 1/#parents`,
with the division, NaN/Inf and final Inf guards of the source. -/
def learning_weights_fixed (net : FNetwork) (node_idx : Nat) (_time_step : F) : FNetwork :=
  match (net.edge node_idx).bind (·.value_parents) with
  | none => net
  | some value_parents =>
    let value_couplings := (net.getVec node_idx "value_coupling_parents").getD
      (List.replicate value_parents.length (.num 1))
    let child_mean := (net.getF node_idx "mean").getD (.num 0)
    let lr := (net.getF node_idx "lr").getD (.num (1 / 100))
    let weighting := F.div (.num 1) (.num value_parents.length)
    (value_parents.zip value_couplings).foldl (fun net pc =>
      learningStep net node_idx child_mean lr weighting pc.1 pc.2) net

/-- Loop body of `learning_weights_dynamic`: as `learningStep` but the
rate is the precision weighting `π̂_child / (π̂_parent + π̂_child)`, with
the parent's expected precision read from the current state. -/
def learningStepDyn (net : FNetwork) (node_idx : Nat)
    (child_mean child_expected_precision weighting : F)
    (parent_idx : Nat) (value_coupling : F) : FNetwork :=
  let prosp_precision := prospective_precision net parent_idx
  let prosp_mean := prospective_mean net parent_idx prosp_precision
  let coupling_fn := (((net.edge node_idx).bind (·.value_parents)).bind
    (fun vp => vp.indexOf? parent_idx)).bind (fun pos =>
      ((net.fnPtrs node_idx).bind (fun fp => fp "value_coupling_fn_parents")).bind
        (fun fns => fns.get? pos))
  let g_value := match coupling_fn with
    | some cf => cf.f prosp_mean
    | none => prosp_mean
  let expected_coupling0 := if F.lt g_value.abs (.num tiny) then value_coupling
    else F.div child_mean g_value
  let expected_coupling := if expected_coupling0.isNaN || expected_coupling0.isInf
    then value_coupling else expected_coupling0
  let parent_expected_precision := (net.getF parent_idx "expected_precision").getD (.num 1)
  let precision_weighting := F.div child_expected_precision
    (F.add parent_expected_precision child_expected_precision)
  let new0 := F.add value_coupling
    (F.mul (F.mul (F.sub expected_coupling value_coupling) precision_weighting) weighting)
  set_coupling net parent_idx node_idx (if new0.isInf then value_coupling else new0)

/-- Model of `learning_weights_dynamic`. -/
def learning_weights_dynamic (net : FNetwork) (node_idx : Nat) (_time_step : F) :
    FNetwork :=
  match (net.edge node_idx).bind (·.value_parents) with
  | none => net
  | some value_parents =>
    let value_couplings := (net.getVec node_idx "value_coupling_parents").getD
      (List.replicate value_parents.length (.num 1))
    let child_mean := (net.getF node_idx "mean").getD (.num 0)
    let child_expected_precision := (net.getF node_idx "expected_precision").getD (.num 1)
    let weighting := F.div (.num 1) (.num value_parents.length)
    (value_parents.zip value_couplings).foldl (fun net pc =>
      learningStepDyn net node_idx child_mean child_expected_precision weighting
        pc.1 pc.2) net

/-- One vector-attribute cell, as used to state the learning claims. -/
def cellAt (net : FNetwork) (n : Nat) (k : String) (i : Nat) : Option F :=
  (net.getVec n k).bind (fun l => l.get? i)

/-- The coupling vector cloned by the learning routines: the stored
`value_coupling_parents` of the node, or the all-ones default. -/
def learnCouplings (net : FNetwork) (idx : Nat) : List F :=
  (net.getVec idx "value_coupling_parents").getD
    (List.replicate (((net.edge idx).bind (·.value_parents)).getD []).length (.num 1))

/-- Two-node learning network with a NaN learning rate: node 0 (child,
mean 1, lr NaN) with value parent 1 (all-defaults state, coupling 1 on
both sides). -/
def cexLearn : FNetwork :=
  { floats := fun j =>
      if j = 0 then some (fun k => if k = "mean" then some (.num 1)
        else if k = "lr" then some .nan else none)
      else if j = 1 then some (fun k =>
        if k = "mean" then some (.num 0)
        else if k = "expected_mean" then some (.num 0)
        else if k = "expected_precision" then some (.num 1) else none)
      else none,
    vectors := fun j =>
      if j = 0 then some (fun k =>
        if k = "value_coupling_parents" then some [.num 1] else none)
      else if j = 1 then some (fun k =>
        if k = "value_coupling_children" then some [.num 1] else none)
      else none,
    fnPtrs := fun _ => none,
    edges := [(0, ⟨"continuous-state", some [1], none, none, none⟩),
      (1, ⟨"continuous-state", none, some [0], none, none⟩)],
    inputs := [0] }

/-- Two-node learning network whose child already stores an infinite
coupling and a negative learning rate: the guarded write propagates the
stored `+∞` to the parent's slot. -/
def cexInf : FNetwork :=
  { floats := fun j =>
      if j = 0 then some (fun k => if k = "mean" then some (.num 1)
        else if k = "lr" then some (.num (-1)) else none)
      else if j = 1 then some (fun k =>
        if k = "mean" then some (.num 1)
        else if k = "expected_mean" then some (.num 1)
        else if k = "expected_precision" then some (.num 1) else none)
      else none,
    vectors := fun j =>
      if j = 0 then some (fun k =>
        if k = "value_coupling_parents" then some [.inf true] else none)
      else if j = 1 then some (fun k =>
        if k = "value_coupling_children" then some [.num 5] else none)
      else none,
    fnPtrs := fun _ => none,
    edges := [(0, ⟨"continuous-state", some [1], none, none, none⟩),
      (1, ⟨"continuous-state", none, some [0], none, none⟩)],
    inputs := [0] }

end FModel

/-! ## Theorems -/

/-- Reading a float attribute through a single write. -/
theorem getF_setF (net : Network) (i j : Nat) (k k2 : String) (v : ℚ) :
    (net.setF i k v).getF j k2 = if j = i ∧ k2 = k then some v else net.getF j k2 := rfl

/-- Writes to float attributes leave the edge table unchanged. -/
theorem edge_setF (net : Network) (i : Nat) (k : String) (v : ℚ) :
    (net.setF i k v).edge = net.edge := rfl

/-- C1 (amended): the `standard` and `eHGF` continuous posterior kernels
floor the `precision` they store at `10^-128` (the explicit `.max(1e-128)`
of the source); this is the only precision floor applied by a posterior
kernel — the unbounded continuous posterior and the three volatile
posterior kernels store `precision` / `precision_vol` without a floor, and
recorded values below `10^-128` (even negative ones) are possible, as the
counterexample shows. -/
theorem posterior_precision_floor (net : Network) (i : Nat) :
    (∃ q, (posterior_update_continuous_state_node net i).getF i "precision" = some q
      ∧ tiny ≤ q)
    ∧ (∃ q, (posterior_update_continuous_state_node_ehgf net i).getF i "precision" = some q
      ∧ tiny ≤ q) := by
  constructor
  · refine ⟨max (net.getFD i "expected_precision" 0 + precision_update_from_children net i)
      tiny, ?_, le_max_right _ _⟩
    simp [posterior_update_continuous_state_node, Network.getF, Network.setF]
  · refine ⟨max (net.getFD i "expected_precision" 0 + precision_update_from_children
      (net.setF i "mean" (net.getFD i "expected_mean" 0 +
        mean_update_from_children net i (net.getFD i "expected_precision" 0))) i)
      tiny, ?_, le_max_right _ _⟩
    simp [posterior_update_continuous_state_node_ehgf, Network.getF, Network.setF]

set_option maxRecDepth 100000 in
/-- C1 (counterexample): the claim "every update kernel floors the
precision it writes at 10^-128, so every recorded trajectory entry of
`precision_vol` is ≥ 10^-128" is false.  In the reachable run of the
two-node volatile network (standard updates) on the single observation
100, the recorded `precision_vol` trajectory entry of node 1 is ≈ −20.69,
far below the floor (the volatile posterior kernel applies no `.max`). -/
theorem volatile_precision_floor_counterexample :
    ∃ q ∈ (((input_data opsApprox (volNet "standard") [100] none).node_trajectories.floats 1
      "precision_vol").getD []), q < tiny := by
  have h : ((input_data opsApprox (volNet "standard") [100] none).node_trajectories.floats 1
      "precision_vol") = some
      [-87380104928508708066622880762000000000 / 4224185660025687455522007916213979041] := by
    with_unfolding_all rfl
  rw [h]
  exact ⟨-87380104928508708066622880762000000000 / 4224185660025687455522007916213979041,
    by simp, by norm_num [tiny]⟩

/-- C5 (amended): the continuous prediction-error kernel stores
`value_prediction_error = (mean − expected_mean) / max(1, #value_parents)`
and `volatility_prediction_error = (π̂/π + π̂·δ² − 1) / max(1, #volatility_parents)`
whenever each parent list is absent or nonempty; when a parent list is
present but empty the kernel instead divides by the raw length `0`
(a non-finite result in `f64`), so the `max(1, ·)` reading fails exactly
there (see the counterexample). -/
theorem prediction_error_continuous_formula (net : Network) (i : Nat)
    (hv : (net.edge i).bind (·.value_parents) ≠ some [])
    (hw : (net.edge i).bind (·.volatility_parents) ≠ some []) :
    (prediction_error_continuous_state_node net i).getF i "value_prediction_error" =
      some ((net.getFD i "mean" 0 - net.getFD i "expected_mean" 0) /
        max 1 (((((net.edge i).bind (·.value_parents)).map (·.length)).getD 0 : Nat) : ℚ))
    ∧ (prediction_error_continuous_state_node net i).getF i "volatility_prediction_error" =
      some ((net.getFD i "expected_precision" 0 / net.getFD i "precision" 0
        + net.getFD i "expected_precision" 0 *
          ((net.getFD i "mean" 0 - net.getFD i "expected_mean" 0) /
            max 1 (((((net.edge i).bind (·.value_parents)).map (·.length)).getD 0 : Nat) : ℚ)) ^ 2
        - 1) /
        max 1 (((((net.edge i).bind (·.volatility_parents)).map (·.length)).getD 0 : Nat) : ℚ)) := by
  have hmax : ∀ l : List Nat, l ≠ [] → max (1 : ℚ) ((l.length : Nat) : ℚ) = (l.length : ℚ) := by
    intro l hl
    have h1 : 1 ≤ l.length := Nat.one_le_iff_ne_zero.mpr (by simpa using hl)
    exact max_eq_right (by exact_mod_cast h1)
  rcases hvp : (net.edge i).bind (·.value_parents) with _ | l
  · rcases hwp : (net.edge i).bind (·.volatility_parents) with _ | m
    · constructor <;>
        simp [prediction_error_continuous_state_node, Network.getF, Network.setF, hvp, hwp]
    · have hm := hmax m (by rintro rfl; exact hw hwp)
      constructor <;>
        simp [prediction_error_continuous_state_node, Network.getF, Network.setF, hvp, hwp, hm]
  · have hl := hmax l (by rintro rfl; exact hv hvp)
    rcases hwp : (net.edge i).bind (·.volatility_parents) with _ | m
    · constructor <;>
        simp [prediction_error_continuous_state_node, Network.getF, Network.setF, hvp, hwp, hl]
    · have hm := hmax m (by rintro rfl; exact hw hwp)
      constructor <;>
        simp [prediction_error_continuous_state_node, Network.getF, Network.setF, hvp, hwp,
          hl, hm]

/-- Witness for C5 at node 0 of the two-node continuous network (one
value parent, no volatility parents). -/
theorem prediction_error_continuous_formula_witness :
    ((net2cont.edge 0).bind (·.value_parents) ≠ some []
      ∧ (net2cont.edge 0).bind (·.volatility_parents) ≠ some [])
    ∧ ((prediction_error_continuous_state_node net2cont 0).getF 0 "value_prediction_error" =
      some ((net2cont.getFD 0 "mean" 0 - net2cont.getFD 0 "expected_mean" 0) /
        max 1 (((((net2cont.edge 0).bind (·.value_parents)).map (·.length)).getD 0 : Nat) : ℚ))
    ∧ (prediction_error_continuous_state_node net2cont 0).getF 0 "volatility_prediction_error" =
      some ((net2cont.getFD 0 "expected_precision" 0 / net2cont.getFD 0 "precision" 0
        + net2cont.getFD 0 "expected_precision" 0 *
          ((net2cont.getFD 0 "mean" 0 - net2cont.getFD 0 "expected_mean" 0) /
            max 1 (((((net2cont.edge 0).bind (·.value_parents)).map (·.length)).getD 0 : Nat) : ℚ)) ^ 2
        - 1) /
        max 1 (((((net2cont.edge 0).bind (·.volatility_parents)).map (·.length)).getD 0 : Nat) : ℚ))) := by
  have h1 : (net2cont.edge 0).bind (·.value_parents) = some [1] := by
    with_unfolding_all rfl
  have h2 : (net2cont.edge 0).bind (·.volatility_parents) = none := by
    with_unfolding_all rfl
  refine ⟨⟨by rw [h1]; simp, by rw [h2]; simp⟩, ?_⟩
  exact prediction_error_continuous_formula net2cont 0 (by rw [h1]; simp) (by rw [h2]; simp)

/-- C5 (counterexample): with a present-but-empty `value_parents` list
(reachable via `add_nodes(value_parents=[])`) and `mean = 1`,
`expected_mean = 0`, the kernel stores `(1 − 0) / 0` — a division by the
raw length `0` (non-finite in `f64`; `0` under the `ℚ` convention used
here) — instead of the claimed `(1 − 0) / max(1, 0) = 1`; under either
semantics the stored value differs from the claim's formula. -/
theorem prediction_error_empty_parents_counterexample :
    ((netEmptyVP.edge 0).bind (·.value_parents) = some [])
    ∧ (prediction_error_continuous_state_node netEmptyVP 0).getF 0 "value_prediction_error" ≠
      some ((netEmptyVP.getFD 0 "mean" 0 - netEmptyVP.getFD 0 "expected_mean" 0) / max 1 0) := by
  have h1 : (netEmptyVP.edge 0).bind (·.value_parents) = some [] := by
    with_unfolding_all rfl
  have h2 : (prediction_error_continuous_state_node netEmptyVP 0).getF 0
      "value_prediction_error" = some 0 := by
    with_unfolding_all rfl
  have h3 : netEmptyVP.getFD 0 "mean" 0 = 1 := by with_unfolding_all rfl
  have h4 : netEmptyVP.getFD 0 "expected_mean" 0 = 0 := by with_unfolding_all rfl
  refine ⟨h1, ?_⟩
  rw [h2, h3, h4]
  norm_num

/-- C9 (counterexample): constructing and scheduling a network with the
unknown update type `"banana"` is not an error anywhere: `Network::new`
stores the string verbatim, and the scheduler's wildcard match arm
silently produces a complete schedule that selects the standard posterior
kernels (here `posterior_update_volatile_state_node`). -/
theorem unknown_update_type_counterexample :
    (set_update_sequence (volNet "banana")).update_sequence =
      ⟨[(1, .predictionVolatile), (0, .predictionContinuous)],
       [(0, .peContinuous), (1, .poVolatile)]⟩ := by
  with_unfolding_all rfl

/-- Changing only the `update_type` string leaves the edge lookup
unchanged. -/
theorem edge_set_update_type (net : Network) (u : String) :
    Network.edge { net with update_type := u } = net.edge := rfl

/-- The prediction-error kernel choice does not read `update_type`. -/
theorem peKernelFor_set_update_type (net : Network) (u : String) :
    peKernelFor { net with update_type := u } = peKernelFor net := rfl

/-- The posterior kernel choice treats every `update_type` other than
`"eHGF"` and `"unbounded"` exactly like `"standard"` (the wildcard match
arm of the scheduler). -/
theorem posteriorKernelFor_set_update_type (net : Network) (h1 : net.update_type ≠ "eHGF")
    (h2 : net.update_type ≠ "unbounded") :
    posteriorKernelFor { net with update_type := "standard" } = posteriorKernelFor net := by
  funext i
  unfold posteriorKernelFor
  rw [edge_set_update_type]
  rcases h : net.edge i with _ | adj
  · simp [h]
  · simp [h, h1, h2]

/-- The update-scheduler loop treats every `update_type` other than
`"eHGF"` and `"unbounded"` exactly like `"standard"`. -/
theorem updatesLoop_set_update_type (net : Network) (h1 : net.update_type ≠ "eHGF")
    (h2 : net.update_type ≠ "unbounded") :
    ∀ (fuel : Nat) (pe po : List Nat) (acc : List (Nat × FnTag)),
      updatesLoop net fuel pe po acc =
      updatesLoop { net with update_type := "standard" } fuel pe po acc := by
  intro fuel
  induction fuel with
  | zero => intro pe po acc; rfl
  | succ n ih =>
    intro pe po acc
    simp only [updatesLoop, edge_set_update_type, peKernelFor_set_update_type,
      posteriorKernelFor_set_update_type net h1 h2, ih]

/-- The prediction scheduler never reads `update_type` (loop form). -/
theorem predictionsLoop_set_update_type (net : Network) (u : String) :
    ∀ (fuel : Nat) (nodes : List Nat) (acc : List (Nat × FnTag)),
      predictionsLoop { net with update_type := u } fuel nodes acc =
      predictionsLoop net fuel nodes acc := by
  intro fuel
  induction fuel with
  | zero => intro nodes acc; rfl
  | succ n ih =>
    intro nodes acc
    simp only [predictionsLoop,
      show findReady { net with update_type := u } = findReady net from rfl,
      show predictionKernelFor { net with update_type := u } = predictionKernelFor net from
        rfl, ih]

/-- C9 (amended): an `update_type` outside `{standard, eHGF, unbounded}`
is not an error anywhere: `Network::new` stores the string verbatim, and
the scheduler's wildcard arm silently selects the standard posterior
kernels, so the produced schedule is identical to the `"standard"`
schedule (the counterexample shows a complete schedule being produced for
`"banana"`). -/
theorem unknown_update_type_schedules_standard (net : Network)
    (h1 : net.update_type ≠ "eHGF") (h2 : net.update_type ≠ "unbounded") :
    (set_update_sequence net).update_sequence =
      (set_update_sequence { net with update_type := "standard" }).update_sequence := by
  have hkeys : sortedKeys { net with update_type := "standard" } = sortedKeys net := rfl
  have hp : get_predictions_sequence { net with update_type := "standard" } =
      get_predictions_sequence net := by
    unfold get_predictions_sequence
    simp only [hkeys, predictionsLoop_set_update_type]
  have hu : get_updates_sequence { net with update_type := "standard" } =
      get_updates_sequence net := by
    unfold get_updates_sequence
    simp only [hkeys, show ({ net with update_type := "standard" } : Network).inputs =
      net.inputs from rfl, ← updatesLoop_set_update_type net h1 h2]
  simp only [set_update_sequence, hp, hu]

/-- Witness for C9 at the volatile two-node network with update type
`"banana"`. -/
theorem unknown_update_type_schedules_standard_witness :
    ((volNet "banana").update_type ≠ "eHGF" ∧ (volNet "banana").update_type ≠ "unbounded")
    ∧ (set_update_sequence (volNet "banana")).update_sequence =
      (set_update_sequence { volNet "banana" with update_type := "standard" }).update_sequence := by
  have h1 : (volNet "banana").update_type = "banana" := by with_unfolding_all rfl
  refine ⟨⟨by rw [h1]; simp, by rw [h1]; simp⟩, ?_⟩
  exact unknown_update_type_schedules_standard (volNet "banana")
    (by rw [h1]; simp) (by rw [h1]; simp)

/-- C6 (amended): during each `input_data` time step the phases run in
order — every prediction kernel first, then the observation write, then
every update kernel, and finally every present scalar and vector
attribute of every node is appended to its trajectory with its
post-update value.  However the observation phase writes the t-th scalar
observation into the `mean` of `inputs[0]` only (`input_data` hands
`belief_propagation` the single-element vector `vec![observation]`), not
into every input node: any other node — in particular any further input —
is untouched between the prediction and update phases (see the
counterexample for a two-input network). -/
theorem input_data_step_phases (ops : Ops) (net : Network) (tr : NodeTrajectories)
    (P U : List (Nat × FnTag)) (obs dt : ℚ) :
    letI p := applySeq ops net P dt
    letI o := match p.inputs.get? 0 with
      | some idx => observation_update p idx obs
      | none => p
    ((inputDataStep ops P U (net, tr) obs dt).1 = applySeq ops o U dt)
    ∧ (∀ j k, o.getF j k ≠ p.getF j k →
        p.inputs.get? 0 = some j ∧ k = "mean" ∧ o.getF j k = some obs)
    ∧ (∀ n k, (inputDataStep ops P U (net, tr) obs dt).2.floats n k =
        match (inputDataStep ops P U (net, tr) obs dt).1.getF n k with
        | some v => some ((tr.floats n k).getD [] ++ [v])
        | none => tr.floats n k)
    ∧ (∀ n k, (inputDataStep ops P U (net, tr) obs dt).2.vectors n k =
        match (inputDataStep ops P U (net, tr) obs dt).1.getV n k with
        | some v => some ((tr.vectors n k).getD [] ++ [v])
        | none => tr.vectors n k) := by
  refine ⟨rfl, ?_, fun n k => rfl, fun n k => rfl⟩
  intro j k hne
  rcases hi : (applySeq ops net P dt).inputs.get? 0 with _ | idx
  · simp only [hi] at hne
    exact absurd rfl hne
  · simp only [hi] at hne ⊢
    unfold observation_update at hne ⊢
    rcases hm : (applySeq ops net P dt).getF idx "mean" with _ | m
    · simp only [hm] at hne
      exact absurd rfl hne
    · simp only [hm] at hne ⊢
      rw [getF_setF] at hne ⊢
      by_cases hcond : j = idx ∧ k = "mean"
      · obtain ⟨h1, h2⟩ := hcond
        subst h1; subst h2
        simp
      · rw [if_neg hcond] at hne
        exact absurd rfl hne

set_option maxRecDepth 100000 in
/-- C6 (counterexample): the claim that with multiple input nodes each of
them receives the observation-phase write is false.  In a network with two
input nodes, after `input_data([5])` the first input's recorded `mean` is
`5` but the second input's recorded `mean` is still its default `0`: only
`inputs[0]` is written, because `input_data` passes the single-element
observation vector. -/
theorem multi_input_observation_counterexample :
    netTwoInputs.inputs = [0, 1]
    ∧ (input_data opsApprox netTwoInputs [5] none).node_trajectories.floats 0 "mean" =
        some [5]
    ∧ (input_data opsApprox netTwoInputs [5] none).node_trajectories.floats 1 "mean" =
        some [0] := by
  refine ⟨?_, ?_, ?_⟩ <;> with_unfolding_all rfl

set_option maxRecDepth 100000 in
set_option maxHeartbeats 2000000 in
/-- C3 (confirmed): in the two-node network (node 0 an input, node 1 its
value parent, all defaults), after `input_data([0.2])` with the default
time step, node 0 records `precision = 1`, `expected_precision = 1`,
`mean = 0.2`, `expected_mean = 0`, and node 1 records
`precision ≈ 1.9820137`, `expected_precision ≈ 0.98201376`,
`mean ≈ 0.10090748`, `expected_mean = 0`, each within `10^-6`.  The
hypotheses bound `ops.exp (-4)` — the only transcendental value the run
reaches that influences these attributes — by rationals that enclose the
true `e^(-4)` (and hence the correctly rounded `f64` result). -/
theorem one_parent_continuous_hgf (ops : Ops)
    (hlo : 18315638 / 10 ^ 9 ≤ ops.exp (-4)) (hhi : ops.exp (-4) ≤ 18315640 / 10 ^ 9) :
    ((input_data ops net2cont [1/5] none).node_trajectories.floats 0 "precision" = some [1]
    ∧ (input_data ops net2cont [1/5] none).node_trajectories.floats 0 "expected_precision" =
        some [1]
    ∧ (input_data ops net2cont [1/5] none).node_trajectories.floats 0 "mean" = some [1/5]
    ∧ (input_data ops net2cont [1/5] none).node_trajectories.floats 0 "expected_mean" =
        some [0])
    ∧ ∃ p pe m,
      (input_data ops net2cont [1/5] none).node_trajectories.floats 1 "precision" = some [p]
    ∧ (input_data ops net2cont [1/5] none).node_trajectories.floats 1 "expected_precision" =
        some [pe]
    ∧ (input_data ops net2cont [1/5] none).node_trajectories.floats 1 "mean" = some [m]
    ∧ (input_data ops net2cont [1/5] none).node_trajectories.floats 1 "expected_mean" =
        some [0]
    ∧ |p - 19820137 / 10 ^ 7| < 1 / 10 ^ 6
    ∧ |pe - 98201376 / 10 ^ 8| < 1 / 10 ^ 6
    ∧ |m - 10090748 / 10 ^ 8| < 1 / 10 ^ 6 := by
  -- structural facts about the concrete network, all checked by the kernel
  have hcond : (net2cont.update_sequence.predictions.isEmpty &&
      net2cont.update_sequence.updates.isEmpty) = true := by
    with_unfolding_all rfl
  have hseq : set_update_sequence net2cont = { net2cont with update_sequence :=
      ⟨[(1, .predictionContinuous), (0, .predictionContinuous)],
       [(0, .peContinuous), (1, .poContinuous)]⟩ } := by
    with_unfolding_all rfl
  have hinp : (applySeq ops { net2cont with update_sequence :=
      ⟨[(1, .predictionContinuous), (0, .predictionContinuous)],
       [(0, .peContinuous), (1, .poContinuous)]⟩ }
      [(1, .predictionContinuous), (0, .predictionContinuous)] 1).inputs = [0] := by
    with_unfolding_all rfl
  have hlen : (Network.new "eHGF").edges.length = 0 := by with_unfolding_all rfl
  have le0 : lookupAdj net2cont.edges 0 =
      some ⟨"continuous-state", some [1], none, none, none⟩ := by with_unfolding_all rfl
  have le1 : lookupAdj net2cont.edges 1 =
      some ⟨"continuous-state", none, some [0], none, none⟩ := by with_unfolding_all rfl
  have b1m : net2cont.attributes.floats 1 "mean" = some 0 := by with_unfolding_all rfl
  have b1em : net2cont.attributes.floats 1 "expected_mean" = some 0 := by
    with_unfolding_all rfl
  have b1p : net2cont.attributes.floats 1 "precision" = some 1 := by with_unfolding_all rfl
  have b1ep : net2cont.attributes.floats 1 "expected_precision" = some 1 := by
    with_unfolding_all rfl
  have b1tv : net2cont.attributes.floats 1 "tonic_volatility" = some (-4) := by
    with_unfolding_all rfl
  have b1td : net2cont.attributes.floats 1 "tonic_drift" = some 0 := by
    with_unfolding_all rfl
  have b1as : net2cont.attributes.floats 1 "autoconnection_strength" = some 1 := by
    with_unfolding_all rfl
  have b0m : net2cont.attributes.floats 0 "mean" = some 0 := by with_unfolding_all rfl
  have b0em : net2cont.attributes.floats 0 "expected_mean" = some 0 := by
    with_unfolding_all rfl
  have b0p : net2cont.attributes.floats 0 "precision" = some 1 := by with_unfolding_all rfl
  have b0ep : net2cont.attributes.floats 0 "expected_precision" = some 1 := by
    with_unfolding_all rfl
  have b0tv : net2cont.attributes.floats 0 "tonic_volatility" = some 0 := by
    with_unfolding_all rfl
  have b0td : net2cont.attributes.floats 0 "tonic_drift" = some 0 := by
    with_unfolding_all rfl
  have b0as : net2cont.attributes.floats 0 "autoconnection_strength" = some 0 := by
    with_unfolding_all rfl
  have bv0 : net2cont.attributes.vectors 0 "value_coupling_parents" = some [1] := by
    with_unfolding_all rfl
  have bv1 : net2cont.attributes.vectors 1 "value_coupling_children" = some [1] := by
    with_unfolding_all rfl
  have bfp : net2cont.attributes.fnPtrs 0 "value_coupling_fn_parents" = none := by
    with_unfolding_all rfl
  have hc4 : qclamp (-4 : ℚ) (-80) 80 = -4 := by norm_num [qclamp]
  -- arithmetic facts resolving the two floors
  have htl : tiny ≤ ops.exp (-4) := le_trans (by norm_num [tiny]) hlo
  have hsup : ops.exp (-4) ⊔ tiny = ops.exp (-4) := sup_eq_left.mpr htl
  have h1E : (0 : ℚ) < 1 + ops.exp (-4) := by nlinarith
  have hSpos : (0 : ℚ) < (1 + ops.exp (-4))⁻¹ := inv_pos.mpr h1E
  have hsup2 : ((1 + ops.exp (-4))⁻¹ + 1) ⊔ tiny = (1 + ops.exp (-4))⁻¹ + 1 := by
    rw [sup_eq_left]
    nlinarith [show (0 : ℚ) < 1 - tiny by norm_num [tiny]]
  -- the per-step driver rewritten to its three phases
  have hrun : ∀ n k, (input_data ops net2cont [1/5] none).node_trajectories.floats n k =
      recordFloats (applySeq ops
          (observation_update
            (applySeq ops { net2cont with update_sequence :=
              ⟨[(1, .predictionContinuous), (0, .predictionContinuous)],
               [(0, .peContinuous), (1, .poContinuous)]⟩ }
              [(1, .predictionContinuous), (0, .predictionContinuous)] 1)
            0 (1/5))
          [(0, .peContinuous), (1, .poContinuous)] 1).attributes.floats
        (preallocTrajectories { net2cont with update_sequence :=
              ⟨[(1, .predictionContinuous), (0, .predictionContinuous)],
               [(0, .peContinuous), (1, .poContinuous)]⟩ }).floats n k := by
    intro n k
    simp only [input_data, hcond, hseq, if_true, List.enum, List.enumFrom, List.foldl_cons,
      List.foldl_nil, List.length_cons, List.length_nil, List.replicate, List.get?,
      inputDataStep, belief_propagation, hinp, Option.getD_some, hlen]
  -- arithmetic bounds for the three approximate values
  have hkey : (1 + ops.exp (-4)) * (1 + ops.exp (-4))⁻¹ = 1 :=
    mul_inv_cancel₀ (ne_of_gt h1E)
  have hSlo : (982013 : ℚ) / 10 ^ 6 ≤ (1 + ops.exp (-4))⁻¹ := by nlinarith
  have hShi : (1 + ops.exp (-4))⁻¹ ≤ 982014 / 10 ^ 6 := by nlinarith
  have hPpos : (0 : ℚ) < (1 + ops.exp (-4))⁻¹ + 1 := by linarith
  have hkey2 : ((1 + ops.exp (-4))⁻¹ + 1) * ((1 + ops.exp (-4))⁻¹ + 1)⁻¹ = 1 :=
    mul_inv_cancel₀ (ne_of_gt hPpos)
  have hQpos : (0 : ℚ) < ((1 + ops.exp (-4))⁻¹ + 1)⁻¹ := inv_pos.mpr hPpos
  refine ⟨⟨?_, ?_, ?_, ?_⟩,
    (1 + ops.exp (-4))⁻¹ + 1, (1 + ops.exp (-4))⁻¹,
    ((1 + ops.exp (-4))⁻¹ + 1)⁻¹ * 5⁻¹, ?_, ?_, ?_, ?_, ?_, ?_, ?_⟩
  case refine_9 => rw [abs_lt]; constructor <;> nlinarith
  case refine_10 => rw [abs_lt]; constructor <;> nlinarith
  case refine_11 => rw [abs_lt]; constructor <;> nlinarith
  all_goals rw [hrun]
  all_goals
    simp [recordFloats, preallocTrajectories, applySeq, List.foldl_cons, List.foldl_nil,
      applyFn, prediction_continuous_state_node, prediction_error_continuous_state_node,
      posterior_update_continuous_state_node, precision_update_from_children,
      mean_update_from_children, observation_update, couplingFnFor, couplingAt, foldEnum,
      foldEnumAux, Network.getF, Network.getFD, Network.getV, Network.setF, Network.edge,
      le0, le1, b1m, b1em, b1p, b1ep, b1tv, b1td, b1as, b0m, b0em, b0p, b0ep, b0tv, b0td,
      b0as, bv0, bv1, bfp, hc4, hsup, hsup2]

/-- Witness for C3 at the concrete rational-exponential instance. -/
theorem one_parent_continuous_hgf_witness :
    (18315638 / 10 ^ 9 ≤ opsApprox.exp (-4) ∧ opsApprox.exp (-4) ≤ 18315640 / 10 ^ 9)
    ∧ (((input_data opsApprox net2cont [1/5] none).node_trajectories.floats 0 "precision" =
          some [1]
    ∧ (input_data opsApprox net2cont [1/5] none).node_trajectories.floats 0
        "expected_precision" = some [1]
    ∧ (input_data opsApprox net2cont [1/5] none).node_trajectories.floats 0 "mean" =
        some [1/5]
    ∧ (input_data opsApprox net2cont [1/5] none).node_trajectories.floats 0 "expected_mean" =
        some [0])
    ∧ ∃ p pe m,
      (input_data opsApprox net2cont [1/5] none).node_trajectories.floats 1 "precision" =
        some [p]
    ∧ (input_data opsApprox net2cont [1/5] none).node_trajectories.floats 1
        "expected_precision" = some [pe]
    ∧ (input_data opsApprox net2cont [1/5] none).node_trajectories.floats 1 "mean" = some [m]
    ∧ (input_data opsApprox net2cont [1/5] none).node_trajectories.floats 1 "expected_mean" =
        some [0]
    ∧ |p - 19820137 / 10 ^ 7| < 1 / 10 ^ 6
    ∧ |pe - 98201376 / 10 ^ 8| < 1 / 10 ^ 6
    ∧ |m - 10090748 / 10 ^ 8| < 1 / 10 ^ 6) := by
  have hv : opsApprox.exp (-4) = 18315639 / 10 ^ 9 := by with_unfolding_all rfl
  exact ⟨⟨by rw [hv]; norm_num, by rw [hv]; norm_num⟩,
    one_parent_continuous_hgf opsApprox (by rw [hv]; norm_num) (by rw [hv]; norm_num)⟩

/-- A successful edge lookup is a member of the edge table. -/
theorem edge_mem (net : Network) {n : Nat} {adj : AdjacencyLists}
    (h : net.edge n = some adj) : (n, adj) ∈ net.edges := by
  unfold Network.edge lookupAdj at h
  obtain ⟨p, hfind, hmap⟩ := Option.map_eq_some'.mp h
  have hm := List.mem_of_find?_eq_some hfind
  have hp := List.find?_some hfind
  cases p with
  | mk a b =>
    simp only [beq_iff_eq] at hp
    subst hp
    cases hmap
    exact hm

/-- Posterior and prediction-error tags are disjoint. -/
theorem not_po_of_pe {tag : FnTag} (h : isPredErrorTag tag = true) :
    isPosteriorTag tag = false := by
  cases tag <;> simp_all [isPredErrorTag, isPosteriorTag]

/-- Entries emitted by `posteriorKernelFor` target the given node with a
posterior tag. -/
theorem mem_posteriorKernelFor {net : Network} {n : Nat} {p : Nat × FnTag}
    (h : p ∈ posteriorKernelFor net n) : p.1 = n ∧ isPosteriorTag p.2 = true := by
  unfold posteriorKernelFor at h
  rcases he : net.edge n with _ | adj <;> simp only [he] at h
  · exact absurd h (List.not_mem_nil _)
  · split_ifs at h
    all_goals try exact absurd h (List.not_mem_nil _)
    all_goals rcases List.mem_singleton.mp h with rfl
    all_goals exact ⟨rfl, rfl⟩

/-- Entries emitted by `peKernelFor` target the given node with a
prediction-error tag. -/
theorem mem_peKernelFor {net : Network} {n : Nat} {p : Nat × FnTag}
    (h : p ∈ peKernelFor net n) : p.1 = n ∧ isPredErrorTag p.2 = true := by
  unfold peKernelFor at h
  rcases he : net.edge n with _ | adj <;> simp only [he, Option.bind_some,
    Option.bind_none] at h
  · exact absurd h (List.not_mem_nil _)
  · split_ifs at h
    all_goals try exact absurd h (List.not_mem_nil _)
    all_goals rcases List.mem_singleton.mp h with rfl
    all_goals exact ⟨rfl, rfl⟩

/-- A well-formed child always emits a prediction-error step when it is
processed by the PE batch. -/
theorem peKernelFor_of_childOk {net : Network} {c : Nat} (h : childOk net c = true) :
    ∃ tag, peKernelFor net c = [(c, tag)] ∧ isPredErrorTag tag = true := by
  unfold childOk at h
  rcases he : net.edge c with _ | adj <;> rw [he] at h
  · simp at h
  · simp only [Bool.or_eq_true, Bool.and_eq_true, beq_iff_eq] at h
    rcases h with hef | ⟨htype, hpar⟩
    · exact ⟨.peExponential, by simp [peKernelFor, he, hef], rfl⟩
    · have hhp : (match adj.value_parents, adj.volatility_parents with
          | none, none => false | _, _ => true) = true := by
        rcases hpar with h | h <;>
          rcases hv : adj.value_parents with _ | v <;>
          rcases hw : adj.volatility_parents with _ | w <;> simp_all
      rcases htype with ht | ht
      · exact ⟨.peContinuous, by simp [peKernelFor, he, ht, hhp], rfl⟩
      · exact ⟨.peVolatile, by simp [peKernelFor, he, ht, hhp], rfl⟩

/-- Loop invariant of the update scheduler: posterior steps only target
nodes of the posterior queue (never inputs), and a posterior step is only
emitted once every child of its node has already contributed a
prediction-error step earlier in the output list. -/
theorem updatesLoop_ordering (net : Network)
    (hch : ∀ pr ∈ net.edges, ∀ c ∈ getAllChildren pr.2, childOk net c = true) :
    ∀ (fuel : Nat) (pe po : List Nat) (acc : List (Nat × FnTag)),
    (∀ n ∈ po, n ∉ net.inputs) →
    (∀ n tag, (n, tag) ∈ acc → isPosteriorTag tag = true → n ∉ net.inputs) →
    (∀ c, childOk net c = true → c ∉ pe →
      ∃ ptag, (c, ptag) ∈ acc ∧ isPredErrorTag ptag = true) →
    (∀ k n tag, acc.get? k = some (n, tag) → isPosteriorTag tag = true →
      ∀ adj, net.edge n = some adj → ∀ c ∈ getAllChildren adj,
        ∃ j, j < k ∧ ∃ ptag, acc.get? j = some (c, ptag) ∧ isPredErrorTag ptag = true) →
    (∀ n tag, (n, tag) ∈ updatesLoop net fuel pe po acc → isPosteriorTag tag = true →
      n ∉ net.inputs)
    ∧ (∀ k n tag, (updatesLoop net fuel pe po acc).get? k = some (n, tag) →
        isPosteriorTag tag = true →
        ∀ adj, net.edge n = some adj → ∀ c ∈ getAllChildren adj,
          ∃ j, j < k ∧ ∃ ptag, (updatesLoop net fuel pe po acc).get? j = some (c, ptag)
            ∧ isPredErrorTag ptag = true) := by
  intro fuel
  induction fuel with
  | zero =>
    intro pe po acc hpo hacc1 hpe hacc2
    exact ⟨hacc1, hacc2⟩
  | succ f ih =>
    intro pe po acc hpo hacc1 hpe hacc2
    simp only [updatesLoop]
    set ePo := po.filter (fun idx =>
      (getAllChildren ((net.edge idx).getD ⟨"", none, none, none, none⟩)).all
        (fun c => !pe.contains c)) with hePo
    set poSteps := ePo.flatMap (posteriorKernelFor net) with hpoSteps
    set po2 := po.filter (fun x => !ePo.contains x) with hpo2
    set ePe := pe.filter (fun idx => !po2.contains idx) with hePe
    set peSteps := ePe.flatMap (peKernelFor net) with hpeSteps
    set pe2 := pe.filter (fun x => !ePe.contains x) with hpe2
    -- invariants for the extended accumulator
    have hacc1b : ∀ n tag, (n, tag) ∈ acc ++ poSteps ++ peSteps →
        isPosteriorTag tag = true → n ∉ net.inputs := by
      intro n tag hmem hpt
      rcases List.mem_append.mp hmem with hmem' | hmemPe
      · rcases List.mem_append.mp hmem' with hmemAcc | hmemPo
        · exact hacc1 n tag hmemAcc hpt
        · obtain ⟨m, hm, hmem2⟩ := List.mem_flatMap.mp (hpoSteps ▸ hmemPo)
          obtain ⟨heq, _⟩ := mem_posteriorKernelFor hmem2
          have hmpo : m ∈ po := (List.mem_filter.mp (hePo ▸ hm)).1
          rw [show n = m from heq]
          exact hpo m hmpo
      · obtain ⟨m, hm, hmem2⟩ := List.mem_flatMap.mp (hpeSteps ▸ hmemPe)
        obtain ⟨_, hpetag⟩ := mem_peKernelFor hmem2
        rw [not_po_of_pe hpetag] at hpt
        cases hpt
    have hpeb : ∀ c, childOk net c = true → c ∉ pe2 →
        ∃ ptag, (c, ptag) ∈ acc ++ poSteps ++ peSteps ∧ isPredErrorTag ptag = true := by
      intro c hok hcnot
      by_cases hcpe : c ∈ pe
      · have hcePe : c ∈ ePe := by
          by_contra hne
          refine hcnot ?_
          rw [hpe2]
          refine List.mem_filter.mpr ⟨hcpe, ?_⟩
          simpa using hne
        obtain ⟨ptag, hkern, hpt⟩ := peKernelFor_of_childOk hok
        refine ⟨ptag, List.mem_append.mpr (Or.inr ?_), hpt⟩
        rw [hpeSteps]
        exact List.mem_flatMap.mpr ⟨c, hcePe, by rw [hkern]; exact List.mem_singleton.mpr rfl⟩
      · obtain ⟨ptag, hmem, hpt⟩ := hpe c hok hcpe
        exact ⟨ptag, List.mem_append.mpr (Or.inl (List.mem_append.mpr (Or.inl hmem))), hpt⟩
    have hacc2b : ∀ k n tag, (acc ++ poSteps ++ peSteps).get? k = some (n, tag) →
        isPosteriorTag tag = true →
        ∀ adj, net.edge n = some adj → ∀ c ∈ getAllChildren adj,
          ∃ j, j < k ∧ ∃ ptag, (acc ++ poSteps ++ peSteps).get? j = some (c, ptag)
            ∧ isPredErrorTag ptag = true := by
      intro k n tag hget hpt adj he c hc
      rcases lt_or_ge k acc.length with hk | hk
      · have hget' : acc.get? k = some (n, tag) := by
          rw [List.get?_append (by simp only [List.length_append]; omega),
            List.get?_append hk] at hget
          exact hget
        obtain ⟨j, hj, ptag, hgj, hptag⟩ := hacc2 k n tag hget' hpt adj he c hc
        refine ⟨j, hj, ptag, ?_, hptag⟩
        rw [List.get?_append (by simp only [List.length_append]; omega),
          List.get?_append (by omega)]
        exact hgj
      · rcases lt_or_ge k (acc.length + poSteps.length) with hk2 | hk2
        · have hgetPo : poSteps.get? (k - acc.length) = some (n, tag) := by
            rw [List.get?_append (by simp only [List.length_append]; omega),
              List.get?_append_right hk] at hget
            exact hget
          have hmemPo : (n, tag) ∈ poSteps := List.get?_mem hgetPo
          obtain ⟨m, hm, hmem2⟩ := List.mem_flatMap.mp (hpoSteps ▸ hmemPo)
          obtain ⟨heq, _⟩ := mem_posteriorKernelFor hmem2
          rw [show n = m from heq] at he
          have hfilt := (List.mem_filter.mp (hePo ▸ hm)).2
          have hcnotpe : c ∉ pe := by
            have hall := List.all_eq_true.mp hfilt c (by rw [he]; exact hc)
            simpa using hall
          have hok : childOk net c = true := hch (m, adj) (edge_mem net he) c hc
          obtain ⟨ptag, hmemAcc, hptag⟩ := hpe c hok hcnotpe
          obtain ⟨j, hgj⟩ := List.get?_of_mem hmemAcc
          have hjlt : j < acc.length := by
            by_contra hge
            rw [List.get?_eq_none.mpr (le_of_not_lt hge)] at hgj
            cases hgj
          refine ⟨j, by omega, ptag, ?_, hptag⟩
          rw [List.get?_append (by simp only [List.length_append]; omega),
            List.get?_append hjlt]
          exact hgj
        · have hgetPe : peSteps.get? (k - (acc ++ poSteps).length) = some (n, tag) := by
            rw [List.get?_append_right (by simp only [List.length_append]; omega)] at hget
            exact hget
          have hmemPe : (n, tag) ∈ peSteps := List.get?_mem hgetPe
          obtain ⟨m, hm, hmem2⟩ := List.mem_flatMap.mp (hpeSteps ▸ hmemPe)
          obtain ⟨_, hpetag⟩ := mem_peKernelFor hmem2
          rw [not_po_of_pe hpetag] at hpt
          cases hpt
    have hpo2b : ∀ n ∈ po2, n ∉ net.inputs := by
      intro n hn
      exact hpo n (List.mem_filter.mp (hpo2 ▸ hn)).1
    split_ifs with h1 h2
    · exact ⟨hacc1b, hacc2b⟩
    · exact ⟨hacc1b, hacc2b⟩
    · exact ih pe2 po2 (acc ++ poSteps ++ peSteps) hpo2b hacc1b hpeb hacc2b

/-- Membership through `insertSorted`. -/
theorem mem_insertSorted {y x : Nat} : ∀ {l : List Nat},
    y ∈ insertSorted x l ↔ y = x ∨ y ∈ l := by
  intro l
  induction l with
  | nil => simp [insertSorted]
  | cons a as ih =>
    simp only [insertSorted]
    split_ifs
    · simp [List.mem_cons]
    · simp only [List.mem_cons, ih]
      tauto

/-- Membership through the sort fold of the scheduler. -/
theorem mem_foldr_insertSorted {c : Nat} : ∀ (l init : List Nat),
    c ∈ l.foldr insertSorted init ↔ c ∈ l ∨ c ∈ init := by
  intro l
  induction l with
  | nil => simp
  | cons a as ih =>
    intro init
    simp only [List.foldr_cons, mem_insertSorted, ih, List.mem_cons]
    tauto

/-- `sortedKeys` holds exactly the node indices of the edge list. -/
theorem mem_sortedKeys {net : Network} {c : Nat} :
    c ∈ sortedKeys net ↔ c ∈ net.edges.map (·.1) := by
  unfold sortedKeys
  rw [mem_foldr_insertSorted]
  simp

/-- A well-formed child has an edge entry, hence appears in the initial
prediction-error queue. -/
theorem childOk_mem_sortedKeys {net : Network} {c : Nat}
    (h : childOk net c = true) : c ∈ sortedKeys net := by
  unfold childOk at h
  rcases he : net.edge c with _ | adj
  · rw [he] at h
    cases h
  · rw [mem_sortedKeys, List.mem_map]
    exact ⟨(c, adj), edge_mem net he, rfl⟩

/-- C4. In the updates sequence of the scheduler, every posterior step
targets a node outside the recorded `inputs` list, and appears only after
a prediction-error step for each of the node's value and volatility
children, provided every child listed in the network is a well-formed
state node (`childOk`).  The spec's claim is corrected in two ways: the
guarantee excludes members of the `inputs` list (nodes created with no
children *arguments*), not nodes without children — a node created with a
present-but-empty children vector is scheduled for a posterior step
although it has no children — and the child-ordering guarantee needs the
children to be well-formed nodes. -/
theorem scheduler_posterior_after_children (net : Network)
    (hch : ∀ pr ∈ net.edges, ∀ c ∈ getAllChildren pr.2, childOk net c = true) :
    (∀ n tag, (n, tag) ∈ get_updates_sequence net → isPosteriorTag tag = true →
      n ∉ net.inputs)
    ∧ (∀ k n tag, (get_updates_sequence net).get? k = some (n, tag) →
        isPosteriorTag tag = true →
        ∀ adj, net.edge n = some adj → ∀ c ∈ getAllChildren adj,
          ∃ j, j < k ∧ ∃ ptag, (get_updates_sequence net).get? j = some (c, ptag)
            ∧ isPredErrorTag ptag = true) := by
  unfold get_updates_sequence
  refine updatesLoop_ordering net hch _ _ _ _ ?_ ?_ ?_ ?_
  · intro n hn
    have h2 := (List.mem_filter.mp hn).2
    simpa using h2
  · intro n tag hmem
    exact absurd hmem (List.not_mem_nil _)
  · intro c hok hcnot
    exact absurd (childOk_mem_sortedKeys hok) hcnot
  · intro k n tag hget
    rw [List.get?_eq_none.mpr (Nat.zero_le k)] at hget
    cases hget

/-- Witness for C4 on the two-node continuous network: the well-formedness
hypothesis holds and the scheduled posterior steps avoid the input node. -/
theorem scheduler_posterior_after_children_witness :
    (∀ pr ∈ net2cont.edges, ∀ c ∈ getAllChildren pr.2, childOk net2cont c = true)
    ∧ (∀ n tag, (n, tag) ∈ get_updates_sequence net2cont → isPosteriorTag tag = true →
        n ∉ net2cont.inputs) := by
  have hch : ∀ pr ∈ net2cont.edges, ∀ c ∈ getAllChildren pr.2,
      childOk net2cont c = true := by
    with_unfolding_all decide
  exact ⟨hch, (scheduler_posterior_after_children net2cont hch).1⟩

/-- Counterexample to C4 as stated: in the one-node network whose only
node was created with a present-but-empty `value_children` vector, the
node has no value or volatility children, is not recorded as an input,
and yet receives a posterior step (indeed the whole updates sequence is
that single posterior step). -/
theorem scheduler_childless_posterior_counterexample :
    (netEmptyVC.edge 0).map getAllChildren = some []
    ∧ netEmptyVC.inputs = []
    ∧ get_updates_sequence netEmptyVC = [(0, FnTag.poContinuous)] := by
  refine ⟨?_, ?_, ?_⟩ <;> with_unfolding_all rfl

/-- `findIdx?` answers at or after the start index, at a matching element. -/
theorem findIdx?_spec {p : Nat → Bool} : ∀ {l : List Nat} {j i : Nat},
    List.findIdx? p l j = some i → j ≤ i ∧ ∃ a, l.get? (i - j) = some a ∧ p a = true := by
  intro l
  induction l with
  | nil => intro j i h; simp [List.findIdx?] at h
  | cons b t ih =>
    intro j i h
    rw [List.findIdx?_cons] at h
    split_ifs at h with hb
    · rcases Option.some_inj.mp h with rfl
      exact ⟨le_refl _, b, by simp, hb⟩
    · obtain ⟨hle, a, hget, hpa⟩ := ih h
      refine ⟨by omega, a, ?_, hpa⟩
      have hs : i - j = (i - (j + 1)) + 1 := by omega
      rw [hs]
      simpa using hget

/-- `findIdx?` succeeds when some member satisfies the predicate. -/
theorem findIdx?_isSome_of_mem {p : Nat → Bool} : ∀ {l : List Nat} {a : Nat}, a ∈ l →
    p a = true → ∀ j, (List.findIdx? p l j).isSome = true := by
  intro l
  induction l with
  | nil => intro a h; cases h
  | cons b t ih =>
    intro a ha hpa j
    rw [List.findIdx?_cons]
    split_ifs with hb
    · rfl
    · rcases List.mem_cons.mp ha with rfl | h
      · exact absurd hpa (by simp [hb])
      · exact ih h hpa _

/-- The element found by `indexOf?` sits at the returned index. -/
theorem indexOf?_get? {l : List Nat} {a i : Nat} (h : l.indexOf? a = some i) :
    l.get? i = some a := by
  unfold List.indexOf? at h
  obtain ⟨-, b, hget, hb⟩ := findIdx?_spec h
  rw [Nat.sub_zero] at hget
  rwa [eq_of_beq hb] at hget

/-- `indexOf?` succeeds on members. -/
theorem indexOf?_isSome_of_mem {l : List Nat} {a : Nat} (h : a ∈ l) :
    (l.indexOf? a).isSome = true := by
  unfold List.indexOf?
  exact findIdx?_isSome_of_mem h (by simp) 0

/-- In a duplicate-free list, positions of a value are unique. -/
theorem nodup_get?_inj {l : List Nat} {a i j : Nat} (hn : l.Nodup)
    (h1 : l.get? i = some a) (h2 : l.get? j = some a) : i = j := by
  obtain ⟨hi1, hi2⟩ := List.get?_eq_some.mp h1
  obtain ⟨hj1, hj2⟩ := List.get?_eq_some.mp h2
  have he := List.nodup_iff_injective_get.mp hn (hi2.trans hj2.symm)
  simpa using congrArg Fin.val he

/-- Lookup misses when no key matches. -/
theorem lookupAdj_eq_none {es : List (Nat × AdjacencyLists)} {k : Nat}
    (h : ∀ pr ∈ es, pr.1 ≠ k) : lookupAdj es k = none := by
  unfold lookupAdj
  rw [Option.map_eq_none', List.find?_eq_none]
  intro x hx
  simpa using h x hx

/-- Lookup of a freshly appended key. -/
theorem lookupAdj_append_sing_self {k : Nat} {v : AdjacencyLists}
    {es : List (Nat × AdjacencyLists)} (h : ∀ pr ∈ es, pr.1 ≠ k) :
    lookupAdj (es ++ [(k, v)]) k = some v := by
  unfold lookupAdj
  rw [List.find?_append, List.find?_eq_none.mpr (fun x hx => by simpa using h x hx)]
  simp [List.find?]

/-- Appending an entry with a different key does not change a lookup. -/
theorem lookupAdj_append_sing_ne {k i : Nat} {v : AdjacencyLists}
    {es : List (Nat × AdjacencyLists)} (h : i ≠ k) :
    lookupAdj (es ++ [(k, v)]) i = lookupAdj es i := by
  unfold lookupAdj
  rw [List.find?_append]
  have hnone : List.find? (fun p => p.1 == i) [(k, v)] = none := by
    rw [List.find?_eq_none]
    intro x hx
    rcases List.mem_singleton.mp hx with rfl
    simpa using (Ne.symm h)
  rw [hnone]
  cases List.find? (fun p => p.1 == i) es <;> rfl

/-- A fresh-key insert is an append. -/
theorem insertEdge_fresh {k : Nat} {v : AdjacencyLists}
    {es : List (Nat × AdjacencyLists)} (h : ∀ pr ∈ es, pr.1 ≠ k) :
    insertEdge es k v = es ++ [(k, v)] := by
  unfold insertEdge
  rw [if_neg]
  rw [Bool.not_eq_true, List.any_eq_false]
  intro x hx
  simpa using h x hx

/-- `modifyEdge` keeps the key list. -/
theorem modifyEdge_keys (es : List (Nat × AdjacencyLists)) (k : Nat)
    (f : AdjacencyLists → AdjacencyLists) :
    (modifyEdge es k f).map (·.1) = es.map (·.1) := by
  induction es with
  | nil => rfl
  | cons a as ih =>
    unfold modifyEdge at ih ⊢
    simp only [List.map_cons, ih]
    by_cases h : (a.1 == k) = true <;> simp [h]

/-- `modifyEdge` leaves other keys' lookups unchanged. -/
theorem lookupAdj_modifyEdge_ne {k i : Nat} {f : AdjacencyLists → AdjacencyLists}
    {es : List (Nat × AdjacencyLists)} (h : i ≠ k) :
    lookupAdj (modifyEdge es k f) i = lookupAdj es i := by
  unfold modifyEdge lookupAdj
  induction es with
  | nil => rfl
  | cons a as ih =>
    rw [List.map_cons]
    by_cases hai : (a.1 == i) = true
    · have hak : (a.1 == k) = false := by
        rw [beq_eq_false_iff_ne, eq_of_beq hai]
        exact h
      rw [if_neg (by simp [hak])]
      rw [List.find?_cons_of_pos (p := fun x : Nat × AdjacencyLists => x.1 == i) _ hai,
        List.find?_cons_of_pos (p := fun x : Nat × AdjacencyLists => x.1 == i) _ hai]
    · have hhead : ¬ (((if (a.1 == k) = true then (a.1, f a.2) else a) :
          Nat × AdjacencyLists).1 == i) = true := by
        split_ifs <;> exact hai
      rw [List.find?_cons_of_neg (p := fun x : Nat × AdjacencyLists => x.1 == i) _ hhead,
        List.find?_cons_of_neg (p := fun x : Nat × AdjacencyLists => x.1 == i) _ hai]
      exact ih

/-- `modifyEdge` maps the modified key's lookup through the function. -/
theorem lookupAdj_modifyEdge_self (es : List (Nat × AdjacencyLists)) (k : Nat)
    (f : AdjacencyLists → AdjacencyLists) :
    lookupAdj (modifyEdge es k f) k = (lookupAdj es k).map f := by
  unfold modifyEdge lookupAdj
  induction es with
  | nil => rfl
  | cons a as ih =>
    rw [List.map_cons]
    by_cases ha : (a.1 == k) = true
    · rw [if_pos ha]
      rw [List.find?_cons_of_pos (p := fun x : Nat × AdjacencyLists => x.1 == k)
          (a := (a.1, f a.2)) _ ha,
        List.find?_cons_of_pos (p := fun x : Nat × AdjacencyLists => x.1 == k) _ ha]
      rfl
    · rw [if_neg ha]
      rw [List.find?_cons_of_neg (p := fun x : Nat × AdjacencyLists => x.1 == k) _ ha,
        List.find?_cons_of_neg (p := fun x : Nat × AdjacencyLists => x.1 == k) _ ha]
      exact ih

/-- The reciprocal-edge fold keeps the key list. -/
theorem foldl_modifyEdge_keys (f : AdjacencyLists → AdjacencyLists) :
    ∀ (vc : List Nat) (es : List (Nat × AdjacencyLists)),
    ((vc.foldl (fun es c => modifyEdge es c f) es).map (·.1)) = es.map (·.1) := by
  intro vc
  induction vc with
  | nil => intro es; rfl
  | cons a as ih =>
    intro es
    rw [List.foldl_cons, ih, modifyEdge_keys]

/-- The reciprocal-edge fold leaves non-children lookups unchanged. -/
theorem lookupAdj_foldl_modifyEdge_not_mem (f : AdjacencyLists → AdjacencyLists) :
    ∀ (vc : List Nat) {i : Nat}, i ∉ vc → ∀ (es : List (Nat × AdjacencyLists)),
    lookupAdj (vc.foldl (fun es c => modifyEdge es c f) es) i = lookupAdj es i := by
  intro vc
  induction vc with
  | nil => intro i _ es; rfl
  | cons a as ih =>
    intro i hi es
    rw [List.foldl_cons, ih (fun h => hi (List.mem_cons_of_mem a h)),
      lookupAdj_modifyEdge_ne (fun h => hi (by rw [h]; exact List.mem_cons_self a as))]

/-- The reciprocal-edge fold maps each child's lookup through the update
exactly once (children list duplicate-free). -/
theorem lookupAdj_foldl_modifyEdge_mem (f : AdjacencyLists → AdjacencyLists) :
    ∀ (vc : List Nat) {i : Nat}, vc.Nodup → i ∈ vc →
    ∀ (es : List (Nat × AdjacencyLists)),
    lookupAdj (vc.foldl (fun es c => modifyEdge es c f) es) i = (lookupAdj es i).map f := by
  intro vc
  induction vc with
  | nil => intro i _ hi; cases hi
  | cons a as ih =>
    intro i hn hi es
    rw [List.foldl_cons]
    rcases List.mem_cons.mp hi with rfl | hmem
    · rw [lookupAdj_foldl_modifyEdge_not_mem f as (List.nodup_cons.mp hn).1,
        lookupAdj_modifyEdge_self]
    · have hia : i ≠ a := fun h => (List.nodup_cons.mp hn).1 (h ▸ hmem)
      rw [ih (List.nodup_cons.mp hn).2 hmem, lookupAdj_modifyEdge_ne hia]

/-- The coupling-push fold leaves other cells unchanged. -/
theorem foldl_pushCoupling_ne (key : String) :
    ∀ (vc : List Nat) {j : Nat} {k : String}, (j ∉ vc ∨ k ≠ key) →
    ∀ (vs : Nat → String → Option (List ℚ)),
    (vc.foldl (fun vs c => pushChildCoupling vs c key) vs) j k = vs j k := by
  intro vc
  induction vc with
  | nil => intro j k _ vs; rfl
  | cons a as ih =>
    intro j k h vs
    rw [List.foldl_cons]
    have htail : j ∉ as ∨ k ≠ key := by
      rcases h with h | h
      · exact Or.inl (fun hm => h (List.mem_cons_of_mem a hm))
      · exact Or.inr h
    rw [ih htail]
    unfold pushChildCoupling
    rw [if_neg]
    rintro ⟨rfl, rfl⟩
    rcases h with h | h
    · exact h (List.mem_cons_self j as)
    · exact h rfl

/-- The coupling-push fold appends exactly one default entry for each
child (children list duplicate-free). -/
theorem foldl_pushCoupling_mem (key : String) :
    ∀ (vc : List Nat) {j : Nat}, vc.Nodup → j ∈ vc →
    ∀ (vs : Nat → String → Option (List ℚ)),
    (vc.foldl (fun vs c => pushChildCoupling vs c key) vs) j key
      = some ((vs j key).getD [] ++ [1]) := by
  intro vc
  induction vc with
  | nil => intro j _ hj; cases hj
  | cons a as ih =>
    intro j hn hj vs
    rw [List.foldl_cons]
    rcases List.mem_cons.mp hj with rfl | hmem
    · rw [foldl_pushCoupling_ne key as (Or.inl (List.nodup_cons.mp hn).1)]
      unfold pushChildCoupling
      rw [if_pos ⟨rfl, rfl⟩]
    · have hja : j ≠ a := fun h => (List.nodup_cons.mp hn).1 (h ▸ hmem)
      rw [ih (List.nodup_cons.mp hn).2 hmem]
      unfold pushChildCoupling
      rw [if_neg (fun hc => hja hc.1)]

/-- Reading a vector attribute through a single write. -/
theorem getV_setV (net : Network) (i j : Nat) (k k2 : String) (v : List ℚ) :
    (net.setV i k v).getV j k2 = if j = i ∧ k2 = k then some v else net.getV j k2 := rfl

/-- Vector writes leave the edges untouched. -/
theorem edge_setV (net : Network) (i : Nat) (k : String) (v : List ℚ) (j : Nat) :
    (net.setV i k v).edge j = net.edge j := rfl

/-- A `couplingWrite` never changes the edge table. -/
theorem couplingWrite_edges (net : Network) (n : Nat) (key : String)
    (pos : Option Nat) (κ : ℚ) : (couplingWrite net n key pos κ).edges = net.edges := by
  unfold couplingWrite
  rcases pos with _ | i
  · rfl
  · rcases h : net.getV n key with _ | cs
    · rfl
    · dsimp only
      split_ifs <;> rfl

/-- The empty network satisfies the construction invariant. -/
theorem wellFormed_new (ut : String) : wellFormedNet (Network.new ut) := by
  refine ⟨?_, ?_, ?_, ?_, ?_⟩
  · intro pr hpr
    exact absurd hpr (List.not_mem_nil _)
  · intro n _ k
    rfl
  · intro c adj h
    exact absurd h (by simp [Network.new, Network.edge, lookupAdj])
  · intro c adj vps i p h
    exact absurd h (by simp [Network.new, Network.edge, lookupAdj])
  · intro c adj vps i p h
    exact absurd h (by simp [Network.new, Network.edge, lookupAdj])

/-- `set_coupling` preserves the construction invariant: either both sides
of a tracked edge are written to the same value, or nothing tracked
changes. -/
theorem wellFormed_set_coupling (net : Network) (p c : Nat) (κ : ℚ)
    (hw : wellFormedNet net) : wellFormedNet (set_coupling net p c κ) := by
  obtain ⟨hkeys, hvec, halign, hvsym, hvolsym⟩ := hw
  have kA : ¬ (("value_coupling_parents" : String) = "value_coupling_children") := by decide
  have kB : ¬ (("value_coupling_children" : String) = "value_coupling_parents") := by decide
  have kC : ¬ (("volatility_coupling_parents" : String) = "value_coupling_parents") := by decide
  have kD : ¬ (("volatility_coupling_parents" : String) = "value_coupling_children") := by decide
  have kE : ¬ (("volatility_coupling_children" : String) = "value_coupling_parents") := by decide
  have kF : ¬ (("volatility_coupling_children" : String) = "value_coupling_children") := by decide
  unfold set_coupling
  dsimp only
  rcases h1 : ((net.edge c).bind (·.value_parents)).bind (fun vp => vp.indexOf? p)
    with _ | i₀
  · -- child side skipped
    rw [show couplingWrite net c "value_coupling_parents" none κ = net from rfl]
    rcases h2 : ((net.edge p).bind (·.value_children)).bind (fun vc => vc.indexOf? c)
      with _ | j₀
    · rw [show couplingWrite net p "value_coupling_children" none κ = net from rfl]
      exact ⟨hkeys, hvec, halign, hvsym, hvolsym⟩
    · obtain ⟨vcs0, hb, hidx⟩ := Option.bind_eq_some.mp h2
      obtain ⟨adjp0, hep0, hvc0⟩ := Option.bind_eq_some.mp hb
      have hj₀get : vcs0.get? j₀ = some c := indexOf?_get? hidx
      rcases h3 : net.getV p "value_coupling_children" with _ | pv
      · rw [show couplingWrite net p "value_coupling_children" (some j₀) κ = net from by
          unfold couplingWrite
          rw [h3]]
        exact ⟨hkeys, hvec, halign, hvsym, hvolsym⟩
      · by_cases h4 : j₀ < pv.length
        · rw [show couplingWrite net p "value_coupling_children" (some j₀) κ
              = net.setV p "value_coupling_children" (pv.set j₀ κ) from by
            unfold couplingWrite
            rw [h3]
            dsimp only
            rw [if_pos h4]]
          -- parent-side-only write
          refine ⟨hkeys, ?_, ?_, ?_, ?_⟩
          · -- vectors only on nodes
            intro n hn k
            have hn' : net.edge n = none := hn
            rw [getV_setV, if_neg (by
              rintro ⟨rfl, -⟩
              rw [hep0] at hn'
              cases hn')]
            exact hvec n hn' k
          · -- parent lists aligned
            intro c₂ adj₂ he₂
            have he₂' : net.edge c₂ = some adj₂ := he₂
            obtain ⟨⟨hal1, hnd1⟩, hal2, hnd2⟩ := halign c₂ adj₂ he₂'
            refine ⟨⟨?_, hnd1⟩, ?_, hnd2⟩
            · unfold alignedWith at hal1 ⊢
              rw [getV_setV, if_neg (fun hc => kA hc.2)]
              exact hal1
            · unfold alignedWith at hal2 ⊢
              rw [getV_setV, if_neg (fun hc => kD hc.2)]
              exact hal2
          · -- value symmetry
            intro c₂ adj₂ vps₂ i₂ p₂ he₂ hvp₂ hget₂
            have he₂' : net.edge c₂ = some adj₂ := he₂
            obtain ⟨adjp₂, vcs₂, hep₂, hvc₂, hal₂, j₂, hj₂, heq₂⟩ :=
              hvsym c₂ adj₂ vps₂ i₂ p₂ he₂' hvp₂ hget₂
            have hLc : coupAt (net.setV p "value_coupling_children" (pv.set j₀ κ)) c₂
                  "value_coupling_parents" i₂
                = coupAt net c₂ "value_coupling_parents" i₂ := by
              unfold coupAt
              rw [getV_setV, if_neg (fun hc => kA hc.2)]
            by_cases hp₂ : p₂ = p
            · subst hp₂
              have hadj : adjp₂ = adjp0 := Option.some_inj.mp (hep₂.symm.trans hep0)
              subst hadj
              have hvcs : vcs₂ = vcs0 := Option.some_inj.mp (hvc₂.symm.trans hvc0)
              subst hvcs
              by_cases hj : j₂ = j₀
              · -- would be the written slot: the tracked pair contradicts h1
                exfalso
                subst hj
                have hc₂c : c₂ = c := Option.some_inj.mp (hj₂.symm.trans hj₀get)
                subst hc₂c
                rw [he₂'] at h1
                simp only [Option.some_bind, hvp₂] at h1
                have hs := indexOf?_isSome_of_mem (List.get?_mem hget₂)
                rw [h1] at hs
                cases hs
              · refine ⟨_, _, hep₂, hvc₂, ?_, j₂, hj₂, ?_⟩
                · unfold alignedWith at hal₂ ⊢
                  rw [getV_setV, if_pos ⟨rfl, rfl⟩]
                  rw [h3] at hal₂
                  simpa [List.length_set] using hal₂
                · rw [hLc, heq₂]
                  unfold coupAt
                  rw [getV_setV, if_pos ⟨rfl, rfl⟩, h3]
                  simp only [Option.some_bind]
                  exact (List.get?_set_ne _ _ (Ne.symm hj)).symm
            · refine ⟨_, _, hep₂, hvc₂, ?_, j₂, hj₂, ?_⟩
              · unfold alignedWith at hal₂ ⊢
                rw [getV_setV, if_neg (fun hc => hp₂ hc.1)]
                exact hal₂
              · rw [hLc, heq₂]
                unfold coupAt
                rw [getV_setV, if_neg (fun hc => hp₂ hc.1)]
          · -- volatility symmetry: value-key writes are invisible
            intro c₂ adj₂ vps₂ i₂ p₂ he₂ hvp₂ hget₂
            have he₂' : net.edge c₂ = some adj₂ := he₂
            obtain ⟨adjp₂, vcs₂, hep₂, hvc₂, hal₂, j₂, hj₂, heq₂⟩ :=
              hvolsym c₂ adj₂ vps₂ i₂ p₂ he₂' hvp₂ hget₂
            refine ⟨_, _, hep₂, hvc₂, ?_, j₂, hj₂, ?_⟩
            · unfold alignedWith at hal₂ ⊢
              rw [getV_setV, if_neg (fun hc => kF hc.2)]
              exact hal₂
            · unfold coupAt at heq₂ ⊢
              rw [getV_setV, if_neg (fun hc => kD hc.2),
                getV_setV, if_neg (fun hc => kF hc.2)]
              exact heq₂
        · rw [show couplingWrite net p "value_coupling_children" (some j₀) κ = net from by
            unfold couplingWrite
            rw [h3]
            dsimp only
            rw [if_neg h4]]
          exact ⟨hkeys, hvec, halign, hvsym, hvolsym⟩
  · -- child side written
    obtain ⟨vps, hbv, hidxv⟩ := Option.bind_eq_some.mp h1
    obtain ⟨adjc, hec, hvpc⟩ := Option.bind_eq_some.mp hbv
    have hi₀get : vps.get? i₀ = some p := indexOf?_get? hidxv
    have hi₀lt : i₀ < vps.length := (List.get?_eq_some.mp hi₀get).1
    obtain ⟨⟨halc, hndc⟩, -⟩ := halign c adjc hec
    unfold alignedWith at halc
    rw [hvpc] at halc
    rcases hcv : net.getV c "value_coupling_parents" with _ | cv
    · rw [hcv] at halc
      cases halc
    · rw [hcv] at halc
      have hcvlen : cv.length = vps.length := by simpa using halc
      rw [show couplingWrite net c "value_coupling_parents" (some i₀) κ
          = net.setV c "value_coupling_parents" (cv.set i₀ κ) from by
        unfold couplingWrite
        rw [hcv]
        dsimp only
        rw [if_pos (by omega)]]
      obtain ⟨adjp, vcs, hep, hvcp', halp, j₁, hj₁, heq₁⟩ :=
        hvsym c adjc vps i₀ p hec hvpc hi₀get
      unfold alignedWith at halp
      rcases hpv : net.getV p "value_coupling_children" with _ | pv
      · rw [hpv] at halp
        cases halp
      · rw [hpv] at halp
        have hpvlen : pv.length = vcs.length := by simpa using halp
        obtain ⟨j₀, hj₀⟩ := Option.isSome_iff_exists.mp
          (indexOf?_isSome_of_mem (List.get?_mem hj₁))
        have hj₀get : vcs.get? j₀ = some c := indexOf?_get? hj₀
        have hj₀lt : j₀ < vcs.length := (List.get?_eq_some.mp hj₀get).1
        have hlt1 : i₀ < cv.length := by omega
        have hlt2 : j₀ < pv.length := by omega
        obtain ⟨xc, hxc⟩ : ∃ x, cv.get? i₀ = some x := by
          rcases hq : cv.get? i₀ with _ | x
          · rw [List.get?_eq_none] at hq
            omega
          · exact ⟨x, rfl⟩
        obtain ⟨xp, hxp⟩ : ∃ x, pv.get? j₀ = some x := by
          rcases hq : pv.get? j₀ with _ | x
          · rw [List.get?_eq_none] at hq
            omega
          · exact ⟨x, rfl⟩
        have hscrut : (((net.setV c "value_coupling_parents" (cv.set i₀ κ)).edge p).bind
              (·.value_children)).bind (fun vc => vc.indexOf? c) = some j₀ := by
          rw [edge_setV, hep]
          simp only [Option.some_bind]
          rw [hvcp']
          simp only [Option.some_bind]
          exact hj₀
        rw [hscrut]
        have hpv1 : (net.setV c "value_coupling_parents" (cv.set i₀ κ)).getV p
            "value_coupling_children" = some pv := by
          rw [getV_setV, if_neg (fun hc => kB hc.2)]
          exact hpv
        rw [show couplingWrite (net.setV c "value_coupling_parents" (cv.set i₀ κ)) p
              "value_coupling_children" (some j₀) κ
            = (net.setV c "value_coupling_parents" (cv.set i₀ κ)).setV p
              "value_coupling_children" (pv.set j₀ κ) from by
          unfold couplingWrite
          rw [hpv1]
          dsimp only
          rw [if_pos (by omega)]]
        -- both sides written: prove the invariant for the double write
        refine ⟨hkeys, ?_, ?_, ?_, ?_⟩
        · -- vectors only on nodes
          intro n hn k
          have hn' : net.edge n = none := hn
          rw [getV_setV, if_neg (by
              rintro ⟨rfl, -⟩
              rw [hep] at hn'
              cases hn'),
            getV_setV, if_neg (by
              rintro ⟨rfl, -⟩
              rw [hec] at hn'
              cases hn')]
          exact hvec n hn' k
        · -- parent lists aligned
          intro c₂ adj₂ he₂
          have he₂' : net.edge c₂ = some adj₂ := he₂
          obtain ⟨⟨hal1, hnd1⟩, hal2, hnd2⟩ := halign c₂ adj₂ he₂'
          refine ⟨⟨?_, hnd1⟩, ?_, hnd2⟩
          · unfold alignedWith at hal1 ⊢
            rw [getV_setV, if_neg (fun hc => kA hc.2), getV_setV]
            by_cases hc2 : c₂ = c
            · subst hc2
              rw [if_pos ⟨rfl, rfl⟩]
              have hadj : adj₂ = adjc := Option.some_inj.mp (he₂'.symm.trans hec)
              subst hadj
              rw [hvpc]
              simp [List.length_set, hcvlen]
            · rw [if_neg (fun hc => hc2 hc.1)]
              exact hal1
          · unfold alignedWith at hal2 ⊢
            rw [getV_setV, if_neg (fun hc => kD hc.2),
              getV_setV, if_neg (fun hc => kC hc.2)]
            exact hal2
        · -- value symmetry
          intro c₂ adj₂ vps₂ i₂ p₂ he₂ hvp₂ hget₂
          have he₂' : net.edge c₂ = some adj₂ := he₂
          obtain ⟨adjp₂, vcs₂, hep₂, hvc₂, hal₂, j₂, hj₂, heq₂⟩ :=
            hvsym c₂ adj₂ vps₂ i₂ p₂ he₂' hvp₂ hget₂
          by_cases hcc : c₂ = c ∧ i₂ = i₀
          · -- the written child slot: rebuild the pair at the parent's written slot
            obtain ⟨rfl, rfl⟩ := hcc
            have hadj : adj₂ = adjc := Option.some_inj.mp (he₂'.symm.trans hec)
            subst hadj
            have hvps : vps₂ = vps := Option.some_inj.mp (hvp₂.symm.trans hvpc)
            subst hvps
            have hp₂ : p₂ = p := Option.some_inj.mp (hget₂.symm.trans hi₀get)
            subst hp₂
            refine ⟨_, _, hep, hvcp', ?_, j₀, hj₀get, ?_⟩
            · unfold alignedWith
              rw [getV_setV, if_pos ⟨rfl, rfl⟩]
              simp [List.length_set, hpvlen]
            · unfold coupAt
              rw [getV_setV, if_neg (fun hc => kA hc.2), getV_setV, if_pos ⟨rfl, rfl⟩,
                getV_setV, if_pos ⟨rfl, rfl⟩]
              simp only [Option.some_bind]
              rw [List.get?_set_eq, List.get?_set_eq, hxc, hxp]
              rfl
          · -- an untouched child slot
            have hLc : coupAt ((net.setV c "value_coupling_parents" (cv.set i₀ κ)).setV p
                  "value_coupling_children" (pv.set j₀ κ)) c₂ "value_coupling_parents" i₂
                = coupAt net c₂ "value_coupling_parents" i₂ := by
              unfold coupAt
              rw [getV_setV, if_neg (fun hc => kA hc.2), getV_setV]
              by_cases hc2 : c₂ = c
              · subst hc2
                rw [if_pos ⟨rfl, rfl⟩, hcv]
                simp only [Option.some_bind]
                have hne : i₂ ≠ i₀ := fun h => hcc ⟨rfl, h⟩
                exact List.get?_set_ne _ _ (Ne.symm hne)
              · rw [if_neg (fun hc => hc2 hc.1)]
            by_cases hp₂ : p₂ = p
            · subst hp₂
              have hadj : adjp₂ = adjp := Option.some_inj.mp (hep₂.symm.trans hep)
              subst hadj
              have hvcs : vcs₂ = vcs := Option.some_inj.mp (hvc₂.symm.trans hvcp')
              subst hvcs
              by_cases hj : j₂ = j₀
              · -- both slots coincide: the child slot would be the written one
                exfalso
                subst hj
                have hc₂c : c₂ = c := Option.some_inj.mp (hj₂.symm.trans hj₀get)
                subst hc₂c
                have hadj : adj₂ = adjc := Option.some_inj.mp (he₂'.symm.trans hec)
                subst hadj
                have hvps : vps₂ = vps := Option.some_inj.mp (hvp₂.symm.trans hvpc)
                subst hvps
                exact hcc ⟨rfl, nodup_get?_inj (hndc _ hvpc) hget₂ hi₀get⟩
              · refine ⟨_, _, hep₂, hvc₂, ?_, j₂, hj₂, ?_⟩
                · unfold alignedWith
                  rw [getV_setV, if_pos ⟨rfl, rfl⟩]
                  simp [List.length_set, hpvlen]
                · rw [hLc, heq₂]
                  unfold coupAt
                  rw [getV_setV, if_pos ⟨rfl, rfl⟩, hpv]
                  simp only [Option.some_bind]
                  exact (List.get?_set_ne _ _ (Ne.symm hj)).symm
            · refine ⟨_, _, hep₂, hvc₂, ?_, j₂, hj₂, ?_⟩
              · unfold alignedWith at hal₂ ⊢
                rw [getV_setV, if_neg (fun hc => hp₂ hc.1),
                  getV_setV, if_neg (fun hc => kB hc.2)]
                exact hal₂
              · rw [hLc, heq₂]
                unfold coupAt
                rw [getV_setV, if_neg (fun hc => hp₂ hc.1),
                  getV_setV, if_neg (fun hc => kB hc.2)]
        · -- volatility symmetry: value-key writes are invisible
          intro c₂ adj₂ vps₂ i₂ p₂ he₂ hvp₂ hget₂
          have he₂' : net.edge c₂ = some adj₂ := he₂
          obtain ⟨adjp₂, vcs₂, hep₂, hvc₂, hal₂, j₂, hj₂, heq₂⟩ :=
            hvolsym c₂ adj₂ vps₂ i₂ p₂ he₂' hvp₂ hget₂
          refine ⟨_, _, hep₂, hvc₂, ?_, j₂, hj₂, ?_⟩
          · unfold alignedWith at hal₂ ⊢
            rw [getV_setV, if_neg (fun hc => kF hc.2),
              getV_setV, if_neg (fun hc => kE hc.2)]
            exact hal₂
          · unfold coupAt at heq₂ ⊢
            rw [getV_setV, if_neg (fun hc => kD hc.2),
              getV_setV, if_neg (fun hc => kC hc.2),
              getV_setV, if_neg (fun hc => kF hc.2),
              getV_setV, if_neg (fun hc => kE hc.2)]
            exact heq₂

/-- Generic preservation of the construction invariant by one node
insertion: `N` extends `net` with a fresh node `L` whose parent lists are
absent, reciprocally registering `L` as parent of the (existing,
duplicate-free) children `vcEff` / `volcEff` with default coupling `1`.
The hypotheses characterize `N`'s edge table and vector attributes;
`add_nodes` satisfies them in each of its kind branches. -/
theorem wellFormed_extend (net N : Network) (L : Nat) (vcEff volcEff : List Nat)
    (hw : wellFormedNet net)
    (hL : L = net.edges.length)
    (hvcn : vcEff.Nodup) (hvce : ∀ ch ∈ vcEff, (net.edge ch).isSome = true)
    (hvoln : volcEff.Nodup) (hvole : ∀ ch ∈ volcEff, (net.edge ch).isSome = true)
    (hkeysN : N.edges.map (·.1) = net.edges.map (·.1) ++ [L])
    (hELp : ∃ adjL, N.edge L = some adjL ∧ adjL.value_parents = none
      ∧ adjL.volatility_parents = none)
    (hE : ∀ i, i ≠ L → N.edge i = (net.edge i).map (fun adj =>
      { adj with
        value_parents := if i ∈ vcEff then pushParent L adj.value_parents
          else adj.value_parents,
        volatility_parents := if i ∈ volcEff then pushParent L adj.volatility_parents
          else adj.volatility_parents }))
    (hVLvcp : N.getV L "value_coupling_parents" = none)
    (hVLvolcp : N.getV L "volatility_coupling_parents" = none)
    (hnewv : ∀ ch ∈ vcEff, ∃ adjL vcsL, N.edge L = some adjL
      ∧ adjL.value_children = some vcsL
      ∧ (N.getV L "value_coupling_children").map List.length = some vcsL.length
      ∧ ∃ j, vcsL.get? j = some ch ∧ coupAt N L "value_coupling_children" j = some 1)
    (hnewvol : ∀ ch ∈ volcEff, ∃ adjL vcsL, N.edge L = some adjL
      ∧ adjL.volatility_children = some vcsL
      ∧ (N.getV L "volatility_coupling_children").map List.length = some vcsL.length
      ∧ ∃ j, vcsL.get? j = some ch ∧ coupAt N L "volatility_coupling_children" j = some 1)
    (hVmem : ∀ j, j ≠ L → j ∈ vcEff → N.getV j "value_coupling_parents"
      = some ((net.getV j "value_coupling_parents").getD [] ++ [1]))
    (hVnot : ∀ j, j ≠ L → j ∉ vcEff → N.getV j "value_coupling_parents"
      = net.getV j "value_coupling_parents")
    (hWmem : ∀ j, j ≠ L → j ∈ volcEff → N.getV j "volatility_coupling_parents"
      = some ((net.getV j "volatility_coupling_parents").getD [] ++ [1]))
    (hWnot : ∀ j, j ≠ L → j ∉ volcEff → N.getV j "volatility_coupling_parents"
      = net.getV j "volatility_coupling_parents")
    (hVother : ∀ j k, j ≠ L → ¬ k = "value_coupling_parents"
      → ¬ k = "volatility_coupling_parents" → N.getV j k = net.getV j k) :
    wellFormedNet N := by
  obtain ⟨hkeys, hvec, halign, hvsym, hvolsym⟩ := hw
  have hexlt : ∀ {ch : Nat}, (net.edge ch).isSome = true → ch < net.edges.length := by
    intro ch h
    obtain ⟨adj, hadj⟩ := Option.isSome_iff_exists.mp h
    exact hkeys (ch, adj) (edge_mem net hadj)
  have hltL : ∀ {ch : Nat}, (net.edge ch).isSome = true → ch ≠ L := by
    intro ch h
    have := hexlt h
    omega
  have hventry : ∀ c₀ adj₀ l, net.edge c₀ = some adj₀ → adj₀.value_parents = some l →
      ∀ x ∈ l, x ≠ L := by
    intro c₀ adj₀ l he hvl x hx
    obtain ⟨i, hi⟩ := List.get?_of_mem hx
    obtain ⟨adjx, vcsx, hex, -⟩ := hvsym c₀ adj₀ l i x he hvl hi
    exact hltL (by rw [hex]; rfl)
  have hwentry : ∀ c₀ adj₀ l, net.edge c₀ = some adj₀ → adj₀.volatility_parents = some l →
      ∀ x ∈ l, x ≠ L := by
    intro c₀ adj₀ l he hvl x hx
    obtain ⟨i, hi⟩ := List.get?_of_mem hx
    obtain ⟨adjx, vcsx, hex, -⟩ := hvolsym c₀ adj₀ l i x he hvl hi
    exact hltL (by rw [hex]; rfl)
  have hlenN : N.edges.length = net.edges.length + 1 := by
    have h := congrArg List.length hkeysN
    simpa using h
  refine ⟨?_, ?_, ?_, ?_, ?_⟩
  · -- fresh keys
    intro pr hpr
    have hm : pr.1 ∈ N.edges.map (·.1) := List.mem_map_of_mem _ hpr
    rw [hkeysN] at hm
    rcases List.mem_append.mp hm with h | h
    · obtain ⟨q, hq, hq1⟩ := List.mem_map.mp h
      have := hkeys q hq
      omega
    · rcases List.mem_singleton.mp h with h
      omega
  · -- vectors only on nodes
    intro n hn k
    have hnL : n ≠ L := by
      intro h
      obtain ⟨adjL, hEL, -, -⟩ := hELp
      rw [h, hEL] at hn
      cases hn
    have hnet : net.edge n = none := by
      have h := hE n hnL
      rw [hn] at h
      exact Option.map_eq_none'.mp h.symm
    have hnvc : n ∉ vcEff := by
      intro hm
      have := hvce n hm
      rw [hnet] at this
      cases this
    have hnvolc : n ∉ volcEff := by
      intro hm
      have := hvole n hm
      rw [hnet] at this
      cases this
    by_cases hk1 : k = "value_coupling_parents"
    · subst hk1
      rw [hVnot n hnL hnvc]
      exact hvec n hnet _
    · by_cases hk2 : k = "volatility_coupling_parents"
      · subst hk2
        rw [hWnot n hnL hnvolc]
        exact hvec n hnet _
      · rw [hVother n k hnL hk1 hk2]
        exact hvec n hnet k
  · -- parent lists aligned
    intro c₂ adj₂ he₂
    by_cases hc₂L : c₂ = L
    · subst hc₂L
      obtain ⟨adjL, hEL, hvpL, hvolpL⟩ := hELp
      have hadj : adj₂ = adjL := Option.some_inj.mp (he₂.symm.trans hEL)
      subst hadj
      refine ⟨⟨?_, ?_⟩, ?_, ?_⟩
      · unfold alignedWith
        rw [hVLvcp, hvpL]
        rfl
      · intro vps hvps
        rw [hvpL] at hvps
        cases hvps
      · unfold alignedWith
        rw [hVLvolcp, hvolpL]
        rfl
      · intro vps hvps
        rw [hvolpL] at hvps
        cases hvps
    · have hEc := hE c₂ hc₂L
      rcases hnetc : net.edge c₂ with _ | adj₀
      · rw [hnetc, he₂] at hEc
        cases hEc
      · rw [hnetc, Option.map_some'] at hEc
        have hadj : adj₂ = _ := Option.some_inj.mp (he₂.symm.trans hEc)
        subst hadj
        obtain ⟨⟨hal1, hnd1⟩, hal2, hnd2⟩ := halign c₂ adj₀ hnetc
        unfold alignedWith at hal1 hal2
        constructor
        · constructor
          · unfold alignedWith
            dsimp only
            by_cases hm : c₂ ∈ vcEff
            · rw [if_pos hm, hVmem c₂ hc₂L hm]
              rcases hvp₀ : adj₀.value_parents with _ | l
              · rw [hvp₀] at hal1
                rw [Option.map_eq_none'.mp hal1]
                simp [pushParent]
              · rw [hvp₀] at hal1
                rcases hg : net.getV c₂ "value_coupling_parents" with _ | cl
                · rw [hg] at hal1
                  cases hal1
                · rw [hg] at hal1
                  have hll : cl.length = l.length := by simpa using hal1
                  simp [pushParent, hll]
            · rw [if_neg hm, hVnot c₂ hc₂L hm]
              exact hal1
          · dsimp only
            by_cases hm : c₂ ∈ vcEff
            · rw [if_pos hm]
              intro vps hvps
              rcases hvp₀ : adj₀.value_parents with _ | l
              · rw [hvp₀] at hvps
                simp only [pushParent] at hvps
                rcases Option.some_inj.mp hvps.symm with rfl
                exact List.nodup_singleton _
              · rw [hvp₀] at hvps
                simp only [pushParent] at hvps
                rcases Option.some_inj.mp hvps.symm with rfl
                rw [List.nodup_append]
                refine ⟨hnd1 l hvp₀, List.nodup_singleton _, ?_⟩
                intro x hx hxL
                rcases List.mem_singleton.mp hxL with rfl
                exact hventry c₂ adj₀ l hnetc hvp₀ x hx rfl
            · rw [if_neg hm]
              exact hnd1
        · constructor
          · unfold alignedWith
            dsimp only
            by_cases hm : c₂ ∈ volcEff
            · rw [if_pos hm, hWmem c₂ hc₂L hm]
              rcases hvp₀ : adj₀.volatility_parents with _ | l
              · rw [hvp₀] at hal2
                rw [Option.map_eq_none'.mp hal2]
                simp [pushParent]
              · rw [hvp₀] at hal2
                rcases hg : net.getV c₂ "volatility_coupling_parents" with _ | cl
                · rw [hg] at hal2
                  cases hal2
                · rw [hg] at hal2
                  have hll : cl.length = l.length := by simpa using hal2
                  simp [pushParent, hll]
            · rw [if_neg hm, hWnot c₂ hc₂L hm]
              exact hal2
          · dsimp only
            by_cases hm : c₂ ∈ volcEff
            · rw [if_pos hm]
              intro vps hvps
              rcases hvp₀ : adj₀.volatility_parents with _ | l
              · rw [hvp₀] at hvps
                simp only [pushParent] at hvps
                rcases Option.some_inj.mp hvps.symm with rfl
                exact List.nodup_singleton _
              · rw [hvp₀] at hvps
                simp only [pushParent] at hvps
                rcases Option.some_inj.mp hvps.symm with rfl
                rw [List.nodup_append]
                refine ⟨hnd2 l hvp₀, List.nodup_singleton _, ?_⟩
                intro x hx hxL
                rcases List.mem_singleton.mp hxL with rfl
                exact hwentry c₂ adj₀ l hnetc hvp₀ x hx rfl
            · rw [if_neg hm]
              exact hnd2
  · -- value symmetry
    intro c₂ adj₂ vps₂ i₂ p₂ he₂ hvp₂ hget₂
    by_cases hc₂L : c₂ = L
    · subst hc₂L
      obtain ⟨adjL, hEL, hvpL, -⟩ := hELp
      have hadj : adj₂ = adjL := Option.some_inj.mp (he₂.symm.trans hEL)
      subst hadj
      rw [hvpL] at hvp₂
      cases hvp₂
    · have hEc := hE c₂ hc₂L
      rcases hnetc : net.edge c₂ with _ | adj₀
      · rw [hnetc, he₂] at hEc
        cases hEc
      · rw [hnetc, Option.map_some'] at hEc
        have hadj : adj₂ = _ := Option.some_inj.mp (he₂.symm.trans hEc)
        subst hadj
        obtain ⟨⟨hal1, hnd1⟩, -⟩ := halign c₂ adj₀ hnetc
        unfold alignedWith at hal1
        dsimp only at hvp₂
        by_cases hm : c₂ ∈ vcEff
        · rw [if_pos hm] at hvp₂
          rcases hvp₀ : adj₀.value_parents with _ | l
          · -- no old parents: the single new entry points to `L`
            rw [hvp₀] at hvp₂
            simp only [pushParent] at hvp₂
            rcases Option.some_inj.mp hvp₂ with rfl
            have hgv : net.getV c₂ "value_coupling_parents" = none := by
              rw [hvp₀] at hal1
              exact Option.map_eq_none'.mp hal1
            rcases i₂ with _ | i₂
            · have hp₂L : p₂ = L := by simpa using hget₂.symm
              subst hp₂L
              obtain ⟨adjL, vcsL, hNL, hvcL, halL, j, hjget, hcoup⟩ := hnewv c₂ hm
              refine ⟨adjL, vcsL, hNL, hvcL, ?_, j, hjget, ?_⟩
              · unfold alignedWith
                rw [halL]
                rfl
              · have hLHS : coupAt N c₂ "value_coupling_parents" 0 = some 1 := by
                  unfold coupAt
                  rw [hVmem c₂ hc₂L hm, hgv]
                  rfl
                rw [hLHS, hcoup]
            · exfalso
              have : ([L] : List Nat).get? (i₂ + 1) = none := rfl
              rw [this] at hget₂
              cases hget₂
          · rw [hvp₀] at hvp₂
            simp only [pushParent] at hvp₂
            rcases Option.some_inj.mp hvp₂ with rfl
            obtain ⟨cl, hgcl, hcll⟩ : ∃ cl, net.getV c₂ "value_coupling_parents" = some cl
                ∧ cl.length = l.length := by
              rw [hvp₀] at hal1
              rcases hg : net.getV c₂ "value_coupling_parents" with _ | cl
              · rw [hg] at hal1
                cases hal1
              · rw [hg] at hal1
                exact ⟨cl, rfl, by simpa using hal1⟩
            rcases lt_trichotomy i₂ l.length with hi | hi | hi
            · -- an old pair, untouched
              have hget₀ : l.get? i₂ = some p₂ := by
                rw [List.get?_append hi] at hget₂
                exact hget₂
              obtain ⟨adjp₂, vcs₂, hep₂, hvc₂, hal₂, j₂, hj₂, heq₂⟩ :=
                hvsym c₂ adj₀ l i₂ p₂ hnetc hvp₀ hget₀
              have hp₂L : p₂ ≠ L := hltL (by rw [hep₂]; rfl)
              refine ⟨{ adjp₂ with
                  value_parents := if p₂ ∈ vcEff then pushParent L adjp₂.value_parents
                    else adjp₂.value_parents,
                  volatility_parents := if p₂ ∈ volcEff then
                    pushParent L adjp₂.volatility_parents
                    else adjp₂.volatility_parents }, vcs₂, ?_, hvc₂, ?_, j₂, hj₂, ?_⟩
              · rw [hE p₂ hp₂L, hep₂, Option.map_some']
              · unfold alignedWith at hal₂ ⊢
                rw [hVother p₂ "value_coupling_children" hp₂L (by decide) (by decide)]
                exact hal₂
              · unfold coupAt at heq₂ ⊢
                rw [hVmem c₂ hc₂L hm, hgcl]
                simp only [Option.getD_some, Option.some_bind]
                rw [List.get?_append (by omega)]
                rw [hVother p₂ "value_coupling_children" hp₂L (by decide) (by decide)]
                rw [hgcl] at heq₂
                simpa using heq₂
            · -- the appended entry: points to `L`
              have hp₂L : p₂ = L := by
                rw [hi] at hget₂
                rw [List.get?_append_right (le_refl _)] at hget₂
                simp at hget₂
                exact hget₂.symm
              subst hp₂L
              obtain ⟨adjL, vcsL, hNL, hvcL, halL, j, hjget, hcoup⟩ := hnewv c₂ hm
              refine ⟨adjL, vcsL, hNL, hvcL, ?_, j, hjget, ?_⟩
              · unfold alignedWith
                rw [halL]
                rfl
              · have hLHS : coupAt N c₂ "value_coupling_parents" i₂ = some 1 := by
                  unfold coupAt
                  rw [hVmem c₂ hc₂L hm, hgcl]
                  simp only [Option.getD_some, Option.some_bind]
                  rw [hi, ← hcll, List.get?_concat_length]
                rw [hLHS, hcoup]
            · exfalso
              have hnone : (l ++ [L]).get? i₂ = none := by
                rw [List.get?_eq_none]
                simp only [List.length_append, List.length_singleton]
                omega
              rw [hnone] at hget₂
              cases hget₂
        · rw [if_neg hm] at hvp₂
          obtain ⟨adjp₂, vcs₂, hep₂, hvc₂, hal₂, j₂, hj₂, heq₂⟩ :=
            hvsym c₂ adj₀ vps₂ i₂ p₂ hnetc hvp₂ hget₂
          have hp₂L : p₂ ≠ L := hltL (by rw [hep₂]; rfl)
          refine ⟨{ adjp₂ with
              value_parents := if p₂ ∈ vcEff then pushParent L adjp₂.value_parents
                else adjp₂.value_parents,
              volatility_parents := if p₂ ∈ volcEff then
                pushParent L adjp₂.volatility_parents
                else adjp₂.volatility_parents }, vcs₂, ?_, hvc₂, ?_, j₂, hj₂, ?_⟩
          · rw [hE p₂ hp₂L, hep₂, Option.map_some']
          · unfold alignedWith at hal₂ ⊢
            rw [hVother p₂ "value_coupling_children" hp₂L (by decide) (by decide)]
            exact hal₂
          · unfold coupAt at heq₂ ⊢
            rw [hVnot c₂ hc₂L hm,
              hVother p₂ "value_coupling_children" hp₂L (by decide) (by decide)]
            exact heq₂
  · -- volatility symmetry (mirror of the value case)
    intro c₂ adj₂ vps₂ i₂ p₂ he₂ hvp₂ hget₂
    by_cases hc₂L : c₂ = L
    · subst hc₂L
      obtain ⟨adjL, hEL, -, hvolpL⟩ := hELp
      have hadj : adj₂ = adjL := Option.some_inj.mp (he₂.symm.trans hEL)
      subst hadj
      rw [hvolpL] at hvp₂
      cases hvp₂
    · have hEc := hE c₂ hc₂L
      rcases hnetc : net.edge c₂ with _ | adj₀
      · rw [hnetc, he₂] at hEc
        cases hEc
      · rw [hnetc, Option.map_some'] at hEc
        have hadj : adj₂ = _ := Option.some_inj.mp (he₂.symm.trans hEc)
        subst hadj
        obtain ⟨-, hal2, hnd2⟩ := halign c₂ adj₀ hnetc
        unfold alignedWith at hal2
        dsimp only at hvp₂
        by_cases hm : c₂ ∈ volcEff
        · rw [if_pos hm] at hvp₂
          rcases hvp₀ : adj₀.volatility_parents with _ | l
          · rw [hvp₀] at hvp₂
            simp only [pushParent] at hvp₂
            rcases Option.some_inj.mp hvp₂ with rfl
            have hgv : net.getV c₂ "volatility_coupling_parents" = none := by
              rw [hvp₀] at hal2
              exact Option.map_eq_none'.mp hal2
            rcases i₂ with _ | i₂
            · have hp₂L : p₂ = L := by simpa using hget₂.symm
              subst hp₂L
              obtain ⟨adjL, vcsL, hNL, hvcL, halL, j, hjget, hcoup⟩ := hnewvol c₂ hm
              refine ⟨adjL, vcsL, hNL, hvcL, ?_, j, hjget, ?_⟩
              · unfold alignedWith
                rw [halL]
                rfl
              · have hLHS : coupAt N c₂ "volatility_coupling_parents" 0 = some 1 := by
                  unfold coupAt
                  rw [hWmem c₂ hc₂L hm, hgv]
                  rfl
                rw [hLHS, hcoup]
            · exfalso
              have : ([L] : List Nat).get? (i₂ + 1) = none := rfl
              rw [this] at hget₂
              cases hget₂
          · rw [hvp₀] at hvp₂
            simp only [pushParent] at hvp₂
            rcases Option.some_inj.mp hvp₂ with rfl
            obtain ⟨cl, hgcl, hcll⟩ : ∃ cl, net.getV c₂ "volatility_coupling_parents"
                = some cl ∧ cl.length = l.length := by
              rw [hvp₀] at hal2
              rcases hg : net.getV c₂ "volatility_coupling_parents" with _ | cl
              · rw [hg] at hal2
                cases hal2
              · rw [hg] at hal2
                exact ⟨cl, rfl, by simpa using hal2⟩
            rcases lt_trichotomy i₂ l.length with hi | hi | hi
            · have hget₀ : l.get? i₂ = some p₂ := by
                rw [List.get?_append hi] at hget₂
                exact hget₂
              obtain ⟨adjp₂, vcs₂, hep₂, hvc₂, hal₂', j₂, hj₂, heq₂⟩ :=
                hvolsym c₂ adj₀ l i₂ p₂ hnetc hvp₀ hget₀
              have hp₂L : p₂ ≠ L := hltL (by rw [hep₂]; rfl)
              refine ⟨{ adjp₂ with
                  value_parents := if p₂ ∈ vcEff then pushParent L adjp₂.value_parents
                    else adjp₂.value_parents,
                  volatility_parents := if p₂ ∈ volcEff then
                    pushParent L adjp₂.volatility_parents
                    else adjp₂.volatility_parents }, vcs₂, ?_, hvc₂, ?_, j₂, hj₂, ?_⟩
              · rw [hE p₂ hp₂L, hep₂, Option.map_some']
              · unfold alignedWith at hal₂' ⊢
                rw [hVother p₂ "volatility_coupling_children" hp₂L (by decide) (by decide)]
                exact hal₂'
              · unfold coupAt at heq₂ ⊢
                rw [hWmem c₂ hc₂L hm, hgcl]
                simp only [Option.getD_some, Option.some_bind]
                rw [List.get?_append (by omega)]
                rw [hVother p₂ "volatility_coupling_children" hp₂L (by decide) (by decide)]
                rw [hgcl] at heq₂
                simpa using heq₂
            · have hp₂L : p₂ = L := by
                rw [hi] at hget₂
                rw [List.get?_append_right (le_refl _)] at hget₂
                simp at hget₂
                exact hget₂.symm
              subst hp₂L
              obtain ⟨adjL, vcsL, hNL, hvcL, halL, j, hjget, hcoup⟩ := hnewvol c₂ hm
              refine ⟨adjL, vcsL, hNL, hvcL, ?_, j, hjget, ?_⟩
              · unfold alignedWith
                rw [halL]
                rfl
              · have hLHS : coupAt N c₂ "volatility_coupling_parents" i₂ = some 1 := by
                  unfold coupAt
                  rw [hWmem c₂ hc₂L hm, hgcl]
                  simp only [Option.getD_some, Option.some_bind]
                  rw [hi, ← hcll, List.get?_concat_length]
                rw [hLHS, hcoup]
            · exfalso
              have hnone : (l ++ [L]).get? i₂ = none := by
                rw [List.get?_eq_none]
                simp only [List.length_append, List.length_singleton]
                omega
              rw [hnone] at hget₂
              cases hget₂
        · rw [if_neg hm] at hvp₂
          obtain ⟨adjp₂, vcs₂, hep₂, hvc₂, hal₂', j₂, hj₂, heq₂⟩ :=
            hvolsym c₂ adj₀ vps₂ i₂ p₂ hnetc hvp₂ hget₂
          have hp₂L : p₂ ≠ L := hltL (by rw [hep₂]; rfl)
          refine ⟨{ adjp₂ with
              value_parents := if p₂ ∈ vcEff then pushParent L adjp₂.value_parents
                else adjp₂.value_parents,
              volatility_parents := if p₂ ∈ volcEff then
                pushParent L adjp₂.volatility_parents
                else adjp₂.volatility_parents }, vcs₂, ?_, hvc₂, ?_, j₂, hj₂, ?_⟩
          · rw [hE p₂ hp₂L, hep₂, Option.map_some']
          · unfold alignedWith at hal₂' ⊢
            rw [hVother p₂ "volatility_coupling_children" hp₂L (by decide) (by decide)]
            exact hal₂'
          · unfold coupAt at heq₂ ⊢
            rw [hWnot c₂ hc₂L hm,
              hVother p₂ "volatility_coupling_children" hp₂L (by decide) (by decide)]
            exact heq₂

/-- Children-only `add_nodes` (both parent arguments absent, children
arguments duplicate-free references to existing nodes) preserves the
construction invariant, whatever the node kind. -/
theorem wellFormed_add_nodes (net : Network) (kind : String)
    (vc volc : Option (List Nat)) (hw : wellFormedNet net)
    (hvc : childArgsOk net vc) (hvolc : childArgsOk net volc) :
    wellFormedNet (add_nodes net kind none vc none volc) := by
  have hkeys := hw.1
  have hvec := hw.2.1
  have hfresh : ∀ pr ∈ net.edges, pr.1 ≠ net.edges.length :=
    fun pr h => Nat.ne_of_lt (hkeys pr h)
  have hedgeL : net.edge net.edges.length = none := lookupAdj_eq_none hfresh
  have hvcn : (vc.getD []).Nodup := by
    rcases vc with _ | l
    · simp
    · exact hvc.1
  have hvce : ∀ ch ∈ vc.getD [], (net.edge ch).isSome = true := by
    rcases vc with _ | l
    · intro ch h
      cases h
    · exact hvc.2
  have hvoln : (volc.getD []).Nodup := by
    rcases volc with _ | l
    · simp
    · exact hvolc.1
  have hvole : ∀ ch ∈ volc.getD [], (net.edge ch).isSome = true := by
    rcases volc with _ | l
    · intro ch h
      cases h
    · exact hvolc.2
  have hLnotv : net.edges.length ∉ vc.getD [] := by
    intro h
    have hs := hvce _ h
    obtain ⟨adj, ha⟩ := Option.isSome_iff_exists.mp hs
    exact absurd (hkeys (net.edges.length, adj) (edge_mem net ha)) (by omega)
  have hLnotw : net.edges.length ∉ volc.getD [] := by
    intro h
    have hs := hvole _ h
    obtain ⟨adj, ha⟩ := Option.isSome_iff_exists.mp hs
    exact absurd (hkeys (net.edges.length, adj) (edge_mem net ha)) (by omega)
  by_cases hk1 : kind = "continuous-state"
  · subst hk1
    have hins : insertEdge net.edges net.edges.length
        ⟨"continuous-state", none, vc, none, volc⟩
        = net.edges ++ [(net.edges.length, ⟨"continuous-state", none, vc, none, volc⟩)] :=
      insertEdge_fresh hfresh
    have hNe : (add_nodes net "continuous-state" none vc none volc).edges
        = (volc.getD []).foldl (fun es c => modifyEdge es c (fun adj =>
            { adj with volatility_parents :=
                pushParent net.edges.length adj.volatility_parents }))
          ((vc.getD []).foldl (fun es c => modifyEdge es c (fun adj =>
            { adj with value_parents := pushParent net.edges.length adj.value_parents }))
            (insertEdge net.edges net.edges.length
              ⟨"continuous-state", none, vc, none, volc⟩)) := by
      rcases vc with _ | vcl <;> rcases volc with _ | volcl <;> rfl
    have hNL : (add_nodes net "continuous-state" none vc none volc).edge net.edges.length
        = some ⟨"continuous-state", none, vc, none, volc⟩ := by
      unfold Network.edge
      rw [hNe, lookupAdj_foldl_modifyEdge_not_mem _ _ hLnotw,
        lookupAdj_foldl_modifyEdge_not_mem _ _ hLnotv, hins,
        lookupAdj_append_sing_self hfresh]
    have hNvj : ∀ j k, j ≠ net.edges.length →
        (add_nodes net "continuous-state" none vc none volc).getV j k
        = ((volc.getD []).foldl
            (fun vs c => pushChildCoupling vs c "volatility_coupling_parents")
            ((vc.getD []).foldl
              (fun vs c => pushChildCoupling vs c "value_coupling_parents")
              net.attributes.vectors)) j k := by
      intro j k hjL
      rcases vc with _ | vcl <;> rcases volc with _ | volcl
      · rfl
      · exact if_neg hjL
      · exact if_neg hjL
      · exact if_neg hjL
    have hLvcc : (add_nodes net "continuous-state" none vc none volc).getV
          net.edges.length "value_coupling_children"
        = vc.map (fun l => List.replicate l.length (1 : ℚ)) := by
      rcases vc with _ | vcl <;> rcases volc with _ | volcl
      · exact hvec _ hedgeL _
      · change (if net.edges.length = net.edges.length then _ else _) = _
        rw [if_pos rfl]
        rfl
      · change (if net.edges.length = net.edges.length then _ else _) = _
        rw [if_pos rfl]
        rfl
      · change (if net.edges.length = net.edges.length then _ else _) = _
        rw [if_pos rfl]
        rfl
    have hLvolcc : (add_nodes net "continuous-state" none vc none volc).getV
          net.edges.length "volatility_coupling_children"
        = volc.map (fun l => List.replicate l.length (1 : ℚ)) := by
      rcases vc with _ | vcl <;> rcases volc with _ | volcl
      · exact hvec _ hedgeL _
      · change (if net.edges.length = net.edges.length then _ else _) = _
        rw [if_pos rfl]
        rfl
      · change (if net.edges.length = net.edges.length then _ else _) = _
        rw [if_pos rfl]
        rfl
      · change (if net.edges.length = net.edges.length then _ else _) = _
        rw [if_pos rfl]
        rfl
    have hLvcp : (add_nodes net "continuous-state" none vc none volc).getV
        net.edges.length "value_coupling_parents" = none := by
      rcases vc with _ | vcl <;> rcases volc with _ | volcl
      · exact hvec _ hedgeL _
      · change (if net.edges.length = net.edges.length then _ else _) = _
        rw [if_pos rfl]
        rfl
      · change (if net.edges.length = net.edges.length then _ else _) = _
        rw [if_pos rfl]
        rfl
      · change (if net.edges.length = net.edges.length then _ else _) = _
        rw [if_pos rfl]
        rfl
    have hLvolcp : (add_nodes net "continuous-state" none vc none volc).getV
        net.edges.length "volatility_coupling_parents" = none := by
      rcases vc with _ | vcl <;> rcases volc with _ | volcl
      · exact hvec _ hedgeL _
      · change (if net.edges.length = net.edges.length then _ else _) = _
        rw [if_pos rfl]
        rfl
      · change (if net.edges.length = net.edges.length then _ else _) = _
        rw [if_pos rfl]
        rfl
      · change (if net.edges.length = net.edges.length then _ else _) = _
        rw [if_pos rfl]
        rfl
    refine wellFormed_extend net _ net.edges.length (vc.getD []) (volc.getD []) hw rfl
      hvcn hvce hvoln hvole ?_ ⟨_, hNL, rfl, rfl⟩ ?_ hLvcp hLvolcp ?_ ?_ ?_ ?_ ?_ ?_ ?_
    · -- key list
      rw [hNe, foldl_modifyEdge_keys, foldl_modifyEdge_keys, hins, List.map_append]
      rfl
    · -- edge characterization away from the new node
      intro i hiL
      unfold Network.edge
      rw [hNe]
      by_cases hiw : i ∈ volc.getD []
      · rw [lookupAdj_foldl_modifyEdge_mem _ _ hvoln hiw]
        by_cases hiv : i ∈ vc.getD []
        · rw [lookupAdj_foldl_modifyEdge_mem _ _ hvcn hiv, hins,
            lookupAdj_append_sing_ne hiL]
          rcases lookupAdj net.edges i with _ | adj
          · rfl
          · simp only [Option.map_some']
            rw [if_pos hiv, if_pos hiw]
        · rw [lookupAdj_foldl_modifyEdge_not_mem _ _ hiv, hins,
            lookupAdj_append_sing_ne hiL]
          rcases lookupAdj net.edges i with _ | adj
          · rfl
          · simp only [Option.map_some']
            rw [if_neg hiv, if_pos hiw]
      · rw [lookupAdj_foldl_modifyEdge_not_mem _ _ hiw]
        by_cases hiv : i ∈ vc.getD []
        · rw [lookupAdj_foldl_modifyEdge_mem _ _ hvcn hiv, hins,
            lookupAdj_append_sing_ne hiL]
          rcases lookupAdj net.edges i with _ | adj
          · rfl
          · simp only [Option.map_some']
            rw [if_pos hiv, if_neg hiw]
        · rw [lookupAdj_foldl_modifyEdge_not_mem _ _ hiv, hins,
            lookupAdj_append_sing_ne hiL]
          rcases lookupAdj net.edges i with _ | adj
          · rfl
          · simp only [Option.map_some']
            rw [if_neg hiv, if_neg hiw]
    · -- witness for new value pairs
      intro ch hm
      rcases vc with _ | vcl
      · cases hm
      · obtain ⟨j, hj⟩ := List.get?_of_mem hm
        have hjlt : j < vcl.length := (List.get?_eq_some.mp hj).1
        refine ⟨_, vcl, hNL, rfl, ?_, j, hj, ?_⟩
        · rw [hLvcc]
          simp
        · unfold coupAt
          rw [hLvcc]
          simp only [Option.map_some', Option.some_bind]
          simp [List.get?_eq_getElem?, List.getElem?_replicate, hjlt]
    · -- witness for new volatility pairs
      intro ch hm
      rcases volc with _ | volcl
      · cases hm
      · obtain ⟨j, hj⟩ := List.get?_of_mem hm
        have hjlt : j < volcl.length := (List.get?_eq_some.mp hj).1
        refine ⟨_, volcl, hNL, rfl, ?_, j, hj, ?_⟩
        · rw [hLvolcc]
          simp
        · unfold coupAt
          rw [hLvolcc]
          simp only [Option.map_some', Option.some_bind]
          simp [List.get?_eq_getElem?, List.getElem?_replicate, hjlt]
    · -- pushed value-coupling vectors
      intro j hjL hjm
      rw [hNvj j _ hjL, foldl_pushCoupling_ne _ _ (Or.inr (by decide)),
        foldl_pushCoupling_mem _ _ hvcn hjm]
      rfl
    · -- untouched value-coupling vectors
      intro j hjL hjm
      rw [hNvj j _ hjL, foldl_pushCoupling_ne _ _ (Or.inr (by decide)),
        foldl_pushCoupling_ne _ _ (Or.inl hjm)]
      rfl
    · -- pushed volatility-coupling vectors
      intro j hjL hjm
      rw [hNvj j _ hjL, foldl_pushCoupling_mem _ _ hvoln hjm,
        foldl_pushCoupling_ne _ _ (Or.inr (by decide))]
      rfl
    · -- untouched volatility-coupling vectors
      intro j hjL hjm
      rw [hNvj j _ hjL, foldl_pushCoupling_ne _ _ (Or.inl hjm),
        foldl_pushCoupling_ne _ _ (Or.inr (by decide))]
      rfl
    · -- all other vector cells
      intro j k hjL hk1 hk2
      rw [hNvj j k hjL, foldl_pushCoupling_ne _ _ (Or.inr hk2),
        foldl_pushCoupling_ne _ _ (Or.inr hk1)]
      rfl
  · by_cases hk2 : kind = "ef-state"
    · subst hk2
      have hNe : (add_nodes net "ef-state" none vc none volc).edges
          = net.edges ++ [(net.edges.length, ⟨"ef-state", none, vc, none, volc⟩)] :=
        insertEdge_fresh hfresh
      have hNL : (add_nodes net "ef-state" none vc none volc).edge net.edges.length
          = some ⟨"ef-state", none, vc, none, volc⟩ := by
        unfold Network.edge
        rw [hNe, lookupAdj_append_sing_self hfresh]
      refine wellFormed_extend net _ net.edges.length [] [] hw rfl
        (List.nodup_nil) (by intro ch h; cases h) (List.nodup_nil)
        (by intro ch h; cases h) ?_ ⟨_, hNL, rfl, rfl⟩ ?_ ?_ ?_
        (by intro ch h; cases h) (by intro ch h; cases h)
        (by intro j _ h; cases h) ?_ (by intro j _ h; cases h) ?_ ?_
      · rw [hNe, List.map_append]
        rfl
      · intro i hiL
        unfold Network.edge
        rw [hNe, lookupAdj_append_sing_ne hiL]
        rcases lookupAdj net.edges i with _ | adj
        · rfl
        · simp only [Option.map_some']
          rw [if_neg (List.not_mem_nil i), if_neg (List.not_mem_nil i)]
      · change (if net.edges.length = net.edges.length then _ else _) = _
        rw [if_pos rfl]
        rfl
      · change (if net.edges.length = net.edges.length then _ else _) = _
        rw [if_pos rfl]
        rfl
      · intro j hjL _
        exact if_neg hjL
      · intro j hjL _
        exact if_neg hjL
      · intro j k hjL _ _
        exact if_neg hjL
    · by_cases hk3 : kind = "volatile-state"
      · subst hk3
        have hins : insertEdge net.edges net.edges.length
            ⟨"volatile-state", none, vc, none, none⟩
            = net.edges
              ++ [(net.edges.length, ⟨"volatile-state", none, vc, none, none⟩)] :=
          insertEdge_fresh hfresh
        have hNe : (add_nodes net "volatile-state" none vc none volc).edges
            = (vc.getD []).foldl (fun es c => modifyEdge es c (fun adj =>
                { adj with value_parents :=
                    pushParent net.edges.length adj.value_parents }))
              (insertEdge net.edges net.edges.length
                ⟨"volatile-state", none, vc, none, none⟩) := by
          rcases vc with _ | vcl <;> rfl
        have hNL : (add_nodes net "volatile-state" none vc none volc).edge
            net.edges.length = some ⟨"volatile-state", none, vc, none, none⟩ := by
          unfold Network.edge
          rw [hNe, lookupAdj_foldl_modifyEdge_not_mem _ _ hLnotv, hins,
            lookupAdj_append_sing_self hfresh]
        have hNvj : ∀ j k, j ≠ net.edges.length →
            (add_nodes net "volatile-state" none vc none volc).getV j k
            = ((vc.getD []).foldl
                (fun vs c => pushChildCoupling vs c "value_coupling_parents")
                net.attributes.vectors) j k := by
          intro j k hjL
          rcases vc with _ | vcl
          · rfl
          · exact if_neg hjL
        have hLvcc : (add_nodes net "volatile-state" none vc none volc).getV
              net.edges.length "value_coupling_children"
            = vc.map (fun l => List.replicate l.length (1 : ℚ)) := by
          rcases vc with _ | vcl
          · exact hvec _ hedgeL _
          · change (if net.edges.length = net.edges.length then _ else _) = _
            rw [if_pos rfl]
            rfl
        have hLvcp : (add_nodes net "volatile-state" none vc none volc).getV
            net.edges.length "value_coupling_parents" = none := by
          rcases vc with _ | vcl
          · exact hvec _ hedgeL _
          · change (if net.edges.length = net.edges.length then _ else _) = _
            rw [if_pos rfl]
            rfl
        have hLvolcp : (add_nodes net "volatile-state" none vc none volc).getV
            net.edges.length "volatility_coupling_parents" = none := by
          rcases vc with _ | vcl
          · exact hvec _ hedgeL _
          · change (if net.edges.length = net.edges.length then _ else _) = _
            rw [if_pos rfl]
            rfl
        refine wellFormed_extend net _ net.edges.length (vc.getD []) [] hw rfl
          hvcn hvce (List.nodup_nil) (by intro ch h; cases h) ?_ ⟨_, hNL, rfl, rfl⟩
          ?_ hLvcp hLvolcp ?_ (by intro ch h; cases h) ?_ ?_
          (by intro j _ h; cases h) ?_ ?_
        · rw [hNe, foldl_modifyEdge_keys, hins, List.map_append]
          rfl
        · intro i hiL
          unfold Network.edge
          rw [hNe]
          by_cases hiv : i ∈ vc.getD []
          · rw [lookupAdj_foldl_modifyEdge_mem _ _ hvcn hiv, hins,
              lookupAdj_append_sing_ne hiL]
            rcases lookupAdj net.edges i with _ | adj
            · rfl
            · simp only [Option.map_some']
              rw [if_pos hiv, if_neg (List.not_mem_nil i)]
          · rw [lookupAdj_foldl_modifyEdge_not_mem _ _ hiv, hins,
              lookupAdj_append_sing_ne hiL]
            rcases lookupAdj net.edges i with _ | adj
            · rfl
            · simp only [Option.map_some']
              rw [if_neg hiv, if_neg (List.not_mem_nil i)]
        · intro ch hm
          rcases vc with _ | vcl
          · cases hm
          · obtain ⟨j, hj⟩ := List.get?_of_mem hm
            have hjlt : j < vcl.length := (List.get?_eq_some.mp hj).1
            refine ⟨_, vcl, hNL, rfl, ?_, j, hj, ?_⟩
            · rw [hLvcc]
              simp
            · unfold coupAt
              rw [hLvcc]
              simp only [Option.map_some', Option.some_bind]
              simp [List.get?_eq_getElem?, List.getElem?_replicate, hjlt]
        · intro j hjL hjm
          rw [hNvj j _ hjL, foldl_pushCoupling_mem _ _ hvcn hjm]
          rfl
        · intro j hjL hjm
          rw [hNvj j _ hjL, foldl_pushCoupling_ne _ _ (Or.inl hjm)]
          rfl
        · intro j hjL _
          rw [hNvj j _ hjL, foldl_pushCoupling_ne _ _ (Or.inr (by decide))]
          rfl
        · intro j k hjL hk1 _
          rw [hNvj j k hjL, foldl_pushCoupling_ne _ _ (Or.inr hk1)]
          rfl
      · unfold add_nodes
        rw [if_neg hk1, if_neg hk2, if_neg hk3]
        exact hw

/-- C7.  Edge symmetry (including the stored coupling strengths, value and
volatility alike) is an invariant of construction by `Network::new`,
`add_nodes` and `set_coupling` — but only for `add_nodes` calls that pass
no parent arguments: the empty network satisfies the invariant, a
children-only `add_nodes` (children duplicate-free and existing)
preserves it, and every `set_coupling` preserves it.  As stated the claim
is wrong: an `add_nodes` call passing `value_parents` or
`volatility_parents` records the edge on the new node only (no reciprocal
child entry and no coupling vector on the named parent). -/
theorem edge_symmetry_construction :
    (∀ ut, wellFormedNet (Network.new ut))
    ∧ (∀ net kind vc volc, wellFormedNet net → childArgsOk net vc →
        childArgsOk net volc → wellFormedNet (add_nodes net kind none vc none volc))
    ∧ (∀ net p c κ, wellFormedNet net → wellFormedNet (set_coupling net p c κ)) :=
  ⟨wellFormed_new,
    fun net kind vc volc hw h1 h2 => wellFormed_add_nodes net kind vc volc hw h1 h2,
    fun net p c κ hw => wellFormed_set_coupling net p c κ hw⟩

/-- Witness for C7: the children-only construction of the two-node
continuous network satisfies every hypothesis and yields the invariant. -/
theorem edge_symmetry_construction_witness :
    childArgsOk (add_nodes (Network.new "eHGF") "continuous-state" none none none none)
      (some [0]) ∧ wellFormedNet net2cont := by
  have h0 := edge_symmetry_construction.1 "eHGF"
  have h1 := edge_symmetry_construction.2.1 (Network.new "eHGF") "continuous-state"
    none none h0 trivial trivial
  have hok : childArgsOk
      (add_nodes (Network.new "eHGF") "continuous-state" none none none none)
      (some [0]) := by
    refine ⟨by simp, ?_⟩
    intro ch hch
    rcases List.mem_singleton.mp hch with rfl
    with_unfolding_all rfl
  have h2 := edge_symmetry_construction.2.1 _ "continuous-state" (some [0]) none h1
    hok trivial
  exact ⟨hok, h2⟩

/-- Counterexample to C7 as stated: adding node 1 with the parents
argument `value_parents = [0]` records node 0 as value parent of node 1,
but node 0 gains neither a `value_children` entry nor a
`value_coupling_children` vector, so value-edge symmetry fails. -/
theorem add_nodes_parent_argument_counterexample :
    ((netParentArg.edge 1).map (·.value_parents)) = some (some [0])
    ∧ ((netParentArg.edge 0).map (·.value_children)) = some none
    ∧ netParentArg.getV 0 "value_coupling_children" = none
    ∧ ¬ valueSymmetric netParentArg := by
  have h10 : netParentArg.edge 1
      = some ⟨"continuous-state", some [0], none, none, none⟩ := by
    with_unfolding_all rfl
  have h00 : netParentArg.edge 0
      = some ⟨"continuous-state", none, none, none, none⟩ := by
    with_unfolding_all rfl
  refine ⟨by with_unfolding_all rfl, by with_unfolding_all rfl,
    by with_unfolding_all rfl, ?_⟩
  intro hsym
  obtain ⟨adjp, vcs, hep, hvc, -, -⟩ := hsym 1
    ⟨"continuous-state", some [0], none, none, none⟩ [0] 0 0 h10 rfl rfl
  rw [h00] at hep
  obtain rfl := (Option.some_inj.mp hep).symm
  exact Option.noConfusion hvc

namespace FModel

/-- `couplingWrite` touches only the vector table. -/
theorem couplingWrite_frame (net : FNetwork) (n : Nat) (key : String)
    (pos : Option Nat) (κ : F) :
    (couplingWrite net n key pos κ).edges = net.edges
    ∧ (couplingWrite net n key pos κ).floats = net.floats
    ∧ (couplingWrite net n key pos κ).fnPtrs = net.fnPtrs
    ∧ (couplingWrite net n key pos κ).inputs = net.inputs := by
  unfold couplingWrite
  rcases pos with _ | i
  · exact ⟨rfl, rfl, rfl, rfl⟩
  · rcases h : net.getVec n key with _ | cs
    · exact ⟨rfl, rfl, rfl, rfl⟩
    · dsimp only
      split_ifs <;> exact ⟨rfl, rfl, rfl, rfl⟩

/-- `set_coupling` touches only the vector table. -/
theorem fset_coupling_frame (net : FNetwork) (p c : Nat) (κ : F) :
    (set_coupling net p c κ).edges = net.edges
    ∧ (set_coupling net p c κ).floats = net.floats
    ∧ (set_coupling net p c κ).fnPtrs = net.fnPtrs
    ∧ (set_coupling net p c κ).inputs = net.inputs := by
  unfold set_coupling
  dsimp only
  refine ⟨?_, ?_, ?_, ?_⟩
  · rw [(couplingWrite_frame _ _ _ _ _).1, (couplingWrite_frame _ _ _ _ _).1]
  · rw [(couplingWrite_frame _ _ _ _ _).2.1, (couplingWrite_frame _ _ _ _ _).2.1]
  · rw [(couplingWrite_frame _ _ _ _ _).2.2.1, (couplingWrite_frame _ _ _ _ _).2.2.1]
  · rw [(couplingWrite_frame _ _ _ _ _).2.2.2, (couplingWrite_frame _ _ _ _ _).2.2.2]

/-- Reading another cell through `setVec`. -/
theorem getVec_setVec_ne (net : FNetwork) {i j : Nat} {k k2 : String} {v : List F}
    (h : ¬(j = i ∧ k2 = k)) : (net.setVec i k v).getVec j k2 = net.getVec j k2 := by
  unfold FNetwork.setVec FNetwork.getVec
  dsimp only
  by_cases hj : j = i
  · subst hj
    rw [if_pos rfl]
    rcases hm : net.vectors j with _ | m
    · rfl
    · simp only [Option.map_some', Option.some_bind]
      rw [if_neg (fun hk => h ⟨rfl, hk⟩)]
  · rw [if_neg hj]

/-- Reading the written cell through `setVec` (the node's table exists). -/
theorem getVec_setVec_self (net : FNetwork) {i : Nat} {k : String}
    (m : String → Option (List F)) (hm : net.vectors i = some m) (v : List F) :
    (net.setVec i k v).getVec i k = some v := by
  unfold FNetwork.setVec FNetwork.getVec
  dsimp only
  rw [if_pos rfl, hm]
  simp

/-- `couplingWrite` leaves every other `(node, key)` vector unchanged. -/
theorem couplingWrite_cell_other {net : FNetwork} {n : Nat} {key : String}
    {pos : Option Nat} {κ : F} {j : Nat} {k2 : String} (h : ¬(j = n ∧ k2 = key)) :
    (couplingWrite net n key pos κ).getVec j k2 = net.getVec j k2 := by
  unfold couplingWrite
  rcases pos with _ | i
  · rfl
  · rcases hv : net.getVec n key with _ | cs
    · rfl
    · dsimp only
      split_ifs
      · exact getVec_setVec_ne net h
      · rfl

/-- Every cell after a `couplingWrite` is the old cell or the written
value. -/
theorem couplingWrite_cell_written {net : FNetwork} {n : Nat} {key : String}
    {pos : Option Nat} {κ : F} {i2 : Nat} {v : F}
    (h : cellAt (couplingWrite net n key pos κ) n key i2 = some v) :
    cellAt net n key i2 = some v ∨ v = κ := by
  unfold couplingWrite at h
  rcases pos with _ | i
  · exact Or.inl h
  · rcases hv : net.getVec n key with _ | cs
    · rw [hv] at h
      exact Or.inl h
    · rw [hv] at h
      dsimp only at h
      split_ifs at h
      · obtain ⟨m, hm, -⟩ := Option.bind_eq_some.mp hv
        unfold cellAt at h
        rw [getVec_setVec_self net m hm] at h
        simp only [Option.some_bind] at h
        by_cases hi : i = i2
        · subst hi
          rw [List.get?_set_eq] at h
          rcases hq : cs.get? i with _ | x
          · rw [hq] at h
            cases h
          · rw [hq] at h
            exact Or.inr (Option.some_inj.mp h).symm
        · rw [List.get?_set_ne _ _ hi] at h
          refine Or.inl ?_
          unfold cellAt
          rw [hv]
          simpa using h
      · exact Or.inl h

/-- `set_coupling` leaves every vector outside the two written slots
unchanged. -/
theorem fset_coupling_cell_other {net : FNetwork} {p c : Nat} {κ : F} {j : Nat}
    {k2 : String} (h1 : ¬(j = c ∧ k2 = "value_coupling_parents"))
    (h2 : ¬(j = p ∧ k2 = "value_coupling_children")) :
    (set_coupling net p c κ).getVec j k2 = net.getVec j k2 := by
  unfold set_coupling
  dsimp only
  rw [couplingWrite_cell_other h2, couplingWrite_cell_other h1]

/-- Every cell after a `set_coupling` is the old cell or the written
value. -/
theorem fset_coupling_cell {net : FNetwork} {p c : Nat} {κ : F} {j : Nat}
    {k2 : String} {i2 : Nat} {v : F}
    (h : cellAt (set_coupling net p c κ) j k2 i2 = some v) :
    cellAt net j k2 i2 = some v ∨ v = κ := by
  have hkey : ¬ (("value_coupling_children" : String) = "value_coupling_parents") := by
    decide
  by_cases hA : j = p ∧ k2 = "value_coupling_children"
  · obtain ⟨rfl, rfl⟩ := hA
    unfold set_coupling at h
    dsimp only at h
    rcases couplingWrite_cell_written h with h' | h'
    · unfold cellAt at h'
      rw [couplingWrite_cell_other (fun hc => hkey hc.2)] at h'
      exact Or.inl h'
    · exact Or.inr h'
  · unfold set_coupling at h
    dsimp only at h
    unfold cellAt at h
    rw [couplingWrite_cell_other hA] at h
    by_cases hB : j = c ∧ k2 = "value_coupling_parents"
    · obtain ⟨rfl, rfl⟩ := hB
      exact couplingWrite_cell_written h
    · rw [couplingWrite_cell_other hB] at h
      exact Or.inl h

/-- A guarded `set_coupling` write preserves the infinity-provenance
invariant: any infinite value it writes is the fallback `κ`. -/
theorem set_coupling_guard_cells {net net₀ : FNetwork} {p idx : Nat} {κ q : F}
    {S : List F} (hκ : κ ∈ S)
    (hinv : ∀ n k i v, cellAt net n k i = some v → v.isInf = true →
      cellAt net₀ n k i = some v ∨ v ∈ S) :
    ∀ n k i v, cellAt (set_coupling net p idx (if q.isInf then κ else q)) n k i
      = some v → v.isInf = true → cellAt net₀ n k i = some v ∨ v ∈ S := by
  intro n k i v h hvinf
  rcases fset_coupling_cell h with h' | h'
  · exact hinv n k i v h' hvinf
  · subst h'
    by_cases hq : q.isInf = true
    · rw [if_pos hq]
      exact Or.inr hκ
    · rw [if_neg hq] at hvinf
      exact absurd hvinf hq

/-- Infinity provenance through the `learning_weights_fixed` loop. -/
theorem learning_fixed_guard_fold (node_idx : Nat) (child_mean lr weighting : F)
    (S : List F) :
    ∀ (l : List (Nat × F)) (net net₀ : FNetwork), (∀ pc ∈ l, pc.2 ∈ S) →
    (∀ n k i v, cellAt net n k i = some v → v.isInf = true →
      cellAt net₀ n k i = some v ∨ v ∈ S) →
    ∀ n k i v, cellAt (l.foldl (fun net pc =>
        learningStep net node_idx child_mean lr weighting pc.1 pc.2) net) n k i
      = some v → v.isInf = true → cellAt net₀ n k i = some v ∨ v ∈ S := by
  intro l
  induction l with
  | nil => intro net net₀ _ hinv; exact hinv
  | cons a as ih =>
    intro net net₀ hmem hinv
    rw [List.foldl_cons]
    exact ih _ net₀ (fun pc h => hmem pc (List.mem_cons_of_mem a h))
      (set_coupling_guard_cells (hmem a (List.mem_cons_self a as)) hinv)

/-- Infinity provenance through the `learning_weights_dynamic` loop. -/
theorem learning_dyn_guard_fold (node_idx : Nat) (child_mean cep weighting : F)
    (S : List F) :
    ∀ (l : List (Nat × F)) (net net₀ : FNetwork), (∀ pc ∈ l, pc.2 ∈ S) →
    (∀ n k i v, cellAt net n k i = some v → v.isInf = true →
      cellAt net₀ n k i = some v ∨ v ∈ S) →
    ∀ n k i v, cellAt (l.foldl (fun net pc =>
        learningStepDyn net node_idx child_mean cep weighting pc.1 pc.2) net) n k i
      = some v → v.isInf = true → cellAt net₀ n k i = some v ∨ v ∈ S := by
  intro l
  induction l with
  | nil => intro net net₀ _ hinv; exact hinv
  | cons a as ih =>
    intro net net₀ hmem hinv
    rw [List.foldl_cons]
    exact ih _ net₀ (fun pc h => hmem pc (List.mem_cons_of_mem a h))
      (set_coupling_guard_cells (hmem a (List.mem_cons_self a as)) hinv)

/-- Infinity provenance for one `learning_weights_fixed` call. -/
theorem learning_fixed_guard (net : FNetwork) (idx : Nat) (dt : F) :
    ∀ n k i v, cellAt (learning_weights_fixed net idx dt) n k i = some v →
      v.isInf = true → cellAt net n k i = some v ∨ v ∈ learnCouplings net idx := by
  unfold learning_weights_fixed
  rcases hvp : (net.edge idx).bind (·.value_parents) with _ | vps
  · intro n k i v h _
    exact Or.inl h
  · dsimp only
    have hS : learnCouplings net idx
        = (net.getVec idx "value_coupling_parents").getD
          (List.replicate vps.length (.num 1)) := by
      unfold learnCouplings
      rw [hvp]
      rfl
    refine learning_fixed_guard_fold idx _ _ _ (learnCouplings net idx) _ net net
      ?_ (fun n k i v h _ => Or.inl h)
    intro pc hpc
    rw [hS]
    exact (List.of_mem_zip hpc).2

/-- Infinity provenance for one `learning_weights_dynamic` call. -/
theorem learning_dyn_guard (net : FNetwork) (idx : Nat) (dt : F) :
    ∀ n k i v, cellAt (learning_weights_dynamic net idx dt) n k i = some v →
      v.isInf = true → cellAt net n k i = some v ∨ v ∈ learnCouplings net idx := by
  unfold learning_weights_dynamic
  rcases hvp : (net.edge idx).bind (·.value_parents) with _ | vps
  · intro n k i v h _
    exact Or.inl h
  · dsimp only
    have hS : learnCouplings net idx
        = (net.getVec idx "value_coupling_parents").getD
          (List.replicate vps.length (.num 1)) := by
      unfold learnCouplings
      rw [hvp]
      rfl
    refine learning_dyn_guard_fold idx _ _ _ (learnCouplings net idx) _ net net
      ?_ (fun n k i v h _ => Or.inl h)
    intro pc hpc
    rw [hS]
    exact (List.of_mem_zip hpc).2

/-- Frame property through the `learning_weights_fixed` loop: only the
node's `value_coupling_parents` and the processed parents'
`value_coupling_children` vectors can change. -/
theorem learning_fixed_fold_frame (node_idx : Nat) (a b c : F) :
    ∀ (l : List (Nat × F)) (net : FNetwork),
    (l.foldl (fun net pc => learningStep net node_idx a b c pc.1 pc.2) net).edges
      = net.edges
    ∧ (l.foldl (fun net pc => learningStep net node_idx a b c pc.1 pc.2) net).floats
      = net.floats
    ∧ (l.foldl (fun net pc => learningStep net node_idx a b c pc.1 pc.2) net).fnPtrs
      = net.fnPtrs
    ∧ (l.foldl (fun net pc => learningStep net node_idx a b c pc.1 pc.2) net).inputs
      = net.inputs
    ∧ ∀ n k, ¬(n = node_idx ∧ k = "value_coupling_parents") →
        ¬(k = "value_coupling_children" ∧ n ∈ l.map (·.1)) →
        (l.foldl (fun net pc => learningStep net node_idx a b c pc.1 pc.2) net).getVec n k
          = net.getVec n k := by
  intro l
  induction l with
  | nil => intro net; exact ⟨rfl, rfl, rfl, rfl, fun n k _ _ => rfl⟩
  | cons p as ih =>
    intro net
    rw [List.foldl_cons]
    obtain ⟨he, hf, hp, hi, hv⟩ := ih (learningStep net node_idx a b c p.1 p.2)
    refine ⟨he.trans ?_, hf.trans ?_, hp.trans ?_, hi.trans ?_, ?_⟩
    · exact (fset_coupling_frame net p.1 node_idx _).1
    · exact (fset_coupling_frame net p.1 node_idx _).2.1
    · exact (fset_coupling_frame net p.1 node_idx _).2.2.1
    · exact (fset_coupling_frame net p.1 node_idx _).2.2.2
    · intro n k h1 h2
      have h2' : ¬(k = "value_coupling_children" ∧ n ∈ as.map (·.1)) :=
        fun hc => h2 ⟨hc.1, List.mem_cons_of_mem _ hc.2⟩
      rw [hv n k h1 h2']
      exact fset_coupling_cell_other h1 (fun hc => h2 ⟨hc.2, by
        rw [hc.1]
        exact List.mem_cons_self p.1 (as.map (·.1))⟩)

/-- Frame property through the `learning_weights_dynamic` loop. -/
theorem learning_dyn_fold_frame (node_idx : Nat) (a b c : F) :
    ∀ (l : List (Nat × F)) (net : FNetwork),
    (l.foldl (fun net pc => learningStepDyn net node_idx a b c pc.1 pc.2) net).edges
      = net.edges
    ∧ (l.foldl (fun net pc => learningStepDyn net node_idx a b c pc.1 pc.2) net).floats
      = net.floats
    ∧ (l.foldl (fun net pc => learningStepDyn net node_idx a b c pc.1 pc.2) net).fnPtrs
      = net.fnPtrs
    ∧ (l.foldl (fun net pc => learningStepDyn net node_idx a b c pc.1 pc.2) net).inputs
      = net.inputs
    ∧ ∀ n k, ¬(n = node_idx ∧ k = "value_coupling_parents") →
        ¬(k = "value_coupling_children" ∧ n ∈ l.map (·.1)) →
        (l.foldl (fun net pc => learningStepDyn net node_idx a b c pc.1 pc.2)
          net).getVec n k = net.getVec n k := by
  intro l
  induction l with
  | nil => intro net; exact ⟨rfl, rfl, rfl, rfl, fun n k _ _ => rfl⟩
  | cons p as ih =>
    intro net
    rw [List.foldl_cons]
    obtain ⟨he, hf, hp, hi, hv⟩ := ih (learningStepDyn net node_idx a b c p.1 p.2)
    refine ⟨he.trans ?_, hf.trans ?_, hp.trans ?_, hi.trans ?_, ?_⟩
    · exact (fset_coupling_frame net p.1 node_idx _).1
    · exact (fset_coupling_frame net p.1 node_idx _).2.1
    · exact (fset_coupling_frame net p.1 node_idx _).2.2.1
    · exact (fset_coupling_frame net p.1 node_idx _).2.2.2
    · intro n k h1 h2
      have h2' : ¬(k = "value_coupling_children" ∧ n ∈ as.map (·.1)) :=
        fun hc => h2 ⟨hc.1, List.mem_cons_of_mem _ hc.2⟩
      rw [hv n k h1 h2']
      exact fset_coupling_cell_other h1 (fun hc => h2 ⟨hc.2, by
        rw [hc.1]
        exact List.mem_cons_self p.1 (as.map (·.1))⟩)

end FModel

/-- C8.  Corrected guard claim: in both learning rules the only guard on
the written coupling is the `is_infinite` check, so any *infinite* value
found in a coupling vector after the update either was already stored in
that cell or is one of the learning node's own previously stored coupling
strengths (the fallback `value_coupling` of the guard); NaN is *not*
filtered by the final guard and is written through (see the
counterexample). -/
theorem learning_coupling_guard :
    (∀ (net : FModel.FNetwork) (idx : Nat) (dt : FModel.F) (n : Nat) (k : String)
        (i : Nat) (v : FModel.F),
      FModel.cellAt (FModel.learning_weights_fixed net idx dt) n k i = some v →
      v.isInf = true →
      FModel.cellAt net n k i = some v ∨ v ∈ FModel.learnCouplings net idx)
    ∧ (∀ (net : FModel.FNetwork) (idx : Nat) (dt : FModel.F) (n : Nat) (k : String)
        (i : Nat) (v : FModel.F),
      FModel.cellAt (FModel.learning_weights_dynamic net idx dt) n k i = some v →
      v.isInf = true →
      FModel.cellAt net n k i = some v ∨ v ∈ FModel.learnCouplings net idx) :=
  ⟨fun net idx dt => FModel.learning_fixed_guard net idx dt,
    fun net idx dt => FModel.learning_dyn_guard net idx dt⟩

set_option maxRecDepth 100000 in
/-- Witness for C8 at a network whose child already stores `+∞`: the
update writes that infinity into the parent's slot, and the theorem
accounts for it as one of the node's previously stored couplings. -/
theorem learning_coupling_guard_witness :
    FModel.cellAt (FModel.learning_weights_fixed FModel.cexInf 0 (FModel.F.num 1)) 1
      "value_coupling_children" 0 = some (FModel.F.inf true)
    ∧ (FModel.F.inf true).isInf = true
    ∧ (FModel.cellAt FModel.cexInf 1 "value_coupling_children" 0
          = some (FModel.F.inf true)
        ∨ FModel.F.inf true ∈ FModel.learnCouplings FModel.cexInf 0) := by
  have h1 : FModel.cellAt (FModel.learning_weights_fixed FModel.cexInf 0
      (FModel.F.num 1)) 1 "value_coupling_children" 0 = some (FModel.F.inf true) := by
    with_unfolding_all rfl
  exact ⟨h1, rfl, learning_coupling_guard.1 FModel.cexInf 0 (FModel.F.num 1) 1
    "value_coupling_children" 0 (FModel.F.inf true) h1 rfl⟩

set_option maxRecDepth 100000 in
/-- Counterexample to C8 as stated: with `lr = NaN` the computed step is
NaN, the final guard checks only `is_infinite`, and NaN is written into
both coupling vectors although the previous values were finite. -/
theorem learning_nan_counterexample :
    FModel.cexLearn.getF 0 "lr" = some FModel.F.nan
    ∧ FModel.cellAt FModel.cexLearn 0 "value_coupling_parents" 0
        = some (FModel.F.num 1)
    ∧ FModel.cellAt (FModel.learning_weights_fixed FModel.cexLearn 0 (FModel.F.num 1)) 0
        "value_coupling_parents" 0 = some FModel.F.nan
    ∧ FModel.cellAt (FModel.learning_weights_fixed FModel.cexLearn 0 (FModel.F.num 1)) 1
        "value_coupling_children" 0 = some FModel.F.nan := by
  refine ⟨?_, ?_, ?_, ?_⟩ <;> with_unfolding_all rfl

/-- C10.  Frame effect of one learning call (fixed or dynamic): the edge
table, every float attribute, every function-pointer attribute and the
inputs list are unchanged, and every vector attribute other than the
node's `value_coupling_parents` and the `value_coupling_children` of its
value parents is unchanged. -/
theorem learning_frame_effect :
    (∀ (net : FModel.FNetwork) (idx : Nat) (dt : FModel.F),
      (FModel.learning_weights_fixed net idx dt).edges = net.edges
      ∧ (FModel.learning_weights_fixed net idx dt).floats = net.floats
      ∧ (FModel.learning_weights_fixed net idx dt).fnPtrs = net.fnPtrs
      ∧ (FModel.learning_weights_fixed net idx dt).inputs = net.inputs
      ∧ ∀ n k, ¬(n = idx ∧ k = "value_coupling_parents") →
          ¬(k = "value_coupling_children"
            ∧ n ∈ ((net.edge idx).bind (·.value_parents)).getD []) →
          (FModel.learning_weights_fixed net idx dt).getVec n k = net.getVec n k)
    ∧ (∀ (net : FModel.FNetwork) (idx : Nat) (dt : FModel.F),
      (FModel.learning_weights_dynamic net idx dt).edges = net.edges
      ∧ (FModel.learning_weights_dynamic net idx dt).floats = net.floats
      ∧ (FModel.learning_weights_dynamic net idx dt).fnPtrs = net.fnPtrs
      ∧ (FModel.learning_weights_dynamic net idx dt).inputs = net.inputs
      ∧ ∀ n k, ¬(n = idx ∧ k = "value_coupling_parents") →
          ¬(k = "value_coupling_children"
            ∧ n ∈ ((net.edge idx).bind (·.value_parents)).getD []) →
          (FModel.learning_weights_dynamic net idx dt).getVec n k = net.getVec n k) := by
  constructor
  · intro net idx dt
    unfold FModel.learning_weights_fixed
    rcases hvp : (net.edge idx).bind (·.value_parents) with _ | vps
    · exact ⟨rfl, rfl, rfl, rfl, fun n k _ _ => rfl⟩
    · dsimp only
      have h := FModel.learning_fixed_fold_frame idx
        ((net.getF idx "mean").getD (.num 0))
        ((net.getF idx "lr").getD (.num (1 / 100)))
        (FModel.F.div (.num 1) (.num vps.length))
        (vps.zip ((net.getVec idx "value_coupling_parents").getD
          (List.replicate vps.length (.num 1)))) net
      refine ⟨h.1, h.2.1, h.2.2.1, h.2.2.2.1, ?_⟩
      intro n k h1 h2
      refine h.2.2.2.2 n k h1 (fun hc => h2 ⟨hc.1, ?_⟩)
      obtain ⟨pc, hpc, hfst⟩ := List.mem_map.mp hc.2
      exact hfst ▸ (List.of_mem_zip hpc).1
  · intro net idx dt
    unfold FModel.learning_weights_dynamic
    rcases hvp : (net.edge idx).bind (·.value_parents) with _ | vps
    · exact ⟨rfl, rfl, rfl, rfl, fun n k _ _ => rfl⟩
    · dsimp only
      have h := FModel.learning_dyn_fold_frame idx
        ((net.getF idx "mean").getD (.num 0))
        ((net.getF idx "expected_precision").getD (.num 1))
        (FModel.F.div (.num 1) (.num vps.length))
        (vps.zip ((net.getVec idx "value_coupling_parents").getD
          (List.replicate vps.length (.num 1)))) net
      refine ⟨h.1, h.2.1, h.2.2.1, h.2.2.2.1, ?_⟩
      intro n k h1 h2
      refine h.2.2.2.2 n k h1 (fun hc => h2 ⟨hc.1, ?_⟩)
      obtain ⟨pc, hpc, hfst⟩ := List.mem_map.mp hc.2
      exact hfst ▸ (List.of_mem_zip hpc).1

/-- Witness for C10: an unrelated vector attribute of the parent node is
untouched by a learning call on the concrete two-node network. -/
theorem learning_frame_effect_witness :
    (FModel.learning_weights_fixed FModel.cexLearn 0 (FModel.F.num 1)).getVec 1 "xis"
      = FModel.cexLearn.getVec 1 "xis" := by
  refine (learning_frame_effect.1 FModel.cexLearn 0 (FModel.F.num 1)).2.2.2.2 1 "xis"
    ?_ ?_
  · rintro ⟨hn, -⟩
    exact absurd hn (by decide)
  · rintro ⟨hk, -⟩
    exact absurd hk (by decide)

/-! ### The volatile-equivalence claim: kernel evaluation lemmas, the one-step
state correspondence, and the stream-level trajectory equivalence -/
theorem getFD_setF (net : Network) (i j : Nat) (k k2 : String) (v d : ℚ) :
    (net.setF i k v).getFD j k2 d = if j = i ∧ k2 = k then v else net.getFD j k2 d := by
  unfold Network.getFD Network.setF
  dsimp only
  split_ifs <;> rfl

theorem getV_setF (net : Network) (i : Nat) (k : String) (v : ℚ) :
    (net.setF i k v).getV = net.getV := rfl

theorem inputs_setF (net : Network) (i : Nat) (k : String) (v : ℚ) :
    (net.setF i k v).inputs = net.inputs := rfl

theorem fnPtrs_setF (net : Network) (i : Nat) (k : String) (v : ℚ) :
    (net.setF i k v).attributes.fnPtrs = net.attributes.fnPtrs := rfl

theorem edges_setF (net : Network) (i : Nat) (k : String) (v : ℚ) :
    (net.setF i k v).edges = net.edges := rfl
theorem getFD_eq (net : Network) (i : Nat) (k : String) (d v : ℚ)
    (h : net.getF i k = some v) : net.getFD i k d = v := by
  unfold Network.getFD
  unfold Network.getF at h
  rw [h]
  rfl

theorem getFD_as_getD (net : Network) (i : Nat) (k : String) :
    net.getFD i k 0 = (net.getF i k).getD 0 := rfl
theorem predVol1_frame (ops : Ops) (net : Network) (i : Nat) (dt : ℚ) :
    (prediction_volatile_state_node ops net i dt).edges = net.edges
    ∧ (prediction_volatile_state_node ops net i dt).getV = net.getV
    ∧ (prediction_volatile_state_node ops net i dt).inputs = net.inputs
    ∧ (prediction_volatile_state_node ops net i dt).attributes.fnPtrs
        = net.attributes.fnPtrs
    ∧ (prediction_volatile_state_node ops net i dt).update_type = net.update_type := by
  exact ⟨rfl, rfl, rfl, rfl, rfl⟩

theorem predVol1_eval (ops : Ops) (net : Network)
    (hadj : net.edge 1 = some volAdj1) :
    ((prediction_volatile_state_node ops net 1 1).getF 1 "current_variance"
        = some (1 / net.getFD 1 "precision" 0))
    ∧ ((prediction_volatile_state_node ops net 1 1).getF 1 "expected_mean_vol"
        = some (net.getFD 1 "autoconnection_strength_vol" 0 * net.getFD 1 "mean_vol" 0
            + net.getFD 1 "tonic_drift_vol" 0))
    ∧ ((prediction_volatile_state_node ops net 1 1).getF 1 "expected_precision_vol"
        = some (1 / (1 / net.getFD 1 "precision_vol" 0
            + max (ops.exp (qclamp (net.getFD 1 "tonic_volatility_vol" 0) (-80) 80)) tiny)))
    ∧ ((prediction_volatile_state_node ops net 1 1).getF 1 "effective_precision_vol"
        = some (max (ops.exp (qclamp (net.getFD 1 "tonic_volatility_vol" 0) (-80) 80)) tiny
            * (1 / (1 / net.getFD 1 "precision_vol" 0
            + max (ops.exp (qclamp (net.getFD 1 "tonic_volatility_vol" 0) (-80) 80)) tiny))))
    ∧ ((prediction_volatile_state_node ops net 1 1).getF 1 "expected_mean"
        = some (net.getFD 1 "autoconnection_strength" 0 * net.getFD 1 "mean" 0
            + net.getFD 1 "tonic_drift" 0))
    ∧ ((prediction_volatile_state_node ops net 1 1).getF 1 "expected_precision"
        = some (1 / (1 / net.getFD 1 "precision" 0
            + max (ops.exp (qclamp (net.getFD 1 "tonic_volatility" 0
                + net.getFD 1 "volatility_coupling_internal" 0
                  * (net.getFD 1 "autoconnection_strength_vol" 0 * net.getFD 1 "mean_vol" 0
                    + net.getFD 1 "tonic_drift_vol" 0)) (-80) 80)) tiny)))
    ∧ ((prediction_volatile_state_node ops net 1 1).getF 1 "effective_precision"
        = some (max (ops.exp (qclamp (net.getFD 1 "tonic_volatility" 0
                + net.getFD 1 "volatility_coupling_internal" 0
                  * (net.getFD 1 "autoconnection_strength_vol" 0 * net.getFD 1 "mean_vol" 0
                    + net.getFD 1 "tonic_drift_vol" 0)) (-80) 80)) tiny
            * (1 / (1 / net.getFD 1 "precision" 0
            + max (ops.exp (qclamp (net.getFD 1 "tonic_volatility" 0
                + net.getFD 1 "volatility_coupling_internal" 0
                  * (net.getFD 1 "autoconnection_strength_vol" 0 * net.getFD 1 "mean_vol" 0
                    + net.getFD 1 "tonic_drift_vol" 0)) (-80) 80)) tiny))))
    ∧ (∀ n k, n ≠ 1 →
        (prediction_volatile_state_node ops net 1 1).getF n k = net.getF n k)
    ∧ (∀ k, k ∉ ["current_variance", "expected_mean_vol", "expected_precision_vol",
          "effective_precision_vol", "expected_mean", "expected_precision",
          "effective_precision"] →
        (prediction_volatile_state_node ops net 1 1).getF 1 k = net.getF 1 k) := by
  refine ⟨?_, ?_, ?_, ?_, ?_, ?_, ?_, ?_, ?_⟩
  · simp [prediction_volatile_state_node, getF_setF, getFD_setF, edge_setF, hadj, volAdj1]
  · simp [prediction_volatile_state_node, getF_setF, getFD_setF, edge_setF, hadj, volAdj1]
  · simp [prediction_volatile_state_node, getF_setF, getFD_setF, edge_setF, hadj, volAdj1]
  · simp [prediction_volatile_state_node, getF_setF, getFD_setF, edge_setF, hadj, volAdj1]
  · simp [prediction_volatile_state_node, getF_setF, getFD_setF, edge_setF, hadj, volAdj1]
  · simp [prediction_volatile_state_node, getF_setF, getFD_setF, edge_setF, hadj, volAdj1]
  · simp [prediction_volatile_state_node, getF_setF, getFD_setF, edge_setF, hadj, volAdj1]
  · intro n k hn
    simp [prediction_volatile_state_node, getF_setF, getFD_setF, edge_setF, hadj, volAdj1, hn]
  · intro k hk
    simp only [List.mem_cons, List.mem_singleton, not_or] at hk
    obtain ⟨h1, h2, h3, h4, h5, h6, h7, _⟩ := hk
    simp [prediction_volatile_state_node, getF_setF, getFD_setF, edge_setF, hadj, volAdj1,
      h1, h2, h3, h4, h5, h6, h7]
theorem predCont_frame (ops : Ops) (net : Network) (i : Nat) (dt : ℚ) :
    (prediction_continuous_state_node ops net i dt).edges = net.edges
    ∧ (prediction_continuous_state_node ops net i dt).getV = net.getV
    ∧ (prediction_continuous_state_node ops net i dt).inputs = net.inputs
    ∧ (prediction_continuous_state_node ops net i dt).attributes.fnPtrs
        = net.attributes.fnPtrs
    ∧ (prediction_continuous_state_node ops net i dt).update_type = net.update_type := by
  unfold prediction_continuous_state_node
  refine ⟨?_, ?_, ?_, ?_, ?_⟩ <;> (dsimp only; split <;> rfl)

theorem predCont0_eval (ops : Ops) (net : Network)
    (hadj : net.edge 0 = some volAdj0)
    (hcp : net.getV 0 "value_coupling_parents" = some [1]) :
    ((prediction_continuous_state_node ops net 0 1).getF 0 "current_variance"
        = some (1 / net.getFD 0 "precision" 1))
    ∧ ((prediction_continuous_state_node ops net 0 1).getF 0 "expected_mean"
        = some (net.getFD 0 "autoconnection_strength" 0 * net.getFD 0 "mean" 0
            + (net.getFD 0 "tonic_drift" 0 + net.getFD 1 "expected_mean" 0)))
    ∧ ((prediction_continuous_state_node ops net 0 1).getF 0 "effective_precision"
        = some (max (ops.exp (qclamp (net.getFD 0 "tonic_volatility" 0) (-80) 80)) tiny
            * (1 / (1 / net.getFD 0 "precision" 0
              + max (ops.exp (qclamp (net.getFD 0 "tonic_volatility" 0) (-80) 80)) tiny))))
    ∧ (∀ n k, n ≠ 0 →
        (prediction_continuous_state_node ops net 0 1).getF n k = net.getF n k)
    ∧ (∀ k, k ∉ ["current_variance", "expected_mean", "effective_precision"] →
        (prediction_continuous_state_node ops net 0 1).getF 0 k = net.getF 0 k) := by
  refine ⟨?_, ?_, ?_, ?_, ?_⟩
  · simp [prediction_continuous_state_node, getF_setF, getFD_setF, edge_setF, getV_setF,
      hadj, hcp, volAdj0, couplingAt, foldEnum, foldEnumAux]
  · simp [prediction_continuous_state_node, getF_setF, getFD_setF, edge_setF, getV_setF,
      hadj, hcp, volAdj0, couplingAt, foldEnum, foldEnumAux]
  · simp [prediction_continuous_state_node, getF_setF, getFD_setF, edge_setF, getV_setF,
      hadj, hcp, volAdj0, couplingAt, foldEnum, foldEnumAux]
  · intro n k hn
    simp [prediction_continuous_state_node, getF_setF, getFD_setF, edge_setF, getV_setF,
      hadj, hcp, volAdj0, couplingAt, foldEnum, foldEnumAux, hn]
  · intro k hk
    simp only [List.mem_cons, List.not_mem_nil, or_false, not_or] at hk
    obtain ⟨h1, h2, h3⟩ := hk
    simp [prediction_continuous_state_node, getF_setF, getFD_setF, edge_setF, getV_setF,
      hadj, hcp, volAdj0, couplingAt, foldEnum, foldEnumAux, h1, h2, h3]

theorem predCont2_eval (ops : Ops) (net : Network)
    (hadj : net.edge 2 = some expAdj2) :
    ((prediction_continuous_state_node ops net 2 1).getF 2 "expected_precision"
        = some (1 / (1 / net.getFD 2 "precision" 0
            + max (ops.exp (qclamp (net.getFD 2 "tonic_volatility" 0) (-80) 80)) tiny)))
    ∧ ((prediction_continuous_state_node ops net 2 1).getF 2 "current_variance"
        = some (1 / net.getFD 2 "precision" 1))
    ∧ ((prediction_continuous_state_node ops net 2 1).getF 2 "expected_mean"
        = some (net.getFD 2 "autoconnection_strength" 0 * net.getFD 2 "mean" 0
            + net.getFD 2 "tonic_drift" 0))
    ∧ ((prediction_continuous_state_node ops net 2 1).getF 2 "effective_precision"
        = some (max (ops.exp (qclamp (net.getFD 2 "tonic_volatility" 0) (-80) 80)) tiny
            * (1 / (1 / net.getFD 2 "precision" 0
              + max (ops.exp (qclamp (net.getFD 2 "tonic_volatility" 0) (-80) 80)) tiny))))
    ∧ (∀ n k, n ≠ 2 →
        (prediction_continuous_state_node ops net 2 1).getF n k = net.getF n k)
    ∧ (∀ k, k ∉ ["expected_precision", "current_variance", "expected_mean",
          "effective_precision"] →
        (prediction_continuous_state_node ops net 2 1).getF 2 k = net.getF 2 k) := by
  refine ⟨?_, ?_, ?_, ?_, ?_, ?_⟩
  · simp [prediction_continuous_state_node, getF_setF, getFD_setF, edge_setF, getV_setF,
      hadj, expAdj2]
  · simp [prediction_continuous_state_node, getF_setF, getFD_setF, edge_setF, getV_setF,
      hadj, expAdj2]
  · simp [prediction_continuous_state_node, getF_setF, getFD_setF, edge_setF, getV_setF,
      hadj, expAdj2]
  · simp [prediction_continuous_state_node, getF_setF, getFD_setF, edge_setF, getV_setF,
      hadj, expAdj2]
  · intro n k hn
    simp [prediction_continuous_state_node, getF_setF, getFD_setF, edge_setF, getV_setF,
      hadj, expAdj2, hn]
  · intro k hk
    simp only [List.mem_cons, List.not_mem_nil, or_false, not_or] at hk
    obtain ⟨h1, h2, h3, h4⟩ := hk
    simp [prediction_continuous_state_node, getF_setF, getFD_setF, edge_setF, getV_setF,
      hadj, expAdj2, h1, h2, h3, h4]

theorem predCont1_eval (ops : Ops) (net : Network)
    (hadj : net.edge 1 = some expAdj1)
    (hvp : net.getV 1 "volatility_coupling_parents" = some [1]) :
    ((prediction_continuous_state_node ops net 1 1).getF 1 "expected_precision"
        = some (1 / (1 / net.getFD 1 "precision" 0
            + max (ops.exp (qclamp (net.getFD 1 "tonic_volatility" 0
                + net.getFD 2 "mean" 0) (-80) 80)) tiny)))
    ∧ ((prediction_continuous_state_node ops net 1 1).getF 1 "current_variance"
        = some (1 / net.getFD 1 "precision" 1))
    ∧ ((prediction_continuous_state_node ops net 1 1).getF 1 "expected_mean"
        = some (net.getFD 1 "autoconnection_strength" 0 * net.getFD 1 "mean" 0
            + net.getFD 1 "tonic_drift" 0))
    ∧ ((prediction_continuous_state_node ops net 1 1).getF 1 "effective_precision"
        = some (max (ops.exp (qclamp (net.getFD 1 "tonic_volatility" 0
                + net.getFD 2 "mean" 0) (-80) 80)) tiny
            * (1 / (1 / net.getFD 1 "precision" 0
              + max (ops.exp (qclamp (net.getFD 1 "tonic_volatility" 0
                + net.getFD 2 "mean" 0) (-80) 80)) tiny))))
    ∧ (∀ n k, n ≠ 1 →
        (prediction_continuous_state_node ops net 1 1).getF n k = net.getF n k)
    ∧ (∀ k, k ∉ ["expected_precision", "current_variance", "expected_mean",
          "effective_precision"] →
        (prediction_continuous_state_node ops net 1 1).getF 1 k = net.getF 1 k) := by
  refine ⟨?_, ?_, ?_, ?_, ?_, ?_⟩
  · simp [prediction_continuous_state_node, getF_setF, getFD_setF, edge_setF, getV_setF,
      hadj, hvp, expAdj1, couplingAt, foldEnum, foldEnumAux]
  · simp [prediction_continuous_state_node, getF_setF, getFD_setF, edge_setF, getV_setF,
      hadj, hvp, expAdj1, couplingAt, foldEnum, foldEnumAux]
  · simp [prediction_continuous_state_node, getF_setF, getFD_setF, edge_setF, getV_setF,
      hadj, hvp, expAdj1, couplingAt, foldEnum, foldEnumAux]
  · simp [prediction_continuous_state_node, getF_setF, getFD_setF, edge_setF, getV_setF,
      hadj, hvp, expAdj1, couplingAt, foldEnum, foldEnumAux]
  · intro n k hn
    simp [prediction_continuous_state_node, getF_setF, getFD_setF, edge_setF, getV_setF,
      hadj, hvp, expAdj1, couplingAt, foldEnum, foldEnumAux, hn]
  · intro k hk
    simp only [List.mem_cons, List.not_mem_nil, or_false, not_or] at hk
    obtain ⟨h1, h2, h3, h4⟩ := hk
    simp [prediction_continuous_state_node, getF_setF, getFD_setF, edge_setF, getV_setF,
      hadj, hvp, expAdj1, couplingAt, foldEnum, foldEnumAux, h1, h2, h3, h4]
theorem obs0_eval (net : Network) (o : ℚ) (hm : (net.getF 0 "mean").isSome = true) :
    ((observation_update net 0 o).getF 0 "mean" = some o)
    ∧ (∀ n k, ¬(n = 0 ∧ k = "mean") →
        (observation_update net 0 o).getF n k = net.getF n k)
    ∧ (observation_update net 0 o).edges = net.edges
    ∧ (observation_update net 0 o).getV = net.getV
    ∧ (observation_update net 0 o).inputs = net.inputs
    ∧ (observation_update net 0 o).attributes.fnPtrs = net.attributes.fnPtrs
    ∧ (observation_update net 0 o).update_type = net.update_type := by
  obtain ⟨m, hm'⟩ := Option.isSome_iff_exists.mp hm
  unfold observation_update
  rw [hm']
  refine ⟨by simp [getF_setF], ?_, rfl, rfl, rfl, rfl, rfl⟩
  intro n k hn
  simp [getF_setF, hn]

theorem pe0_eval (net : Network) (hadj : net.edge 0 = some volAdj0) :
    ((prediction_error_continuous_state_node net 0).getF 0 "value_prediction_error"
        = some (net.getFD 0 "mean" 0 - net.getFD 0 "expected_mean" 0))
    ∧ ((prediction_error_continuous_state_node net 0).getF 0 "volatility_prediction_error"
        = some (net.getFD 0 "expected_precision" 0 / net.getFD 0 "precision" 0
            + net.getFD 0 "expected_precision" 0
              * (net.getFD 0 "mean" 0 - net.getFD 0 "expected_mean" 0) ^ 2 - 1))
    ∧ (∀ n k, n ≠ 0 →
        (prediction_error_continuous_state_node net 0).getF n k = net.getF n k)
    ∧ (∀ k, k ∉ ["value_prediction_error", "volatility_prediction_error"] →
        (prediction_error_continuous_state_node net 0).getF 0 k = net.getF 0 k) := by
  refine ⟨?_, ?_, ?_, ?_⟩
  · simp [prediction_error_continuous_state_node, getF_setF, getFD_setF, edge_setF,
      hadj, volAdj0]
  · simp [prediction_error_continuous_state_node, getF_setF, getFD_setF, edge_setF,
      hadj, volAdj0]
  · intro n k hn
    simp [prediction_error_continuous_state_node, getF_setF, getFD_setF, edge_setF,
      hadj, volAdj0, hn]
  · intro k hk
    simp only [List.mem_cons, List.not_mem_nil, or_false, not_or] at hk
    obtain ⟨h1, h2⟩ := hk
    simp [prediction_error_continuous_state_node, getF_setF, getFD_setF, edge_setF,
      hadj, volAdj0, h1, h2]

theorem pe_frame (net : Network) (i : Nat) :
    (prediction_error_continuous_state_node net i).edges = net.edges
    ∧ (prediction_error_continuous_state_node net i).getV = net.getV
    ∧ (prediction_error_continuous_state_node net i).inputs = net.inputs
    ∧ (prediction_error_continuous_state_node net i).attributes.fnPtrs
        = net.attributes.fnPtrs
    ∧ (prediction_error_continuous_state_node net i).update_type = net.update_type :=
  ⟨rfl, rfl, rfl, rfl, rfl⟩

theorem pe1_eval (net : Network) (hadj : net.edge 1 = some expAdj1) :
    ((prediction_error_continuous_state_node net 1).getF 1 "value_prediction_error"
        = some (net.getFD 1 "mean" 0 - net.getFD 1 "expected_mean" 0))
    ∧ ((prediction_error_continuous_state_node net 1).getF 1 "volatility_prediction_error"
        = some (net.getFD 1 "expected_precision" 0 / net.getFD 1 "precision" 0
            + net.getFD 1 "expected_precision" 0
              * (net.getFD 1 "mean" 0 - net.getFD 1 "expected_mean" 0) ^ 2 - 1))
    ∧ (∀ n k, n ≠ 1 →
        (prediction_error_continuous_state_node net 1).getF n k = net.getF n k)
    ∧ (∀ k, k ∉ ["value_prediction_error", "volatility_prediction_error"] →
        (prediction_error_continuous_state_node net 1).getF 1 k = net.getF 1 k) := by
  refine ⟨?_, ?_, ?_, ?_⟩
  · simp [prediction_error_continuous_state_node, getF_setF, getFD_setF, edge_setF,
      hadj, expAdj1]
  · simp [prediction_error_continuous_state_node, getF_setF, getFD_setF, edge_setF,
      hadj, expAdj1]
  · intro n k hn
    simp [prediction_error_continuous_state_node, getF_setF, getFD_setF, edge_setF,
      hadj, expAdj1, hn]
  · intro k hk
    simp only [List.mem_cons, List.not_mem_nil, or_false, not_or] at hk
    obtain ⟨h1, h2⟩ := hk
    simp [prediction_error_continuous_state_node, getF_setF, getFD_setF, edge_setF,
      hadj, expAdj1, h1, h2]
theorem poVol_frame (net : Network) (i : Nat) :
    (posterior_update_volatile_state_node net i).edges = net.edges
    ∧ (posterior_update_volatile_state_node net i).getV = net.getV
    ∧ (posterior_update_volatile_state_node net i).inputs = net.inputs
    ∧ (posterior_update_volatile_state_node net i).attributes.fnPtrs
        = net.attributes.fnPtrs
    ∧ (posterior_update_volatile_state_node net i).update_type = net.update_type :=
  ⟨rfl, rfl, rfl, rfl, rfl⟩

theorem poVolStd_eval (net : Network) (P X D PV : ℚ)
    (hadj : net.edge 1 = some volAdj1)
    (hcc : net.getV 1 "value_coupling_children" = some [1])
    (hP : P = net.getFD 1 "expected_precision" 0 + net.getFD 0 "expected_precision" 0)
    (hX : X = net.getFD 0 "expected_precision" 0 / P
        * net.getFD 0 "value_prediction_error" 0)
    (hD : D = net.getFD 1 "expected_precision" 0 / P
        + net.getFD 1 "expected_precision" 0 * X ^ 2 - 1)
    (hPV : PV = net.getFD 1 "expected_precision_vol" 0
        + 1 / 2 * (net.getFD 1 "volatility_coupling_internal" 0
            * net.getFD 1 "effective_precision" 0) ^ 2
        + (net.getFD 1 "volatility_coupling_internal" 0
            * net.getFD 1 "effective_precision" 0) ^ 2 * D
        - 1 / 2 * net.getFD 1 "volatility_coupling_internal" 0 ^ 2
            * net.getFD 1 "effective_precision" 0 * D) :
    ((posterior_update_volatile_state_node net 1).getF 1 "precision" = some P)
    ∧ ((posterior_update_volatile_state_node net 1).getF 1 "mean"
        = some (net.getFD 1 "expected_mean" 0 + X))
    ∧ ((posterior_update_volatile_state_node net 1).getF 1 "value_prediction_error"
        = some X)
    ∧ ((posterior_update_volatile_state_node net 1).getF 1 "volatility_prediction_error"
        = some D)
    ∧ ((posterior_update_volatile_state_node net 1).getF 1 "precision_vol" = some PV)
    ∧ ((posterior_update_volatile_state_node net 1).getF 1 "mean_vol"
        = some (net.getFD 1 "expected_mean_vol" 0
            + net.getFD 1 "volatility_coupling_internal" 0
              * net.getFD 1 "effective_precision" 0 * D / (2 * PV)
              * net.getFD 1 "observed" 1))
    ∧ (∀ n k, n ≠ 1 →
        (posterior_update_volatile_state_node net 1).getF n k = net.getF n k)
    ∧ (∀ k, k ∉ ["precision", "mean", "value_prediction_error",
          "volatility_prediction_error", "precision_vol", "mean_vol"] →
        (posterior_update_volatile_state_node net 1).getF 1 k = net.getF 1 k) := by
  subst hP hX hD hPV
  refine ⟨?_, ?_, ?_, ?_, ?_, ?_, ?_, ?_⟩
  · simp [posterior_update_volatile_state_node, volatile_value_level_step,
      precision_update_value_level, mean_update_value_level, recompute_prediction_errors,
      precision_update_volatility_level, mean_update_volatility_level,
      getF_setF, getFD_setF, edge_setF, getV_setF, hadj, hcc, volAdj1,
      couplingAt, foldEnum, foldEnumAux]
  · simp [posterior_update_volatile_state_node, volatile_value_level_step,
      precision_update_value_level, mean_update_value_level, recompute_prediction_errors,
      precision_update_volatility_level, mean_update_volatility_level,
      getF_setF, getFD_setF, edge_setF, getV_setF, hadj, hcc, volAdj1,
      couplingAt, foldEnum, foldEnumAux]
  · simp [posterior_update_volatile_state_node, volatile_value_level_step,
      precision_update_value_level, mean_update_value_level, recompute_prediction_errors,
      precision_update_volatility_level, mean_update_volatility_level,
      getF_setF, getFD_setF, edge_setF, getV_setF, hadj, hcc, volAdj1,
      couplingAt, foldEnum, foldEnumAux]
  · simp [posterior_update_volatile_state_node, volatile_value_level_step,
      precision_update_value_level, mean_update_value_level, recompute_prediction_errors,
      precision_update_volatility_level, mean_update_volatility_level,
      getF_setF, getFD_setF, edge_setF, getV_setF, hadj, hcc, volAdj1,
      couplingAt, foldEnum, foldEnumAux]
  · simp [posterior_update_volatile_state_node, volatile_value_level_step,
      precision_update_value_level, mean_update_value_level, recompute_prediction_errors,
      precision_update_volatility_level, mean_update_volatility_level,
      getF_setF, getFD_setF, edge_setF, getV_setF, hadj, hcc, volAdj1,
      couplingAt, foldEnum, foldEnumAux]
  · simp [posterior_update_volatile_state_node, volatile_value_level_step,
      precision_update_value_level, mean_update_value_level, recompute_prediction_errors,
      precision_update_volatility_level, mean_update_volatility_level,
      getF_setF, getFD_setF, edge_setF, getV_setF, hadj, hcc, volAdj1,
      couplingAt, foldEnum, foldEnumAux]
  · intro n k hn
    simp [posterior_update_volatile_state_node, volatile_value_level_step,
      recompute_prediction_errors, getF_setF, edge_setF, hadj, volAdj1, hn]
  · intro k hk
    simp only [List.mem_cons, List.not_mem_nil, or_false, not_or] at hk
    obtain ⟨h1, h2, h3, h4, h5, h6⟩ := hk
    simp [posterior_update_volatile_state_node, volatile_value_level_step,
      recompute_prediction_errors, getF_setF, edge_setF, hadj, volAdj1,
      h1, h2, h3, h4, h5, h6]
theorem poVolEhgf_frame (net : Network) (i : Nat) :
    (posterior_update_volatile_state_node_ehgf net i).edges = net.edges
    ∧ (posterior_update_volatile_state_node_ehgf net i).getV = net.getV
    ∧ (posterior_update_volatile_state_node_ehgf net i).inputs = net.inputs
    ∧ (posterior_update_volatile_state_node_ehgf net i).attributes.fnPtrs
        = net.attributes.fnPtrs
    ∧ (posterior_update_volatile_state_node_ehgf net i).update_type = net.update_type :=
  ⟨rfl, rfl, rfl, rfl, rfl⟩

theorem poVolEhgf_eval (net : Network) (P X D PV : ℚ)
    (hadj : net.edge 1 = some volAdj1)
    (hcc : net.getV 1 "value_coupling_children" = some [1])
    (hP : P = net.getFD 1 "expected_precision" 0 + net.getFD 0 "expected_precision" 0)
    (hX : X = net.getFD 0 "expected_precision" 0 / P
        * net.getFD 0 "value_prediction_error" 0)
    (hD : D = net.getFD 1 "expected_precision" 0 / P
        + net.getFD 1 "expected_precision" 0 * X ^ 2 - 1)
    (hPV : PV = net.getFD 1 "expected_precision_vol" 0
        + 1 / 2 * (net.getFD 1 "volatility_coupling_internal" 0
            * net.getFD 1 "effective_precision" 0) ^ 2
        + (net.getFD 1 "volatility_coupling_internal" 0
            * net.getFD 1 "effective_precision" 0) ^ 2 * D
        - 1 / 2 * net.getFD 1 "volatility_coupling_internal" 0 ^ 2
            * net.getFD 1 "effective_precision" 0 * D) :
    ((posterior_update_volatile_state_node_ehgf net 1).getF 1 "precision" = some P)
    ∧ ((posterior_update_volatile_state_node_ehgf net 1).getF 1 "mean"
        = some (net.getFD 1 "expected_mean" 0 + X))
    ∧ ((posterior_update_volatile_state_node_ehgf net 1).getF 1 "value_prediction_error"
        = some X)
    ∧ ((posterior_update_volatile_state_node_ehgf net 1).getF 1
          "volatility_prediction_error" = some D)
    ∧ ((posterior_update_volatile_state_node_ehgf net 1).getF 1 "precision_vol" = some PV)
    ∧ ((posterior_update_volatile_state_node_ehgf net 1).getF 1 "mean_vol"
        = some (net.getFD 1 "expected_mean_vol" 0
            + net.getFD 1 "volatility_coupling_internal" 0
              * net.getFD 1 "effective_precision" 0 * D
              / (2 * net.getFD 1 "expected_precision_vol" 0)
              * net.getFD 1 "observed" 1))
    ∧ (∀ n k, n ≠ 1 →
        (posterior_update_volatile_state_node_ehgf net 1).getF n k = net.getF n k)
    ∧ (∀ k, k ∉ ["precision", "mean", "value_prediction_error",
          "volatility_prediction_error", "precision_vol", "mean_vol"] →
        (posterior_update_volatile_state_node_ehgf net 1).getF 1 k = net.getF 1 k) := by
  subst hP hX hD hPV
  refine ⟨?_, ?_, ?_, ?_, ?_, ?_, ?_, ?_⟩
  · simp [posterior_update_volatile_state_node_ehgf, volatile_value_level_step,
      precision_update_value_level, mean_update_value_level, recompute_prediction_errors,
      precision_update_volatility_level, mean_update_volatility_level,
      getF_setF, getFD_setF, edge_setF, getV_setF, hadj, hcc, volAdj1,
      couplingAt, foldEnum, foldEnumAux]
  · simp [posterior_update_volatile_state_node_ehgf, volatile_value_level_step,
      precision_update_value_level, mean_update_value_level, recompute_prediction_errors,
      precision_update_volatility_level, mean_update_volatility_level,
      getF_setF, getFD_setF, edge_setF, getV_setF, hadj, hcc, volAdj1,
      couplingAt, foldEnum, foldEnumAux]
  · simp [posterior_update_volatile_state_node_ehgf, volatile_value_level_step,
      precision_update_value_level, mean_update_value_level, recompute_prediction_errors,
      precision_update_volatility_level, mean_update_volatility_level,
      getF_setF, getFD_setF, edge_setF, getV_setF, hadj, hcc, volAdj1,
      couplingAt, foldEnum, foldEnumAux]
  · simp [posterior_update_volatile_state_node_ehgf, volatile_value_level_step,
      precision_update_value_level, mean_update_value_level, recompute_prediction_errors,
      precision_update_volatility_level, mean_update_volatility_level,
      getF_setF, getFD_setF, edge_setF, getV_setF, hadj, hcc, volAdj1,
      couplingAt, foldEnum, foldEnumAux]
  · simp [posterior_update_volatile_state_node_ehgf, volatile_value_level_step,
      precision_update_value_level, mean_update_value_level, recompute_prediction_errors,
      precision_update_volatility_level, mean_update_volatility_level,
      getF_setF, getFD_setF, edge_setF, getV_setF, hadj, hcc, volAdj1,
      couplingAt, foldEnum, foldEnumAux]
  · simp [posterior_update_volatile_state_node_ehgf, volatile_value_level_step,
      precision_update_value_level, mean_update_value_level, recompute_prediction_errors,
      precision_update_volatility_level, mean_update_volatility_level,
      getF_setF, getFD_setF, edge_setF, getV_setF, hadj, hcc, volAdj1,
      couplingAt, foldEnum, foldEnumAux]
  · intro n k hn
    simp [posterior_update_volatile_state_node_ehgf, volatile_value_level_step,
      recompute_prediction_errors, getF_setF, edge_setF, hadj, volAdj1, hn]
  · intro k hk
    simp only [List.mem_cons, List.not_mem_nil, or_false, not_or] at hk
    obtain ⟨h1, h2, h3, h4, h5, h6⟩ := hk
    simp [posterior_update_volatile_state_node_ehgf, volatile_value_level_step,
      recompute_prediction_errors, getF_setF, edge_setF, hadj, volAdj1,
      h1, h2, h3, h4, h5, h6]

theorem poCont_frame (net : Network) (i : Nat) :
    (posterior_update_continuous_state_node net i).edges = net.edges
    ∧ (posterior_update_continuous_state_node net i).getV = net.getV
    ∧ (posterior_update_continuous_state_node net i).inputs = net.inputs
    ∧ (posterior_update_continuous_state_node net i).attributes.fnPtrs
        = net.attributes.fnPtrs
    ∧ (posterior_update_continuous_state_node net i).update_type = net.update_type :=
  ⟨rfl, rfl, rfl, rfl, rfl⟩

theorem poContEhgf_frame (net : Network) (i : Nat) :
    (posterior_update_continuous_state_node_ehgf net i).edges = net.edges
    ∧ (posterior_update_continuous_state_node_ehgf net i).getV = net.getV
    ∧ (posterior_update_continuous_state_node_ehgf net i).inputs = net.inputs
    ∧ (posterior_update_continuous_state_node_ehgf net i).attributes.fnPtrs
        = net.attributes.fnPtrs
    ∧ (posterior_update_continuous_state_node_ehgf net i).update_type = net.update_type :=
  ⟨rfl, rfl, rfl, rfl, rfl⟩

theorem poContUnb_frame (ops : Ops) (net : Network) (i : Nat) :
    (posterior_update_continuous_state_node_unbounded ops net i).edges = net.edges
    ∧ (posterior_update_continuous_state_node_unbounded ops net i).getV = net.getV
    ∧ (posterior_update_continuous_state_node_unbounded ops net i).inputs = net.inputs
    ∧ (posterior_update_continuous_state_node_unbounded ops net i).attributes.fnPtrs
        = net.attributes.fnPtrs
    ∧ (posterior_update_continuous_state_node_unbounded ops net i).update_type
        = net.update_type :=
  ⟨rfl, rfl, rfl, rfl, rfl⟩

theorem poVolUnb_frame (ops : Ops) (net : Network) (i : Nat) :
    (posterior_update_volatile_state_node_unbounded ops net i).edges = net.edges
    ∧ (posterior_update_volatile_state_node_unbounded ops net i).getV = net.getV
    ∧ (posterior_update_volatile_state_node_unbounded ops net i).inputs = net.inputs
    ∧ (posterior_update_volatile_state_node_unbounded ops net i).attributes.fnPtrs
        = net.attributes.fnPtrs
    ∧ (posterior_update_volatile_state_node_unbounded ops net i).update_type
        = net.update_type :=
  ⟨rfl, rfl, rfl, rfl, rfl⟩

theorem poCont1_eval (net : Network) (P : ℚ)
    (hadj : net.edge 1 = some expAdj1)
    (hadj0 : net.edge 0 = some volAdj0)
    (hcc : net.getV 1 "value_coupling_children" = some [1])
    (hfn : net.attributes.fnPtrs 0 "value_coupling_fn_parents" = none)
    (hP : P = max (net.getFD 1 "expected_precision" 0
        + net.getFD 0 "expected_precision" 0) tiny) :
    ((posterior_update_continuous_state_node net 1).getF 1 "precision" = some P)
    ∧ ((posterior_update_continuous_state_node net 1).getF 1 "mean"
        = some (net.getFD 1 "expected_mean" 0 + net.getFD 0 "expected_precision" 0 / P
            * net.getFD 0 "value_prediction_error" 0))
    ∧ (∀ n k, n ≠ 1 →
        (posterior_update_continuous_state_node net 1).getF n k = net.getF n k)
    ∧ (∀ k, k ∉ ["precision", "mean"] →
        (posterior_update_continuous_state_node net 1).getF 1 k = net.getF 1 k) := by
  have hcf : couplingFnFor net 0 1 = none := by
    unfold couplingFnFor
    rw [hadj0]
    simp [volAdj0, hfn]
  subst hP
  refine ⟨?_, ?_, ?_, ?_⟩
  · simp [posterior_update_continuous_state_node, precision_update_from_children,
      mean_update_from_children, getF_setF, getFD_setF, edge_setF, getV_setF,
      hadj, hcc, expAdj1, hcf, couplingAt, foldEnum, foldEnumAux]
  · simp [posterior_update_continuous_state_node, precision_update_from_children,
      mean_update_from_children, getF_setF, getFD_setF, edge_setF, getV_setF,
      hadj, hcc, expAdj1, hcf, couplingAt, foldEnum, foldEnumAux]
  · intro n k hn
    simp [posterior_update_continuous_state_node, getF_setF, hn]
  · intro k hk
    simp only [List.mem_cons, List.not_mem_nil, or_false, not_or] at hk
    obtain ⟨h1, h2⟩ := hk
    simp [posterior_update_continuous_state_node, getF_setF, h1, h2]
theorem poCont2Std_eval (net : Network) (KV G D P2 : ℚ)
    (hadj : net.edge 2 = some expAdj2)
    (hKV : couplingAt (net.getV 2 "volatility_coupling_children") 0 1 = KV)
    (hG : G = net.getFD 1 "effective_precision" 0)
    (hD : D = net.getFD 1 "volatility_prediction_error" 0)
    (hP : P2 = max (net.getFD 2 "expected_precision" 0
        + (1 / 2 * (KV * G) ^ 2 + (KV * G) ^ 2 * D - 1 / 2 * KV ^ 2 * G * D)) tiny) :
    ((posterior_update_continuous_state_node net 2).getF 2 "precision" = some P2)
    ∧ ((posterior_update_continuous_state_node net 2).getF 2 "mean"
        = some (net.getFD 2 "expected_mean" 0 + KV * G * D / (2 * P2)))
    ∧ (∀ n k, n ≠ 2 →
        (posterior_update_continuous_state_node net 2).getF n k = net.getF n k)
    ∧ (∀ k, k ∉ ["precision", "mean"] →
        (posterior_update_continuous_state_node net 2).getF 2 k = net.getF 2 k) := by
  subst hG hD hP
  refine ⟨?_, ?_, ?_, ?_⟩
  · simp [posterior_update_continuous_state_node, precision_update_from_children,
      mean_update_from_children, getF_setF, getFD_setF, edge_setF, getV_setF,
      hadj, expAdj2, hKV, foldEnum, foldEnumAux]
  · simp [posterior_update_continuous_state_node, precision_update_from_children,
      mean_update_from_children, getF_setF, getFD_setF, edge_setF, getV_setF,
      hadj, expAdj2, hKV, foldEnum, foldEnumAux]
  · intro n k hn
    simp [posterior_update_continuous_state_node, getF_setF, hn]
  · intro k hk
    simp only [List.mem_cons, List.not_mem_nil, or_false, not_or] at hk
    obtain ⟨h1, h2⟩ := hk
    simp [posterior_update_continuous_state_node, getF_setF, h1, h2]

theorem poCont2Ehgf_eval (net : Network) (KV G D P2 : ℚ)
    (hadj : net.edge 2 = some expAdj2)
    (hKV : couplingAt (net.getV 2 "volatility_coupling_children") 0 1 = KV)
    (hG : G = net.getFD 1 "effective_precision" 0)
    (hD : D = net.getFD 1 "volatility_prediction_error" 0)
    (hP : P2 = max (net.getFD 2 "expected_precision" 0
        + (1 / 2 * (KV * G) ^ 2 + (KV * G) ^ 2 * D - 1 / 2 * KV ^ 2 * G * D)) tiny) :
    ((posterior_update_continuous_state_node_ehgf net 2).getF 2 "precision" = some P2)
    ∧ ((posterior_update_continuous_state_node_ehgf net 2).getF 2 "mean"
        = some (net.getFD 2 "expected_mean" 0
            + KV * G * D / (2 * net.getFD 2 "expected_precision" 0)))
    ∧ (∀ n k, n ≠ 2 →
        (posterior_update_continuous_state_node_ehgf net 2).getF n k = net.getF n k)
    ∧ (∀ k, k ∉ ["precision", "mean"] →
        (posterior_update_continuous_state_node_ehgf net 2).getF 2 k = net.getF 2 k) := by
  subst hG hD hP
  refine ⟨?_, ?_, ?_, ?_⟩
  · simp [posterior_update_continuous_state_node_ehgf, precision_update_from_children,
      mean_update_from_children, getF_setF, getFD_setF, edge_setF, getV_setF,
      hadj, expAdj2, hKV, foldEnum, foldEnumAux]
  · simp [posterior_update_continuous_state_node_ehgf, precision_update_from_children,
      mean_update_from_children, getF_setF, getFD_setF, edge_setF, getV_setF,
      hadj, expAdj2, hKV, foldEnum, foldEnumAux]
  · intro n k hn
    simp [posterior_update_continuous_state_node_ehgf, getF_setF, hn]
  · intro k hk
    simp only [List.mem_cons, List.not_mem_nil, or_false, not_or] at hk
    obtain ⟨h1, h2⟩ := hk
    simp [posterior_update_continuous_state_node_ehgf, getF_setF, h1, h2]
theorem poVolUnb_eval (ops : Ops) (net : Network)
    (P X D PCV NUM XV WC EXC DC PL1 ML1 PHI EKP WPHI DPHI PL2 MHP ML2 THL WT : ℚ)
    (hadj : net.edge 1 = some volAdj1)
    (hcc : net.getV 1 "value_coupling_children" = some [1])
    (hP : P = net.getFD 1 "expected_precision" 0 + net.getFD 0 "expected_precision" 0)
    (hX : X = net.getFD 0 "expected_precision" 0 / P
        * net.getFD 0 "value_prediction_error" 0)
    (hD : D = net.getFD 1 "expected_precision" 0 / P
        + net.getFD 1 "expected_precision" 0 * X ^ 2 - 1)
    (hPCV : PCV = max (net.getFD 1 "current_variance" 0) tiny)
    (hNUM : NUM = 1 / P + X ^ 2)
    (hXV : XV = net.getFD 1 "volatility_coupling_internal" 0
        * net.getFD 1 "expected_mean_vol" 0 + net.getFD 1 "tonic_volatility" 0)
    (hWC : WC = sigmoidQ ops (XV - ops.log PCV))
    (hEXC : EXC = ops.exp (qclamp XV (-80) 80))
    (hDC : DC = NUM / (PCV + EXC) - 1)
    (hPL1 : PL1 = net.getFD 1 "expected_precision_vol" 0
        + 1 / 2 * net.getFD 1 "volatility_coupling_internal" 0 ^ 2 * WC * (1 - WC))
    (hML1 : ML1 = net.getFD 1 "expected_mean_vol" 0
        + net.getFD 1 "volatility_coupling_internal" 0 * WC / (2 * PL1) * DC)
    (hPHI : PHI = ops.log (PCV * (2 + ops.sqrt 3)))
    (hEKP : EKP = ops.exp (qclamp (net.getFD 1 "volatility_coupling_internal" 0 * PHI
        + net.getFD 1 "tonic_volatility" 0) (-80) 80))
    (hWPHI : WPHI = EKP / (PCV + EKP))
    (hDPHI : DPHI = NUM / (PCV + EKP) - 1)
    (hPL2 : PL2 = net.getFD 1 "expected_precision_vol" 0
        + 1 / 2 * net.getFD 1 "volatility_coupling_internal" 0 ^ 2 * WPHI
            * (WPHI + (2 * WPHI - 1) * DPHI))
    (hMHP : MHP = ((2 * PL2 - 1) * PHI + net.getFD 1 "expected_mean_vol" 0) / (2 * PL2))
    (hML2 : ML2 = MHP + net.getFD 1 "volatility_coupling_internal" 0 * WPHI
        / (2 * PL2) * DPHI)
    (hTHL : THL = ops.sqrt (6 / 5 * NUM / (PCV * PL1)))
    (hWT : WT = bFun ops (net.getFD 1 "expected_mean_vol" 0) THL 8 0 1) :
    ((posterior_update_volatile_state_node_unbounded ops net 1).getF 1 "precision"
        = some P)
    ∧ ((posterior_update_volatile_state_node_unbounded ops net 1).getF 1 "mean"
        = some (net.getFD 1 "expected_mean" 0 + X))
    ∧ ((posterior_update_volatile_state_node_unbounded ops net 1).getF 1
          "value_prediction_error" = some X)
    ∧ ((posterior_update_volatile_state_node_unbounded ops net 1).getF 1
          "volatility_prediction_error" = some D)
    ∧ ((posterior_update_volatile_state_node_unbounded ops net 1).getF 1 "precision_vol"
        = some ((1 - WT) * PL1 + WT * PL2))
    ∧ ((posterior_update_volatile_state_node_unbounded ops net 1).getF 1 "mean_vol"
        = some ((1 - WT) * ML1 + WT * ML2))
    ∧ (∀ n k, n ≠ 1 →
        (posterior_update_volatile_state_node_unbounded ops net 1).getF n k
          = net.getF n k)
    ∧ (∀ k, k ∉ ["precision", "mean", "value_prediction_error",
          "volatility_prediction_error", "precision_vol", "mean_vol"] →
        (posterior_update_volatile_state_node_unbounded ops net 1).getF 1 k
          = net.getF 1 k) := by
  subst hP hX hD hPCV hNUM hXV hWC hEXC hDC hPL1 hML1 hPHI hEKP hWPHI hDPHI hPL2 hMHP
    hML2 hTHL hWT
  refine ⟨?_, ?_, ?_, ?_, ?_, ?_, ?_, ?_⟩
  · simp [posterior_update_volatile_state_node_unbounded, volatile_value_level_step,
      precision_update_value_level, mean_update_value_level, recompute_prediction_errors,
      unbounded_volatility_level_update, getF_setF, getFD_setF, edge_setF, getV_setF,
      hadj, hcc, volAdj1, couplingAt, foldEnum, foldEnumAux]
  · simp [posterior_update_volatile_state_node_unbounded, volatile_value_level_step,
      precision_update_value_level, mean_update_value_level, recompute_prediction_errors,
      unbounded_volatility_level_update, getF_setF, getFD_setF, edge_setF, getV_setF,
      hadj, hcc, volAdj1, couplingAt, foldEnum, foldEnumAux]
  · simp [posterior_update_volatile_state_node_unbounded, volatile_value_level_step,
      precision_update_value_level, mean_update_value_level, recompute_prediction_errors,
      unbounded_volatility_level_update, getF_setF, getFD_setF, edge_setF, getV_setF,
      hadj, hcc, volAdj1, couplingAt, foldEnum, foldEnumAux]
  · simp [posterior_update_volatile_state_node_unbounded, volatile_value_level_step,
      precision_update_value_level, mean_update_value_level, recompute_prediction_errors,
      unbounded_volatility_level_update, getF_setF, getFD_setF, edge_setF, getV_setF,
      hadj, hcc, volAdj1, couplingAt, foldEnum, foldEnumAux]
  · simp [posterior_update_volatile_state_node_unbounded, volatile_value_level_step,
      precision_update_value_level, mean_update_value_level, recompute_prediction_errors,
      unbounded_volatility_level_update, getF_setF, getFD_setF, edge_setF, getV_setF,
      hadj, hcc, volAdj1, couplingAt, foldEnum, foldEnumAux]
  · simp [posterior_update_volatile_state_node_unbounded, volatile_value_level_step,
      precision_update_value_level, mean_update_value_level, recompute_prediction_errors,
      unbounded_volatility_level_update, getF_setF, getFD_setF, edge_setF, getV_setF,
      hadj, hcc, volAdj1, couplingAt, foldEnum, foldEnumAux]
  · intro n k hn
    simp [posterior_update_volatile_state_node_unbounded, volatile_value_level_step,
      recompute_prediction_errors, getF_setF, edge_setF, hadj, volAdj1, hn]
  · intro k hk
    simp only [List.mem_cons, List.not_mem_nil, or_false, not_or] at hk
    obtain ⟨h1, h2, h3, h4, h5, h6⟩ := hk
    simp [posterior_update_volatile_state_node_unbounded, volatile_value_level_step,
      recompute_prediction_errors, getF_setF, edge_setF, hadj, volAdj1,
      h1, h2, h3, h4, h5, h6]
theorem poCont2Unb_eval (ops : Ops) (net : Network)
    (KV PCV NUM XV WC EXC DC PL1 ML1 PHI EKP WPHI DPHI PL2 MHP ML2 THL WT : ℚ)
    (hadj : net.edge 2 = some expAdj2)
    (hKV : couplingAt (net.getV 2 "volatility_coupling_children") 0 1 = KV)
    (hPCV : PCV = max (net.getFD 1 "current_variance" 0) tiny)
    (hNUM : NUM = 1 / net.getFD 1 "precision" 0
        + (net.getFD 1 "mean" 0 - net.getFD 1 "expected_mean" 0) ^ 2)
    (hXV : XV = KV * net.getFD 2 "expected_mean" 0 + net.getFD 1 "tonic_volatility" 0)
    (hWC : WC = sigmoidQ ops (XV - ops.log PCV))
    (hEXC : EXC = ops.exp (qclamp XV (-80) 80))
    (hDC : DC = NUM / (PCV + EXC) - 1)
    (hPL1 : PL1 = net.getFD 2 "expected_precision" 0 + 1 / 2 * KV ^ 2 * WC * (1 - WC))
    (hML1 : ML1 = net.getFD 2 "expected_mean" 0 + KV * WC / (2 * PL1) * DC)
    (hPHI : PHI = ops.log (PCV * (2 + ops.sqrt 3)))
    (hEKP : EKP = ops.exp (qclamp (KV * PHI
        + net.getFD 1 "tonic_volatility" 0) (-80) 80))
    (hWPHI : WPHI = EKP / (PCV + EKP))
    (hDPHI : DPHI = NUM / (PCV + EKP) - 1)
    (hPL2 : PL2 = net.getFD 2 "expected_precision" 0
        + 1 / 2 * KV ^ 2 * WPHI * (WPHI + (2 * WPHI - 1) * DPHI))
    (hMHP : MHP = ((2 * PL2 - 1) * PHI + net.getFD 2 "expected_mean" 0) / (2 * PL2))
    (hML2 : ML2 = MHP + KV * WPHI / (2 * PL2) * DPHI)
    (hTHL : THL = ops.sqrt (6 / 5 * NUM / (PCV * PL1)))
    (hWT : WT = bFun ops (net.getFD 2 "expected_mean" 0) THL 8 0 1) :
    ((posterior_update_continuous_state_node_unbounded ops net 2).getF 2 "precision"
        = some ((1 - WT) * PL1 + WT * PL2))
    ∧ ((posterior_update_continuous_state_node_unbounded ops net 2).getF 2 "mean"
        = some ((1 - WT) * ML1 + WT * ML2))
    ∧ (∀ n k, n ≠ 2 →
        (posterior_update_continuous_state_node_unbounded ops net 2).getF n k
          = net.getF n k)
    ∧ (∀ k, k ∉ ["precision", "mean"] →
        (posterior_update_continuous_state_node_unbounded ops net 2).getF 2 k
          = net.getF 2 k) := by
  subst hPCV hNUM hXV hWC hEXC hDC hPL1 hML1 hPHI hEKP hWPHI hDPHI hPL2 hMHP hML2
    hTHL hWT
  refine ⟨?_, ?_, ?_, ?_⟩
  · simp [posterior_update_continuous_state_node_unbounded, getF_setF, getFD_setF,
      edge_setF, getV_setF, hadj, expAdj2, hKV]
  · simp [posterior_update_continuous_state_node_unbounded, getF_setF, getFD_setF,
      edge_setF, getV_setF, hadj, expAdj2, hKV]
  · intro n k hn
    simp [posterior_update_continuous_state_node_unbounded, getF_setF, hn]
  · intro k hk
    simp only [List.mem_cons, List.not_mem_nil, or_false, not_or] at hk
    obtain ⟨h1, h2⟩ := hk
    simp [posterior_update_continuous_state_node_unbounded, getF_setF, h1, h2]
theorem getFD_congrF (net1 net2 : Network) (i j : Nat) (k k2 : String) (d : ℚ)
    (h : net1.getF i k = net2.getF j k2) : net1.getFD i k d = net2.getFD j k2 d := by
  unfold Network.getFD
  unfold Network.getF at h
  rw [h]

set_option maxHeartbeats 4000000 in
theorem midV_eval (ops : Ops) (V : Network) (o : ℚ) (hV : VShape V) :
    ((volMid ops V o).edges = V.edges)
    ∧ ((volMid ops V o).getV = V.getV)
    ∧ ((volMid ops V o).inputs = V.inputs)
    ∧ ((volMid ops V o).attributes.fnPtrs = V.attributes.fnPtrs)
    ∧ ((volMid ops V o).getF 0 "mean" = some o)
    ∧ ((volMid ops V o).getF 0 "current_variance" = some (1 / V.getFD 0 "precision" 1))
    ∧ ((volMid ops V o).getF 0 "expected_mean"
        = some (V.getFD 0 "autoconnection_strength" 0 * V.getFD 0 "mean" 0
            + (V.getFD 0 "tonic_drift" 0
              + (V.getFD 1 "autoconnection_strength" 0 * V.getFD 1 "mean" 0
                + V.getFD 1 "tonic_drift" 0))))
    ∧ ((volMid ops V o).getF 0 "effective_precision"
        = some (max (ops.exp (qclamp (V.getFD 0 "tonic_volatility" 0) (-80) 80)) tiny
            * (1 / (1 / V.getFD 0 "precision" 0
              + max (ops.exp (qclamp (V.getFD 0 "tonic_volatility" 0) (-80) 80)) tiny))))
    ∧ ((volMid ops V o).getF 0 "value_prediction_error"
        = some (o - (V.getFD 0 "autoconnection_strength" 0 * V.getFD 0 "mean" 0
            + (V.getFD 0 "tonic_drift" 0
              + (V.getFD 1 "autoconnection_strength" 0 * V.getFD 1 "mean" 0
                + V.getFD 1 "tonic_drift" 0)))))
    ∧ ((volMid ops V o).getF 0 "volatility_prediction_error"
        = some (V.getFD 0 "expected_precision" 0 / V.getFD 0 "precision" 0
            + V.getFD 0 "expected_precision" 0
              * (o - (V.getFD 0 "autoconnection_strength" 0 * V.getFD 0 "mean" 0
                + (V.getFD 0 "tonic_drift" 0
                  + (V.getFD 1 "autoconnection_strength" 0 * V.getFD 1 "mean" 0
                    + V.getFD 1 "tonic_drift" 0)))) ^ 2 - 1))
    ∧ (∀ k, k ∉ ["mean", "current_variance", "expected_mean", "effective_precision",
          "value_prediction_error", "volatility_prediction_error"] →
        (volMid ops V o).getF 0 k = V.getF 0 k)
    ∧ ((volMid ops V o).getF 1 "current_variance" = some (1 / V.getFD 1 "precision" 0))
    ∧ ((volMid ops V o).getF 1 "expected_mean_vol"
        = some (V.getFD 1 "autoconnection_strength_vol" 0 * V.getFD 1 "mean_vol" 0
            + V.getFD 1 "tonic_drift_vol" 0))
    ∧ ((volMid ops V o).getF 1 "expected_precision_vol"
        = some (1 / (1 / V.getFD 1 "precision_vol" 0
            + max (ops.exp (qclamp (V.getFD 1 "tonic_volatility_vol" 0) (-80) 80)) tiny)))
    ∧ ((volMid ops V o).getF 1 "effective_precision_vol"
        = some (max (ops.exp (qclamp (V.getFD 1 "tonic_volatility_vol" 0) (-80) 80)) tiny
            * (1 / (1 / V.getFD 1 "precision_vol" 0
              + max (ops.exp (qclamp (V.getFD 1 "tonic_volatility_vol" 0) (-80) 80))
                tiny))))
    ∧ ((volMid ops V o).getF 1 "expected_mean"
        = some (V.getFD 1 "autoconnection_strength" 0 * V.getFD 1 "mean" 0
            + V.getFD 1 "tonic_drift" 0))
    ∧ ((volMid ops V o).getF 1 "expected_precision"
        = some (1 / (1 / V.getFD 1 "precision" 0
            + max (ops.exp (qclamp (V.getFD 1 "tonic_volatility" 0
                + V.getFD 1 "volatility_coupling_internal" 0
                  * (V.getFD 1 "autoconnection_strength_vol" 0 * V.getFD 1 "mean_vol" 0
                    + V.getFD 1 "tonic_drift_vol" 0)) (-80) 80)) tiny)))
    ∧ ((volMid ops V o).getF 1 "effective_precision"
        = some (max (ops.exp (qclamp (V.getFD 1 "tonic_volatility" 0
                + V.getFD 1 "volatility_coupling_internal" 0
                  * (V.getFD 1 "autoconnection_strength_vol" 0 * V.getFD 1 "mean_vol" 0
                    + V.getFD 1 "tonic_drift_vol" 0)) (-80) 80)) tiny
            * (1 / (1 / V.getFD 1 "precision" 0
              + max (ops.exp (qclamp (V.getFD 1 "tonic_volatility" 0
                + V.getFD 1 "volatility_coupling_internal" 0
                  * (V.getFD 1 "autoconnection_strength_vol" 0 * V.getFD 1 "mean_vol" 0
                    + V.getFD 1 "tonic_drift_vol" 0)) (-80) 80)) tiny))))
    ∧ (∀ k, k ∉ ["current_variance", "expected_mean_vol", "expected_precision_vol",
          "effective_precision_vol", "expected_mean", "expected_precision",
          "effective_precision"] →
        (volMid ops V o).getF 1 k = V.getF 1 k)
    ∧ (∀ n k, n ≠ 0 → n ≠ 1 → (volMid ops V o).getF n k = V.getF n k) := by
  obtain ⟨m, hm⟩ := Option.isSome_iff_exists.mp hV.m0
  have he0 := hV.e0
  have he1 := hV.e1
  have hcp := hV.cp0
  refine ⟨?_, ?_, ?_, ?_, ?_, ?_, ?_, ?_, ?_, ?_, ?_, ?_, ?_, ?_, ?_, ?_, ?_, ?_, ?_, ?_⟩
  · simp [volMid, applySeq, applyFn, volPreds, prediction_volatile_state_node,
      prediction_continuous_state_node, observation_update,
      prediction_error_continuous_state_node,
      getF_setF, getFD_setF, edge_setF, getV_setF, edges_setF, inputs_setF,
      fnPtrs_setF, he0, he1, hcp, hm,
      volAdj0, volAdj1, couplingAt, foldEnum, foldEnumAux]
  · simp [volMid, applySeq, applyFn, volPreds, prediction_volatile_state_node,
      prediction_continuous_state_node, observation_update,
      prediction_error_continuous_state_node,
      getF_setF, getFD_setF, edge_setF, getV_setF, edges_setF, inputs_setF,
      fnPtrs_setF, he0, he1, hcp, hm,
      volAdj0, volAdj1, couplingAt, foldEnum, foldEnumAux]
  · simp [volMid, applySeq, applyFn, volPreds, prediction_volatile_state_node,
      prediction_continuous_state_node, observation_update,
      prediction_error_continuous_state_node,
      getF_setF, getFD_setF, edge_setF, getV_setF, edges_setF, inputs_setF,
      fnPtrs_setF, he0, he1, hcp, hm,
      volAdj0, volAdj1, couplingAt, foldEnum, foldEnumAux]
  · simp [volMid, applySeq, applyFn, volPreds, prediction_volatile_state_node,
      prediction_continuous_state_node, observation_update,
      prediction_error_continuous_state_node,
      getF_setF, getFD_setF, edge_setF, getV_setF, edges_setF, inputs_setF,
      fnPtrs_setF, he0, he1, hcp, hm,
      volAdj0, volAdj1, couplingAt, foldEnum, foldEnumAux]
  · simp [volMid, applySeq, applyFn, volPreds, prediction_volatile_state_node,
      prediction_continuous_state_node, observation_update,
      prediction_error_continuous_state_node,
      getF_setF, getFD_setF, edge_setF, getV_setF, edges_setF, inputs_setF,
      fnPtrs_setF, he0, he1, hcp, hm,
      volAdj0, volAdj1, couplingAt, foldEnum, foldEnumAux]
  · simp [volMid, applySeq, applyFn, volPreds, prediction_volatile_state_node,
      prediction_continuous_state_node, observation_update,
      prediction_error_continuous_state_node,
      getF_setF, getFD_setF, edge_setF, getV_setF, edges_setF, inputs_setF,
      fnPtrs_setF, he0, he1, hcp, hm,
      volAdj0, volAdj1, couplingAt, foldEnum, foldEnumAux]
  · simp [volMid, applySeq, applyFn, volPreds, prediction_volatile_state_node,
      prediction_continuous_state_node, observation_update,
      prediction_error_continuous_state_node,
      getF_setF, getFD_setF, edge_setF, getV_setF, edges_setF, inputs_setF,
      fnPtrs_setF, he0, he1, hcp, hm,
      volAdj0, volAdj1, couplingAt, foldEnum, foldEnumAux]
  · simp [volMid, applySeq, applyFn, volPreds, prediction_volatile_state_node,
      prediction_continuous_state_node, observation_update,
      prediction_error_continuous_state_node,
      getF_setF, getFD_setF, edge_setF, getV_setF, edges_setF, inputs_setF,
      fnPtrs_setF, he0, he1, hcp, hm,
      volAdj0, volAdj1, couplingAt, foldEnum, foldEnumAux]
  · simp [volMid, applySeq, applyFn, volPreds, prediction_volatile_state_node,
      prediction_continuous_state_node, observation_update,
      prediction_error_continuous_state_node,
      getF_setF, getFD_setF, edge_setF, getV_setF, edges_setF, inputs_setF,
      fnPtrs_setF, he0, he1, hcp, hm,
      volAdj0, volAdj1, couplingAt, foldEnum, foldEnumAux]
  · simp [volMid, applySeq, applyFn, volPreds, prediction_volatile_state_node,
      prediction_continuous_state_node, observation_update,
      prediction_error_continuous_state_node,
      getF_setF, getFD_setF, edge_setF, getV_setF, edges_setF, inputs_setF,
      fnPtrs_setF, he0, he1, hcp, hm,
      volAdj0, volAdj1, couplingAt, foldEnum, foldEnumAux]
  · intro k hk
    simp only [List.mem_cons, List.not_mem_nil, or_false, not_or] at hk
    obtain ⟨g1, g2, g3, g4, g5, g6⟩ := hk
    simp [volMid, applySeq, applyFn, volPreds, prediction_volatile_state_node,
      prediction_continuous_state_node, observation_update,
      prediction_error_continuous_state_node,
      getF_setF, getFD_setF, edge_setF, getV_setF, edges_setF, inputs_setF,
      fnPtrs_setF, he0, he1, hcp, hm,
      volAdj0, volAdj1, couplingAt, foldEnum, foldEnumAux, g1, g2, g3, g4, g5, g6]
  · simp [volMid, applySeq, applyFn, volPreds, prediction_volatile_state_node,
      prediction_continuous_state_node, observation_update,
      prediction_error_continuous_state_node,
      getF_setF, getFD_setF, edge_setF, getV_setF, edges_setF, inputs_setF,
      fnPtrs_setF, he0, he1, hcp, hm,
      volAdj0, volAdj1, couplingAt, foldEnum, foldEnumAux]
  · simp [volMid, applySeq, applyFn, volPreds, prediction_volatile_state_node,
      prediction_continuous_state_node, observation_update,
      prediction_error_continuous_state_node,
      getF_setF, getFD_setF, edge_setF, getV_setF, edges_setF, inputs_setF,
      fnPtrs_setF, he0, he1, hcp, hm,
      volAdj0, volAdj1, couplingAt, foldEnum, foldEnumAux]
  · simp [volMid, applySeq, applyFn, volPreds, prediction_volatile_state_node,
      prediction_continuous_state_node, observation_update,
      prediction_error_continuous_state_node,
      getF_setF, getFD_setF, edge_setF, getV_setF, edges_setF, inputs_setF,
      fnPtrs_setF, he0, he1, hcp, hm,
      volAdj0, volAdj1, couplingAt, foldEnum, foldEnumAux]
  · simp [volMid, applySeq, applyFn, volPreds, prediction_volatile_state_node,
      prediction_continuous_state_node, observation_update,
      prediction_error_continuous_state_node,
      getF_setF, getFD_setF, edge_setF, getV_setF, edges_setF, inputs_setF,
      fnPtrs_setF, he0, he1, hcp, hm,
      volAdj0, volAdj1, couplingAt, foldEnum, foldEnumAux]
  · simp [volMid, applySeq, applyFn, volPreds, prediction_volatile_state_node,
      prediction_continuous_state_node, observation_update,
      prediction_error_continuous_state_node,
      getF_setF, getFD_setF, edge_setF, getV_setF, edges_setF, inputs_setF,
      fnPtrs_setF, he0, he1, hcp, hm,
      volAdj0, volAdj1, couplingAt, foldEnum, foldEnumAux]
  · simp [volMid, applySeq, applyFn, volPreds, prediction_volatile_state_node,
      prediction_continuous_state_node, observation_update,
      prediction_error_continuous_state_node,
      getF_setF, getFD_setF, edge_setF, getV_setF, edges_setF, inputs_setF,
      fnPtrs_setF, he0, he1, hcp, hm,
      volAdj0, volAdj1, couplingAt, foldEnum, foldEnumAux]
  · simp [volMid, applySeq, applyFn, volPreds, prediction_volatile_state_node,
      prediction_continuous_state_node, observation_update,
      prediction_error_continuous_state_node,
      getF_setF, getFD_setF, edge_setF, getV_setF, edges_setF, inputs_setF,
      fnPtrs_setF, he0, he1, hcp, hm,
      volAdj0, volAdj1, couplingAt, foldEnum, foldEnumAux]
  · intro k hk
    simp only [List.mem_cons, List.not_mem_nil, or_false, not_or] at hk
    obtain ⟨g1, g2, g3, g4, g5, g6, g7⟩ := hk
    simp [volMid, applySeq, applyFn, volPreds, prediction_volatile_state_node,
      prediction_continuous_state_node, observation_update,
      prediction_error_continuous_state_node,
      getF_setF, getFD_setF, edge_setF, getV_setF, edges_setF, inputs_setF,
      fnPtrs_setF, he0, he1, hcp, hm,
      volAdj0, volAdj1, couplingAt, foldEnum, foldEnumAux, g1, g2, g3, g4, g5, g6, g7]
  · intro n k hn0 hn1
    simp [volMid, applySeq, applyFn, volPreds, prediction_volatile_state_node,
      prediction_continuous_state_node, observation_update,
      prediction_error_continuous_state_node,
      getF_setF, getFD_setF, edge_setF, getV_setF, edges_setF, inputs_setF,
      fnPtrs_setF, he0, he1, hcp, hm,
      volAdj0, volAdj1, couplingAt, foldEnum, foldEnumAux, hn0, hn1]
set_option maxHeartbeats 4000000 in
theorem midE_eval (ops : Ops) (E : Network) (o : ℚ) (hE : EShape E) :
    ((expMid ops E o).edges = E.edges)
    ∧ ((expMid ops E o).getV = E.getV)
    ∧ ((expMid ops E o).inputs = E.inputs)
    ∧ ((expMid ops E o).attributes.fnPtrs = E.attributes.fnPtrs)
    ∧ ((expMid ops E o).getF 0 "mean" = some o)
    ∧ ((expMid ops E o).getF 0 "current_variance" = some (1 / E.getFD 0 "precision" 1))
    ∧ ((expMid ops E o).getF 0 "expected_mean"
        = some (E.getFD 0 "autoconnection_strength" 0 * E.getFD 0 "mean" 0
            + (E.getFD 0 "tonic_drift" 0
              + (E.getFD 1 "autoconnection_strength" 0 * E.getFD 1 "mean" 0
                + E.getFD 1 "tonic_drift" 0))))
    ∧ ((expMid ops E o).getF 0 "effective_precision"
        = some (max (ops.exp (qclamp (E.getFD 0 "tonic_volatility" 0) (-80) 80)) tiny
            * (1 / (1 / E.getFD 0 "precision" 0
              + max (ops.exp (qclamp (E.getFD 0 "tonic_volatility" 0) (-80) 80)) tiny))))
    ∧ ((expMid ops E o).getF 0 "value_prediction_error"
        = some (o - (E.getFD 0 "autoconnection_strength" 0 * E.getFD 0 "mean" 0
            + (E.getFD 0 "tonic_drift" 0
              + (E.getFD 1 "autoconnection_strength" 0 * E.getFD 1 "mean" 0
                + E.getFD 1 "tonic_drift" 0)))))
    ∧ ((expMid ops E o).getF 0 "volatility_prediction_error"
        = some (E.getFD 0 "expected_precision" 0 / E.getFD 0 "precision" 0
            + E.getFD 0 "expected_precision" 0
              * (o - (E.getFD 0 "autoconnection_strength" 0 * E.getFD 0 "mean" 0
                + (E.getFD 0 "tonic_drift" 0
                  + (E.getFD 1 "autoconnection_strength" 0 * E.getFD 1 "mean" 0
                    + E.getFD 1 "tonic_drift" 0)))) ^ 2 - 1))
    ∧ (∀ k, k ∉ ["mean", "current_variance", "expected_mean", "effective_precision",
          "value_prediction_error", "volatility_prediction_error"] →
        (expMid ops E o).getF 0 k = E.getF 0 k)
    ∧ ((expMid ops E o).getF 1 "expected_precision"
        = some (1 / (1 / E.getFD 1 "precision" 0
            + max (ops.exp (qclamp (E.getFD 1 "tonic_volatility" 0
                + E.getFD 2 "mean" 0) (-80) 80)) tiny)))
    ∧ ((expMid ops E o).getF 1 "current_variance" = some (1 / E.getFD 1 "precision" 1))
    ∧ ((expMid ops E o).getF 1 "expected_mean"
        = some (E.getFD 1 "autoconnection_strength" 0 * E.getFD 1 "mean" 0
            + E.getFD 1 "tonic_drift" 0))
    ∧ ((expMid ops E o).getF 1 "effective_precision"
        = some (max (ops.exp (qclamp (E.getFD 1 "tonic_volatility" 0
                + E.getFD 2 "mean" 0) (-80) 80)) tiny
            * (1 / (1 / E.getFD 1 "precision" 0
              + max (ops.exp (qclamp (E.getFD 1 "tonic_volatility" 0
                + E.getFD 2 "mean" 0) (-80) 80)) tiny))))
    ∧ (∀ k, k ∉ ["expected_precision", "current_variance", "expected_mean",
          "effective_precision"] →
        (expMid ops E o).getF 1 k = E.getF 1 k)
    ∧ ((expMid ops E o).getF 2 "expected_precision"
        = some (1 / (1 / E.getFD 2 "precision" 0
            + max (ops.exp (qclamp (E.getFD 2 "tonic_volatility" 0) (-80) 80)) tiny)))
    ∧ ((expMid ops E o).getF 2 "current_variance" = some (1 / E.getFD 2 "precision" 1))
    ∧ ((expMid ops E o).getF 2 "expected_mean"
        = some (E.getFD 2 "autoconnection_strength" 0 * E.getFD 2 "mean" 0
            + E.getFD 2 "tonic_drift" 0))
    ∧ ((expMid ops E o).getF 2 "effective_precision"
        = some (max (ops.exp (qclamp (E.getFD 2 "tonic_volatility" 0) (-80) 80)) tiny
            * (1 / (1 / E.getFD 2 "precision" 0
              + max (ops.exp (qclamp (E.getFD 2 "tonic_volatility" 0) (-80) 80)) tiny))))
    ∧ (∀ k, k ∉ ["expected_precision", "current_variance", "expected_mean",
          "effective_precision"] →
        (expMid ops E o).getF 2 k = E.getF 2 k)
    ∧ (∀ n k, n ≠ 0 → n ≠ 1 → n ≠ 2 → (expMid ops E o).getF n k = E.getF n k) := by
  obtain ⟨m, hm⟩ := Option.isSome_iff_exists.mp hE.m0
  have he0 := hE.e0
  have he1 := hE.e1
  have he2 := hE.e2
  have hcp := hE.cp0
  have hvp := hE.vp1
  refine ⟨?_, ?_, ?_, ?_, ?_, ?_, ?_, ?_, ?_, ?_, ?_, ?_, ?_, ?_, ?_, ?_, ?_, ?_, ?_,
    ?_, ?_, ?_⟩
  case refine_11 =>
    intro k hk
    simp only [List.mem_cons, List.not_mem_nil, or_false, not_or] at hk
    obtain ⟨g1, g2, g3, g4, g5, g6⟩ := hk
    simp [expMid, applySeq, applyFn, expPreds, prediction_continuous_state_node,
      observation_update, prediction_error_continuous_state_node,
      getF_setF, getFD_setF, edge_setF, getV_setF, edges_setF, inputs_setF,
      fnPtrs_setF, he0, he1, he2, hcp, hvp, hm,
      volAdj0, expAdj1, expAdj2, couplingAt, foldEnum, foldEnumAux,
      g1, g2, g3, g4, g5, g6]
  case refine_16 =>
    intro k hk
    simp only [List.mem_cons, List.not_mem_nil, or_false, not_or] at hk
    obtain ⟨g1, g2, g3, g4⟩ := hk
    simp [expMid, applySeq, applyFn, expPreds, prediction_continuous_state_node,
      observation_update, prediction_error_continuous_state_node,
      getF_setF, getFD_setF, edge_setF, getV_setF, edges_setF, inputs_setF,
      fnPtrs_setF, he0, he1, he2, hcp, hvp, hm,
      volAdj0, expAdj1, expAdj2, couplingAt, foldEnum, foldEnumAux, g1, g2, g3, g4]
  case refine_21 =>
    intro k hk
    simp only [List.mem_cons, List.not_mem_nil, or_false, not_or] at hk
    obtain ⟨g1, g2, g3, g4⟩ := hk
    simp [expMid, applySeq, applyFn, expPreds, prediction_continuous_state_node,
      observation_update, prediction_error_continuous_state_node,
      getF_setF, getFD_setF, edge_setF, getV_setF, edges_setF, inputs_setF,
      fnPtrs_setF, he0, he1, he2, hcp, hvp, hm,
      volAdj0, expAdj1, expAdj2, couplingAt, foldEnum, foldEnumAux, g1, g2, g3, g4]
  case refine_22 =>
    intro n k hn0 hn1 hn2
    simp [expMid, applySeq, applyFn, expPreds, prediction_continuous_state_node,
      observation_update, prediction_error_continuous_state_node,
      getF_setF, getFD_setF, edge_setF, getV_setF, edges_setF, inputs_setF,
      fnPtrs_setF, he0, he1, he2, hcp, hvp, hm,
      volAdj0, expAdj1, expAdj2, couplingAt, foldEnum, foldEnumAux, hn0, hn1, hn2]
  all_goals
    simp [expMid, applySeq, applyFn, expPreds, prediction_continuous_state_node,
      observation_update, prediction_error_continuous_state_node,
      getF_setF, getFD_setF, edge_setF, getV_setF, edges_setF, inputs_setF,
      fnPtrs_setF, he0, he1, he2, hcp, hvp, hm,
      volAdj0, expAdj1, expAdj2, couplingAt, foldEnum, foldEnumAux]
theorem edge_congr (net1 net2 : Network) (h : net1.edges = net2.edges) :
    net1.edge = net2.edge := by
  funext i
  unfold Network.edge
  rw [h]

theorem mid_corr (ops : Ops) (V E : Network) (o : ℚ)
    (hV : VShape V) (hE : EShape E) (hc : VolCorr V E) :
    VShape (volMid ops V o) ∧ EShape (expMid ops E o)
    ∧ VolCorr (volMid ops V o) (expMid ops E o) := by
  obtain ⟨aE, aV, aI, aF, am0, acv0, aem0, aeff0, avpe0, awpe0, akeep0, acv1, aemv,
    aepv, aeffv, aem1, aep1, aeff1, akeep1, agen⟩ := midV_eval ops V o hV
  obtain ⟨bE, bV, bI, bF, bm0, bcv0, bem0, beff0, bvpe0, bwpe0, bkeep0, bep1, bcv1,
    bem1, beff1, bkeep1, bep2, bcv2, bem2, beff2, bkeep2, bgen⟩ := midE_eval ops E o hE
  obtain ⟨p1, hp1⟩ := Option.isSome_iff_exists.mp hc.prec1some
  have hp1E : E.getF 1 "precision" = some p1 := by rw [← hc.prec1]; exact hp1
  refine ⟨?_, ?_, ?_⟩
  · exact
      { e0 := by rw [edge_congr _ _ aE]; exact hV.e0
        e1 := by rw [edge_congr _ _ aE]; exact hV.e1
        cp0 := by rw [aV]; exact hV.cp0
        cc1 := by rw [aV]; exact hV.cc1
        inp := by rw [aI]; exact hV.inp
        m0 := by rw [am0]; rfl }
  · exact
      { e0 := by rw [edge_congr _ _ bE]; exact hE.e0
        e1 := by rw [edge_congr _ _ bE]; exact hE.e1
        e2 := by rw [edge_congr _ _ bE]; exact hE.e2
        cp0 := by rw [bV]; exact hE.cp0
        cc1 := by rw [bV]; exact hE.cc1
        vp1 := by rw [bV]; exact hE.vp1
        vc2 := by rw [bV]; exact hE.vc2
        fn0 := by rw [bF]; exact hE.fn0
        inp := by rw [bI]; exact hE.inp
        m0 := by rw [bm0]; rfl }
  · refine
      { node0 := ?_, prec1some := ?_, mean1 := ?_, emean1 := ?_, prec1 := ?_,
        eprec1 := ?_, tvol1 := ?_, tdrift1 := ?_, auto1 := ?_, cvar1 := ?_,
        effp1 := ?_, vpe1 := ?_, wpe1 := ?_, mean2 := ?_, emean2 := ?_, prec2 := ?_,
        eprec2 := ?_, tvol2 := ?_, effp2 := ?_, vci := ?_, obs1 := ?_, autoVol := ?_,
        driftVol := ?_, auto2 := ?_, drift2 := ?_ }
    · intro k
      by_cases h1 : k = "mean"
      · subst h1; rw [am0, bm0]
      by_cases h2 : k = "current_variance"
      · subst h2
        rw [acv0, bcv0, getFD_congrF V E 0 0 "precision" "precision" 1 (hc.node0 _)]
      by_cases h3 : k = "expected_mean"
      · subst h3
        rw [aem0, bem0, getFD_congrF V E 0 0 "autoconnection_strength"
            "autoconnection_strength" 0 (hc.node0 _),
          getFD_congrF V E 0 0 "mean" "mean" 0 (hc.node0 _),
          getFD_congrF V E 0 0 "tonic_drift" "tonic_drift" 0 (hc.node0 _),
          getFD_congrF V E 1 1 "autoconnection_strength" "autoconnection_strength" 0
            hc.auto1,
          getFD_congrF V E 1 1 "mean" "mean" 0 hc.mean1,
          getFD_congrF V E 1 1 "tonic_drift" "tonic_drift" 0 hc.tdrift1]
      by_cases h4 : k = "effective_precision"
      · subst h4
        rw [aeff0, beff0, getFD_congrF V E 0 0 "tonic_volatility" "tonic_volatility" 0
            (hc.node0 _),
          getFD_congrF V E 0 0 "precision" "precision" 0 (hc.node0 _)]
      by_cases h5 : k = "value_prediction_error"
      · subst h5
        rw [avpe0, bvpe0, getFD_congrF V E 0 0 "autoconnection_strength"
            "autoconnection_strength" 0 (hc.node0 _),
          getFD_congrF V E 0 0 "mean" "mean" 0 (hc.node0 _),
          getFD_congrF V E 0 0 "tonic_drift" "tonic_drift" 0 (hc.node0 _),
          getFD_congrF V E 1 1 "autoconnection_strength" "autoconnection_strength" 0
            hc.auto1,
          getFD_congrF V E 1 1 "mean" "mean" 0 hc.mean1,
          getFD_congrF V E 1 1 "tonic_drift" "tonic_drift" 0 hc.tdrift1]
      by_cases h6 : k = "volatility_prediction_error"
      · subst h6
        rw [awpe0, bwpe0, getFD_congrF V E 0 0 "expected_precision" "expected_precision"
            0 (hc.node0 _),
          getFD_congrF V E 0 0 "precision" "precision" 0 (hc.node0 _),
          getFD_congrF V E 0 0 "autoconnection_strength" "autoconnection_strength" 0
            (hc.node0 _),
          getFD_congrF V E 0 0 "mean" "mean" 0 (hc.node0 _),
          getFD_congrF V E 0 0 "tonic_drift" "tonic_drift" 0 (hc.node0 _),
          getFD_congrF V E 1 1 "autoconnection_strength" "autoconnection_strength" 0
            hc.auto1,
          getFD_congrF V E 1 1 "mean" "mean" 0 hc.mean1,
          getFD_congrF V E 1 1 "tonic_drift" "tonic_drift" 0 hc.tdrift1]
      · rw [akeep0 k (by simp [h1, h2, h3, h4, h5, h6]),
          bkeep0 k (by simp [h1, h2, h3, h4, h5, h6])]
        exact hc.node0 k
    · rw [akeep1 "precision" (by decide)]
      exact hc.prec1some
    · rw [akeep1 "mean" (by decide), bkeep1 "mean" (by decide)]
      exact hc.mean1
    · rw [aem1, bem1, getFD_congrF V E 1 1 "autoconnection_strength"
          "autoconnection_strength" 0 hc.auto1,
        getFD_congrF V E 1 1 "mean" "mean" 0 hc.mean1,
        getFD_congrF V E 1 1 "tonic_drift" "tonic_drift" 0 hc.tdrift1]
    · rw [akeep1 "precision" (by decide), bkeep1 "precision" (by decide)]
      exact hc.prec1
    · rw [aep1, bep1, getFD_congrF V E 1 1 "precision" "precision" 0 hc.prec1,
        getFD_congrF V E 1 1 "tonic_volatility" "tonic_volatility" 0 hc.tvol1,
        getFD_eq V 1 "volatility_coupling_internal" 0 1 hc.vci,
        getFD_eq V 1 "autoconnection_strength_vol" 0 1 hc.autoVol,
        getFD_eq V 1 "tonic_drift_vol" 0 0 hc.driftVol,
        getFD_congrF V E 1 2 "mean_vol" "mean" 0 hc.mean2]
      simp
    · rw [akeep1 "tonic_volatility" (by decide), bkeep1 "tonic_volatility" (by decide)]
      exact hc.tvol1
    · rw [akeep1 "tonic_drift" (by decide), bkeep1 "tonic_drift" (by decide)]
      exact hc.tdrift1
    · rw [akeep1 "autoconnection_strength" (by decide),
        bkeep1 "autoconnection_strength" (by decide)]
      exact hc.auto1
    · rw [acv1, bcv1, getFD_eq V 1 "precision" 0 p1 hp1,
        getFD_eq E 1 "precision" 1 p1 hp1E]
    · rw [aeff1, beff1]
      rw [getFD_congrF V E 1 1 "precision" "precision" 0 hc.prec1,
        getFD_congrF V E 1 1 "tonic_volatility" "tonic_volatility" 0 hc.tvol1,
        getFD_eq V 1 "volatility_coupling_internal" 0 1 hc.vci,
        getFD_eq V 1 "autoconnection_strength_vol" 0 1 hc.autoVol,
        getFD_eq V 1 "tonic_drift_vol" 0 0 hc.driftVol,
        getFD_congrF V E 1 2 "mean_vol" "mean" 0 hc.mean2]
      simp
    · rw [akeep1 "value_prediction_error" (by decide),
        bkeep1 "value_prediction_error" (by decide)]
      exact hc.vpe1
    · rw [akeep1 "volatility_prediction_error" (by decide),
        bkeep1 "volatility_prediction_error" (by decide)]
      exact hc.wpe1
    · rw [akeep1 "mean_vol" (by decide), bkeep2 "mean" (by decide)]
      exact hc.mean2
    · rw [aemv, bem2, getFD_eq V 1 "autoconnection_strength_vol" 0 1 hc.autoVol,
        getFD_eq V 1 "tonic_drift_vol" 0 0 hc.driftVol,
        getFD_congrF V E 1 2 "mean_vol" "mean" 0 hc.mean2,
        getFD_eq E 2 "autoconnection_strength" 0 1 hc.auto2,
        getFD_eq E 2 "tonic_drift" 0 0 hc.drift2]
    · rw [akeep1 "precision_vol" (by decide), bkeep2 "precision" (by decide)]
      exact hc.prec2
    · rw [aepv, bep2, getFD_congrF V E 1 2 "precision_vol" "precision" 0 hc.prec2,
        getFD_congrF V E 1 2 "tonic_volatility_vol" "tonic_volatility" 0 hc.tvol2]
    · rw [akeep1 "tonic_volatility_vol" (by decide),
        bkeep2 "tonic_volatility" (by decide)]
      exact hc.tvol2
    · rw [aeffv, beff2, getFD_congrF V E 1 2 "precision_vol" "precision" 0 hc.prec2,
        getFD_congrF V E 1 2 "tonic_volatility_vol" "tonic_volatility" 0 hc.tvol2]
    · rw [akeep1 "volatility_coupling_internal" (by decide)]
      exact hc.vci
    · rw [akeep1 "observed" (by decide)]
      exact hc.obs1
    · rw [akeep1 "autoconnection_strength_vol" (by decide)]
      exact hc.autoVol
    · rw [akeep1 "tonic_drift_vol" (by decide)]
      exact hc.driftVol
    · rw [bkeep2 "autoconnection_strength" (by decide)]
      exact hc.auto2
    · rw [bkeep2 "tonic_drift" (by decide)]
      exact hc.drift2
theorem applySeq_volPreds_inputs (ops : Ops) (V : Network) :
    (applySeq ops V volPreds 1).inputs = V.inputs := by
  simp only [volPreds, applySeq, List.foldl, applyFn]
  rw [(predCont_frame ops (prediction_volatile_state_node ops V 1 1) 0 1).2.2.1]
  rfl

theorem applySeq_expPreds_inputs (ops : Ops) (E : Network) :
    (applySeq ops E expPreds 1).inputs = E.inputs := by
  simp only [expPreds, applySeq, List.foldl, applyFn]
  rw [(predCont_frame ops _ 0 1).2.2.1, (predCont_frame ops _ 1 1).2.2.1,
    (predCont_frame ops E 2 1).2.2.1]

theorem volStep_eq (ops : Ops) (tag : FnTag) (V : Network) (o : ℚ)
    (hin : V.inputs = [0]) :
    volStep ops tag V o = applyFn ops tag (volMid ops V o) 1 1 := by
  unfold volStep belief_propagation volMid
  have h : (applySeq ops V volPreds 1).inputs = [0] := by
    rw [applySeq_volPreds_inputs]
    exact hin
  simp only [volUpds, List.enum, List.enumFrom, List.foldl]
  rw [h]
  rfl

theorem expStep_eq (ops : Ops) (tagE : FnTag) (E : Network) (o : ℚ)
    (hin : E.inputs = [0]) :
    expStep ops tagE E o = applyFn ops tagE
      (prediction_error_continuous_state_node
        (posterior_update_continuous_state_node (expMid ops E o) 1) 1) 2 1 := by
  unfold expStep belief_propagation expMid
  have h : (applySeq ops E expPreds 1).inputs = [0] := by
    rw [applySeq_expPreds_inputs]
    exact hin
  simp only [expUpds, List.enum, List.enumFrom, List.foldl]
  rw [h]
  rfl

theorem puvl_eval (net : Network) (hadj : net.edge 1 = some volAdj1)
    (hcc : net.getV 1 "value_coupling_children" = some [1]) :
    precision_update_value_level net 1
      = net.getFD 1 "expected_precision" 0 + net.getFD 0 "expected_precision" 0 := by
  simp [precision_update_value_level, hadj, hcc, volAdj1, couplingAt, foldEnum,
    foldEnumAux]

theorem pvl_vvls_eval (net : Network) (P X D : ℚ)
    (hadj : net.edge 1 = some volAdj1)
    (hcc : net.getV 1 "value_coupling_children" = some [1])
    (hP : P = net.getFD 1 "expected_precision" 0 + net.getFD 0 "expected_precision" 0)
    (hX : X = net.getFD 0 "expected_precision" 0 / P
        * net.getFD 0 "value_prediction_error" 0)
    (hD : D = net.getFD 1 "expected_precision" 0 / P
        + net.getFD 1 "expected_precision" 0 * X ^ 2 - 1) :
    precision_update_volatility_level (volatile_value_level_step net 1) 1
      = net.getFD 1 "expected_precision_vol" 0
        + 1 / 2 * (net.getFD 1 "volatility_coupling_internal" 0
            * net.getFD 1 "effective_precision" 0) ^ 2
        + (net.getFD 1 "volatility_coupling_internal" 0
            * net.getFD 1 "effective_precision" 0) ^ 2 * D
        - 1 / 2 * net.getFD 1 "volatility_coupling_internal" 0 ^ 2
            * net.getFD 1 "effective_precision" 0 * D := by
  subst hP hX hD
  simp [volatile_value_level_step, precision_update_value_level, mean_update_value_level,
    recompute_prediction_errors, precision_update_volatility_level,
    getF_setF, getFD_setF, edge_setF, getV_setF, hadj, hcc, volAdj1, couplingAt,
    foldEnum, foldEnumAux]
set_option maxHeartbeats 2000000 in
theorem step_corr_std (ops : Ops) (V E : Network) (o : ℚ)
    (hV : VShape V) (hE : EShape E) (hc : VolCorr V E)
    (h1 : tiny ≤ precision_update_value_level (volMid ops V o) 1)
    (h2 : tiny ≤ precision_update_volatility_level
        (volatile_value_level_step (volMid ops V o) 1) 1) :
    VShape (volStep ops .poVolatile V o) ∧ EShape (expStep ops .poContinuous E o)
    ∧ VolCorr (volStep ops .poVolatile V o) (expStep ops .poContinuous E o) := by
  obtain ⟨hVm, hEm, hm⟩ := mid_corr ops V E o hV hE hc
  rw [volStep_eq ops .poVolatile V o hV.inp, expStep_eq ops .poContinuous E o hE.inp]
  simp only [applyFn]
  set M := volMid ops V o with hMdef
  set N := expMid ops E o with hNdef
  -- posterior evaluations
  obtain ⟨vp, vm, vv, vw, vpv, vmv, vo, vk⟩ :=
    poVolStd_eval M _ _ _ _ hVm.e1 hVm.cc1 rfl rfl rfl rfl
  obtain ⟨ep1, em1, eo1, ek1⟩ :=
    poCont1_eval N _ hEm.e1 hEm.e0 hEm.cc1 hEm.fn0 rfl
  have hN1e1 : (posterior_update_continuous_state_node N 1).edge 1 = some expAdj1 :=
    hEm.e1
  obtain ⟨f1, f2, f3, f4⟩ := pe1_eval (posterior_update_continuous_state_node N 1) hN1e1
  have hN2e2 : (prediction_error_continuous_state_node
      (posterior_update_continuous_state_node N 1) 1).edge 2 = some expAdj2 := hEm.e2
  have hKV : couplingAt ((prediction_error_continuous_state_node
      (posterior_update_continuous_state_node N 1) 1).getV 2
        "volatility_coupling_children") 0 1 = 1 := by
    have hv2 : (prediction_error_continuous_state_node
        (posterior_update_continuous_state_node N 1) 1).getV 2
          "volatility_coupling_children" = some [1] := hEm.vc2
    rw [hv2]
    rfl
  obtain ⟨g1, g2, g3, g4⟩ := poCont2Std_eval (prediction_error_continuous_state_node
    (posterior_update_continuous_state_node N 1) 1) 1 _ _ _ hN2e2 hKV rfl rfl rfl
  -- read equalities between the two mid states
  have q_ep1 : M.getFD 1 "expected_precision" 0 = N.getFD 1 "expected_precision" 0 :=
    getFD_congrF M N 1 1 _ _ 0 hm.eprec1
  have q_ep0 : M.getFD 0 "expected_precision" 0 = N.getFD 0 "expected_precision" 0 :=
    getFD_congrF M N 0 0 _ _ 0 (hm.node0 _)
  have q_vpe0 : M.getFD 0 "value_prediction_error" 0
      = N.getFD 0 "value_prediction_error" 0 :=
    getFD_congrF M N 0 0 _ _ 0 (hm.node0 _)
  have q_em1 : M.getFD 1 "expected_mean" 0 = N.getFD 1 "expected_mean" 0 :=
    getFD_congrF M N 1 1 _ _ 0 hm.emean1
  have q_epv : M.getFD 1 "expected_precision_vol" 0 = N.getFD 2 "expected_precision" 0 :=
    getFD_congrF M N 1 2 _ _ 0 hm.eprec2
  have q_emv : M.getFD 1 "expected_mean_vol" 0 = N.getFD 2 "expected_mean" 0 :=
    getFD_congrF M N 1 2 _ _ 0 hm.emean2
  have q_eff1 : M.getFD 1 "effective_precision" 0 = N.getFD 1 "effective_precision" 0 := by
    rw [getFD_as_getD, getFD_as_getD]
    exact hm.effp1
  have q_vci : M.getFD 1 "volatility_coupling_internal" 0 = 1 :=
    getFD_eq M 1 _ 0 1 hm.vci
  have q_obs : M.getFD 1 "observed" 1 = 1 := getFD_eq M 1 _ 1 1 hm.obs1
  -- floor transport and the max collapses
  have hP1 : tiny ≤ N.getFD 1 "expected_precision" 0 + N.getFD 0 "expected_precision" 0 := by
    rw [← q_ep1, ← q_ep0, ← puvl_eval M hVm.e1 hVm.cc1]
    exact h1
  have hmaxP : max (N.getFD 1 "expected_precision" 0
      + N.getFD 0 "expected_precision" 0) tiny
      = N.getFD 1 "expected_precision" 0 + N.getFD 0 "expected_precision" 0 :=
    max_eq_left hP1
  rw [hmaxP] at ep1 em1
  -- normalize the E-side layer-2 reads down to N-reads
  have r_ep2 : (prediction_error_continuous_state_node
      (posterior_update_continuous_state_node N 1) 1).getFD 2 "expected_precision" 0
      = N.getFD 2 "expected_precision" 0 := by
    apply getFD_congrF
    rw [f3 2 _ (by decide)]
    exact eo1 2 _ (by decide)
  have r_em2 : (prediction_error_continuous_state_node
      (posterior_update_continuous_state_node N 1) 1).getFD 2 "expected_mean" 0
      = N.getFD 2 "expected_mean" 0 := by
    apply getFD_congrF
    rw [f3 2 _ (by decide)]
    exact eo1 2 _ (by decide)
  have r_eff1 : (prediction_error_continuous_state_node
      (posterior_update_continuous_state_node N 1) 1).getFD 1 "effective_precision" 0
      = N.getFD 1 "effective_precision" 0 := by
    apply getFD_congrF
    rw [f4 _ (by decide)]
    exact ek1 _ (by decide)
  have r_prec1 : (posterior_update_continuous_state_node N 1).getFD 1 "precision" 0
      = N.getFD 1 "expected_precision" 0 + N.getFD 0 "expected_precision" 0 :=
    getFD_eq _ 1 _ 0 _ ep1
  have r_mean1 : (posterior_update_continuous_state_node N 1).getFD 1 "mean" 0
      = N.getFD 1 "expected_mean" 0 + N.getFD 0 "expected_precision" 0
          / (N.getFD 1 "expected_precision" 0 + N.getFD 0 "expected_precision" 0)
          * N.getFD 0 "value_prediction_error" 0 :=
    getFD_eq _ 1 _ 0 _ em1
  have r_ep1k : (posterior_update_continuous_state_node N 1).getFD 1
      "expected_precision" 0 = N.getFD 1 "expected_precision" 0 := by
    apply getFD_congrF
    exact ek1 _ (by decide)
  have r_em1k : (posterior_update_continuous_state_node N 1).getFD 1
      "expected_mean" 0 = N.getFD 1 "expected_mean" 0 := by
    apply getFD_congrF
    exact ek1 _ (by decide)
  -- the recomputed prediction errors on the E side, in N-reads
  rw [r_mean1, r_em1k] at f1
  rw [r_prec1, r_mean1, r_em1k, r_ep1k] at f2
  have r_wpe1 : (prediction_error_continuous_state_node
      (posterior_update_continuous_state_node N 1) 1).getFD 1
        "volatility_prediction_error" 0
      = N.getFD 1 "expected_precision" 0
          / (N.getFD 1 "expected_precision" 0 + N.getFD 0 "expected_precision" 0)
        + N.getFD 1 "expected_precision" 0
          * (N.getFD 1 "expected_mean" 0 + N.getFD 0 "expected_precision" 0
              / (N.getFD 1 "expected_precision" 0 + N.getFD 0 "expected_precision" 0)
              * N.getFD 0 "value_prediction_error" 0
            - N.getFD 1 "expected_mean" 0) ^ 2 - 1 :=
    getFD_eq _ 1 _ 0 _ f2
  rw [r_eff1, r_wpe1, r_ep2] at g1
  rw [r_eff1, r_wpe1, r_ep2, r_em2] at g2
  -- the volatility-level floor, transported to the E-side formula
  have hPV : tiny ≤ N.getFD 2 "expected_precision" 0
      + (1 / 2 * (1 * N.getFD 1 "effective_precision" 0) ^ 2
        + (1 * N.getFD 1 "effective_precision" 0) ^ 2
          * (N.getFD 1 "expected_precision" 0
              / (N.getFD 1 "expected_precision" 0 + N.getFD 0 "expected_precision" 0)
            + N.getFD 1 "expected_precision" 0
              * (N.getFD 1 "expected_mean" 0 + N.getFD 0 "expected_precision" 0
                  / (N.getFD 1 "expected_precision" 0
                    + N.getFD 0 "expected_precision" 0)
                  * N.getFD 0 "value_prediction_error" 0
                - N.getFD 1 "expected_mean" 0) ^ 2 - 1)
        - 1 / 2 * 1 ^ 2 * N.getFD 1 "effective_precision" 0
          * (N.getFD 1 "expected_precision" 0
              / (N.getFD 1 "expected_precision" 0 + N.getFD 0 "expected_precision" 0)
            + N.getFD 1 "expected_precision" 0
              * (N.getFD 1 "expected_mean" 0 + N.getFD 0 "expected_precision" 0
                  / (N.getFD 1 "expected_precision" 0
                    + N.getFD 0 "expected_precision" 0)
                  * N.getFD 0 "value_prediction_error" 0
                - N.getFD 1 "expected_mean" 0) ^ 2 - 1)) := by
    have h2' := h2
    rw [pvl_vvls_eval M _ _ _ hVm.e1 hVm.cc1 rfl rfl rfl] at h2'
    calc tiny ≤ _ := h2'
    _ = _ := by
        rw [q_ep1, q_ep0, q_vpe0, q_epv, q_eff1, q_vci]
        ring
  have hmaxPV := max_eq_left hPV
  rw [hmaxPV] at g1 g2
  refine ⟨?_, ?_, ?_⟩
  · exact
      { e0 := hVm.e0
        e1 := hVm.e1
        cp0 := hVm.cp0
        cc1 := hVm.cc1
        inp := hVm.inp
        m0 := by rw [vo 0 _ (by decide)]; exact hVm.m0 }
  · exact
      { e0 := hEm.e0
        e1 := hEm.e1
        e2 := hEm.e2
        cp0 := hEm.cp0
        cc1 := hEm.cc1
        vp1 := hEm.vp1
        vc2 := hEm.vc2
        fn0 := hEm.fn0
        inp := hEm.inp
        m0 := by
          rw [g3 0 _ (by decide), f3 0 _ (by decide), eo1 0 _ (by decide)]
          exact hEm.m0 }
  · refine
      { node0 := ?_, prec1some := ?_, mean1 := ?_, emean1 := ?_, prec1 := ?_,
        eprec1 := ?_, tvol1 := ?_, tdrift1 := ?_, auto1 := ?_, cvar1 := ?_,
        effp1 := ?_, vpe1 := ?_, wpe1 := ?_, mean2 := ?_, emean2 := ?_, prec2 := ?_,
        eprec2 := ?_, tvol2 := ?_, effp2 := ?_, vci := ?_, obs1 := ?_, autoVol := ?_,
        driftVol := ?_, auto2 := ?_, drift2 := ?_ }
    · intro k
      rw [vo 0 k (by decide), g3 0 k (by decide), f3 0 k (by decide),
        eo1 0 k (by decide)]
      exact hm.node0 k
    · rw [vp]
      rfl
    · rw [vm, g3 1 _ (by decide), f4 _ (by decide), em1, q_em1, q_ep0, q_ep1, q_vpe0]
    · rw [vk _ (by decide), g3 1 _ (by decide), f4 _ (by decide), ek1 _ (by decide)]
      exact hm.emean1
    · rw [vp, g3 1 _ (by decide), f4 _ (by decide), ep1, q_ep1, q_ep0]
    · rw [vk _ (by decide), g3 1 _ (by decide), f4 _ (by decide), ek1 _ (by decide)]
      exact hm.eprec1
    · rw [vk _ (by decide), g3 1 _ (by decide), f4 _ (by decide), ek1 _ (by decide)]
      exact hm.tvol1
    · rw [vk _ (by decide), g3 1 _ (by decide), f4 _ (by decide), ek1 _ (by decide)]
      exact hm.tdrift1
    · rw [vk _ (by decide), g3 1 _ (by decide), f4 _ (by decide), ek1 _ (by decide)]
      exact hm.auto1
    · rw [vk _ (by decide), g3 1 _ (by decide), f4 _ (by decide), ek1 _ (by decide)]
      exact hm.cvar1
    · rw [vk _ (by decide), g3 1 _ (by decide), f4 _ (by decide), ek1 _ (by decide)]
      exact hm.effp1
    · rw [vv, g3 1 _ (by decide), f1, q_ep0, q_ep1, q_vpe0]
      simp
    · rw [vw, g3 1 _ (by decide), f2, q_ep0, q_ep1, q_vpe0]
      simp
    · rw [vmv, g2, q_emv, q_vci, q_obs, q_eff1, q_ep1, q_ep0, q_vpe0, q_epv]
      simp only [Option.some.injEq]
      ring
    · rw [vk _ (by decide), g4 _ (by decide), f3 2 _ (by decide), eo1 2 _ (by decide)]
      exact hm.emean2
    · rw [vpv, g1, q_epv, q_vci, q_eff1, q_ep1, q_ep0, q_vpe0]
      simp only [Option.some.injEq]
      ring
    · rw [vk _ (by decide), g4 _ (by decide), f3 2 _ (by decide), eo1 2 _ (by decide)]
      exact hm.eprec2
    · rw [vk _ (by decide), g4 _ (by decide), f3 2 _ (by decide), eo1 2 _ (by decide)]
      exact hm.tvol2
    · rw [vk _ (by decide), g4 _ (by decide), f3 2 _ (by decide), eo1 2 _ (by decide)]
      exact hm.effp2
    · rw [vk _ (by decide)]
      exact hm.vci
    · rw [vk _ (by decide)]
      exact hm.obs1
    · rw [vk _ (by decide)]
      exact hm.autoVol
    · rw [vk _ (by decide)]
      exact hm.driftVol
    · rw [g4 _ (by decide), f3 2 _ (by decide), eo1 2 _ (by decide)]
      exact hm.auto2
    · rw [g4 _ (by decide), f3 2 _ (by decide), eo1 2 _ (by decide)]
      exact hm.drift2
set_option maxHeartbeats 2000000 in
theorem step_corr_ehgf (ops : Ops) (V E : Network) (o : ℚ)
    (hV : VShape V) (hE : EShape E) (hc : VolCorr V E)
    (h1 : tiny ≤ precision_update_value_level (volMid ops V o) 1)
    (h2 : tiny ≤ precision_update_volatility_level
        (volatile_value_level_step (volMid ops V o) 1) 1) :
    VShape (volStep ops .poVolatileEhgf V o) ∧ EShape (expStep ops .poContinuousEhgf E o)
    ∧ VolCorr (volStep ops .poVolatileEhgf V o) (expStep ops .poContinuousEhgf E o) := by
  obtain ⟨hVm, hEm, hm⟩ := mid_corr ops V E o hV hE hc
  rw [volStep_eq ops .poVolatileEhgf V o hV.inp, expStep_eq ops .poContinuousEhgf E o hE.inp]
  simp only [applyFn]
  set M := volMid ops V o with hMdef
  set N := expMid ops E o with hNdef
  -- posterior evaluations
  obtain ⟨vp, vm, vv, vw, vpv, vmv, vo, vk⟩ :=
    poVolEhgf_eval M _ _ _ _ hVm.e1 hVm.cc1 rfl rfl rfl rfl
  obtain ⟨ep1, em1, eo1, ek1⟩ :=
    poCont1_eval N _ hEm.e1 hEm.e0 hEm.cc1 hEm.fn0 rfl
  have hN1e1 : (posterior_update_continuous_state_node N 1).edge 1 = some expAdj1 :=
    hEm.e1
  obtain ⟨f1, f2, f3, f4⟩ := pe1_eval (posterior_update_continuous_state_node N 1) hN1e1
  have hN2e2 : (prediction_error_continuous_state_node
      (posterior_update_continuous_state_node N 1) 1).edge 2 = some expAdj2 := hEm.e2
  have hKV : couplingAt ((prediction_error_continuous_state_node
      (posterior_update_continuous_state_node N 1) 1).getV 2
        "volatility_coupling_children") 0 1 = 1 := by
    have hv2 : (prediction_error_continuous_state_node
        (posterior_update_continuous_state_node N 1) 1).getV 2
          "volatility_coupling_children" = some [1] := hEm.vc2
    rw [hv2]
    rfl
  obtain ⟨g1, g2, g3, g4⟩ := poCont2Ehgf_eval (prediction_error_continuous_state_node
    (posterior_update_continuous_state_node N 1) 1) 1 _ _ _ hN2e2 hKV rfl rfl rfl
  -- read equalities between the two mid states
  have q_ep1 : M.getFD 1 "expected_precision" 0 = N.getFD 1 "expected_precision" 0 :=
    getFD_congrF M N 1 1 _ _ 0 hm.eprec1
  have q_ep0 : M.getFD 0 "expected_precision" 0 = N.getFD 0 "expected_precision" 0 :=
    getFD_congrF M N 0 0 _ _ 0 (hm.node0 _)
  have q_vpe0 : M.getFD 0 "value_prediction_error" 0
      = N.getFD 0 "value_prediction_error" 0 :=
    getFD_congrF M N 0 0 _ _ 0 (hm.node0 _)
  have q_em1 : M.getFD 1 "expected_mean" 0 = N.getFD 1 "expected_mean" 0 :=
    getFD_congrF M N 1 1 _ _ 0 hm.emean1
  have q_epv : M.getFD 1 "expected_precision_vol" 0 = N.getFD 2 "expected_precision" 0 :=
    getFD_congrF M N 1 2 _ _ 0 hm.eprec2
  have q_emv : M.getFD 1 "expected_mean_vol" 0 = N.getFD 2 "expected_mean" 0 :=
    getFD_congrF M N 1 2 _ _ 0 hm.emean2
  have q_eff1 : M.getFD 1 "effective_precision" 0 = N.getFD 1 "effective_precision" 0 := by
    rw [getFD_as_getD, getFD_as_getD]
    exact hm.effp1
  have q_vci : M.getFD 1 "volatility_coupling_internal" 0 = 1 :=
    getFD_eq M 1 _ 0 1 hm.vci
  have q_obs : M.getFD 1 "observed" 1 = 1 := getFD_eq M 1 _ 1 1 hm.obs1
  -- floor transport and the max collapses
  have hP1 : tiny ≤ N.getFD 1 "expected_precision" 0 + N.getFD 0 "expected_precision" 0 := by
    rw [← q_ep1, ← q_ep0, ← puvl_eval M hVm.e1 hVm.cc1]
    exact h1
  have hmaxP : max (N.getFD 1 "expected_precision" 0
      + N.getFD 0 "expected_precision" 0) tiny
      = N.getFD 1 "expected_precision" 0 + N.getFD 0 "expected_precision" 0 :=
    max_eq_left hP1
  rw [hmaxP] at ep1 em1
  -- normalize the E-side layer-2 reads down to N-reads
  have r_ep2 : (prediction_error_continuous_state_node
      (posterior_update_continuous_state_node N 1) 1).getFD 2 "expected_precision" 0
      = N.getFD 2 "expected_precision" 0 := by
    apply getFD_congrF
    rw [f3 2 _ (by decide)]
    exact eo1 2 _ (by decide)
  have r_em2 : (prediction_error_continuous_state_node
      (posterior_update_continuous_state_node N 1) 1).getFD 2 "expected_mean" 0
      = N.getFD 2 "expected_mean" 0 := by
    apply getFD_congrF
    rw [f3 2 _ (by decide)]
    exact eo1 2 _ (by decide)
  have r_eff1 : (prediction_error_continuous_state_node
      (posterior_update_continuous_state_node N 1) 1).getFD 1 "effective_precision" 0
      = N.getFD 1 "effective_precision" 0 := by
    apply getFD_congrF
    rw [f4 _ (by decide)]
    exact ek1 _ (by decide)
  have r_prec1 : (posterior_update_continuous_state_node N 1).getFD 1 "precision" 0
      = N.getFD 1 "expected_precision" 0 + N.getFD 0 "expected_precision" 0 :=
    getFD_eq _ 1 _ 0 _ ep1
  have r_mean1 : (posterior_update_continuous_state_node N 1).getFD 1 "mean" 0
      = N.getFD 1 "expected_mean" 0 + N.getFD 0 "expected_precision" 0
          / (N.getFD 1 "expected_precision" 0 + N.getFD 0 "expected_precision" 0)
          * N.getFD 0 "value_prediction_error" 0 :=
    getFD_eq _ 1 _ 0 _ em1
  have r_ep1k : (posterior_update_continuous_state_node N 1).getFD 1
      "expected_precision" 0 = N.getFD 1 "expected_precision" 0 := by
    apply getFD_congrF
    exact ek1 _ (by decide)
  have r_em1k : (posterior_update_continuous_state_node N 1).getFD 1
      "expected_mean" 0 = N.getFD 1 "expected_mean" 0 := by
    apply getFD_congrF
    exact ek1 _ (by decide)
  -- the recomputed prediction errors on the E side, in N-reads
  rw [r_mean1, r_em1k] at f1
  rw [r_prec1, r_mean1, r_em1k, r_ep1k] at f2
  have r_wpe1 : (prediction_error_continuous_state_node
      (posterior_update_continuous_state_node N 1) 1).getFD 1
        "volatility_prediction_error" 0
      = N.getFD 1 "expected_precision" 0
          / (N.getFD 1 "expected_precision" 0 + N.getFD 0 "expected_precision" 0)
        + N.getFD 1 "expected_precision" 0
          * (N.getFD 1 "expected_mean" 0 + N.getFD 0 "expected_precision" 0
              / (N.getFD 1 "expected_precision" 0 + N.getFD 0 "expected_precision" 0)
              * N.getFD 0 "value_prediction_error" 0
            - N.getFD 1 "expected_mean" 0) ^ 2 - 1 :=
    getFD_eq _ 1 _ 0 _ f2
  rw [r_eff1, r_wpe1, r_ep2] at g1
  rw [r_eff1, r_wpe1, r_ep2, r_em2] at g2
  -- the volatility-level floor, transported to the E-side formula
  have hPV : tiny ≤ N.getFD 2 "expected_precision" 0
      + (1 / 2 * (1 * N.getFD 1 "effective_precision" 0) ^ 2
        + (1 * N.getFD 1 "effective_precision" 0) ^ 2
          * (N.getFD 1 "expected_precision" 0
              / (N.getFD 1 "expected_precision" 0 + N.getFD 0 "expected_precision" 0)
            + N.getFD 1 "expected_precision" 0
              * (N.getFD 1 "expected_mean" 0 + N.getFD 0 "expected_precision" 0
                  / (N.getFD 1 "expected_precision" 0
                    + N.getFD 0 "expected_precision" 0)
                  * N.getFD 0 "value_prediction_error" 0
                - N.getFD 1 "expected_mean" 0) ^ 2 - 1)
        - 1 / 2 * 1 ^ 2 * N.getFD 1 "effective_precision" 0
          * (N.getFD 1 "expected_precision" 0
              / (N.getFD 1 "expected_precision" 0 + N.getFD 0 "expected_precision" 0)
            + N.getFD 1 "expected_precision" 0
              * (N.getFD 1 "expected_mean" 0 + N.getFD 0 "expected_precision" 0
                  / (N.getFD 1 "expected_precision" 0
                    + N.getFD 0 "expected_precision" 0)
                  * N.getFD 0 "value_prediction_error" 0
                - N.getFD 1 "expected_mean" 0) ^ 2 - 1)) := by
    have h2' := h2
    rw [pvl_vvls_eval M _ _ _ hVm.e1 hVm.cc1 rfl rfl rfl] at h2'
    calc tiny ≤ _ := h2'
    _ = _ := by
        rw [q_ep1, q_ep0, q_vpe0, q_epv, q_eff1, q_vci]
        ring
  have hmaxPV := max_eq_left hPV
  rw [hmaxPV] at g1
  refine ⟨?_, ?_, ?_⟩
  · exact
      { e0 := hVm.e0
        e1 := hVm.e1
        cp0 := hVm.cp0
        cc1 := hVm.cc1
        inp := hVm.inp
        m0 := by rw [vo 0 _ (by decide)]; exact hVm.m0 }
  · exact
      { e0 := hEm.e0
        e1 := hEm.e1
        e2 := hEm.e2
        cp0 := hEm.cp0
        cc1 := hEm.cc1
        vp1 := hEm.vp1
        vc2 := hEm.vc2
        fn0 := hEm.fn0
        inp := hEm.inp
        m0 := by
          rw [g3 0 _ (by decide), f3 0 _ (by decide), eo1 0 _ (by decide)]
          exact hEm.m0 }
  · refine
      { node0 := ?_, prec1some := ?_, mean1 := ?_, emean1 := ?_, prec1 := ?_,
        eprec1 := ?_, tvol1 := ?_, tdrift1 := ?_, auto1 := ?_, cvar1 := ?_,
        effp1 := ?_, vpe1 := ?_, wpe1 := ?_, mean2 := ?_, emean2 := ?_, prec2 := ?_,
        eprec2 := ?_, tvol2 := ?_, effp2 := ?_, vci := ?_, obs1 := ?_, autoVol := ?_,
        driftVol := ?_, auto2 := ?_, drift2 := ?_ }
    · intro k
      rw [vo 0 k (by decide), g3 0 k (by decide), f3 0 k (by decide),
        eo1 0 k (by decide)]
      exact hm.node0 k
    · rw [vp]
      rfl
    · rw [vm, g3 1 _ (by decide), f4 _ (by decide), em1, q_em1, q_ep0, q_ep1, q_vpe0]
    · rw [vk _ (by decide), g3 1 _ (by decide), f4 _ (by decide), ek1 _ (by decide)]
      exact hm.emean1
    · rw [vp, g3 1 _ (by decide), f4 _ (by decide), ep1, q_ep1, q_ep0]
    · rw [vk _ (by decide), g3 1 _ (by decide), f4 _ (by decide), ek1 _ (by decide)]
      exact hm.eprec1
    · rw [vk _ (by decide), g3 1 _ (by decide), f4 _ (by decide), ek1 _ (by decide)]
      exact hm.tvol1
    · rw [vk _ (by decide), g3 1 _ (by decide), f4 _ (by decide), ek1 _ (by decide)]
      exact hm.tdrift1
    · rw [vk _ (by decide), g3 1 _ (by decide), f4 _ (by decide), ek1 _ (by decide)]
      exact hm.auto1
    · rw [vk _ (by decide), g3 1 _ (by decide), f4 _ (by decide), ek1 _ (by decide)]
      exact hm.cvar1
    · rw [vk _ (by decide), g3 1 _ (by decide), f4 _ (by decide), ek1 _ (by decide)]
      exact hm.effp1
    · rw [vv, g3 1 _ (by decide), f1, q_ep0, q_ep1, q_vpe0]
      simp
    · rw [vw, g3 1 _ (by decide), f2, q_ep0, q_ep1, q_vpe0]
      simp
    · rw [vmv, g2, q_emv, q_vci, q_obs, q_eff1, q_ep1, q_ep0, q_vpe0, q_epv]
      simp only [Option.some.injEq]
      ring
    · rw [vk _ (by decide), g4 _ (by decide), f3 2 _ (by decide), eo1 2 _ (by decide)]
      exact hm.emean2
    · rw [vpv, g1, q_epv, q_vci, q_eff1, q_ep1, q_ep0, q_vpe0]
      simp only [Option.some.injEq]
      ring
    · rw [vk _ (by decide), g4 _ (by decide), f3 2 _ (by decide), eo1 2 _ (by decide)]
      exact hm.eprec2
    · rw [vk _ (by decide), g4 _ (by decide), f3 2 _ (by decide), eo1 2 _ (by decide)]
      exact hm.tvol2
    · rw [vk _ (by decide), g4 _ (by decide), f3 2 _ (by decide), eo1 2 _ (by decide)]
      exact hm.effp2
    · rw [vk _ (by decide)]
      exact hm.vci
    · rw [vk _ (by decide)]
      exact hm.obs1
    · rw [vk _ (by decide)]
      exact hm.autoVol
    · rw [vk _ (by decide)]
      exact hm.driftVol
    · rw [g4 _ (by decide), f3 2 _ (by decide), eo1 2 _ (by decide)]
      exact hm.auto2
    · rw [g4 _ (by decide), f3 2 _ (by decide), eo1 2 _ (by decide)]
      exact hm.drift2
set_option maxHeartbeats 2000000 in
theorem step_corr_unb (ops : Ops) (V E : Network) (o : ℚ)
    (hV : VShape V) (hE : EShape E) (hc : VolCorr V E)
    (h1 : tiny ≤ precision_update_value_level (volMid ops V o) 1) :
    VShape (volStep ops .poVolatileUnbounded V o) ∧ EShape (expStep ops .poContinuousUnbounded E o)
    ∧ VolCorr (volStep ops .poVolatileUnbounded V o) (expStep ops .poContinuousUnbounded E o) := by
  obtain ⟨hVm, hEm, hm⟩ := mid_corr ops V E o hV hE hc
  rw [volStep_eq ops .poVolatileUnbounded V o hV.inp, expStep_eq ops .poContinuousUnbounded E o hE.inp]
  simp only [applyFn]
  set M := volMid ops V o with hMdef
  set N := expMid ops E o with hNdef
  -- posterior evaluations
  obtain ⟨vp, vm, vv, vw, vpv, vmv, vo, vk⟩ :=
    poVolUnb_eval ops M _ _ _ _ _ _ _ _ _ _ _ _ _ _ _ _ _ _ _ _ hVm.e1 hVm.cc1
      rfl rfl rfl rfl rfl rfl rfl rfl rfl rfl rfl rfl rfl rfl rfl rfl rfl rfl rfl rfl
  obtain ⟨ep1, em1, eo1, ek1⟩ :=
    poCont1_eval N _ hEm.e1 hEm.e0 hEm.cc1 hEm.fn0 rfl
  have hN1e1 : (posterior_update_continuous_state_node N 1).edge 1 = some expAdj1 :=
    hEm.e1
  obtain ⟨f1, f2, f3, f4⟩ := pe1_eval (posterior_update_continuous_state_node N 1) hN1e1
  have hN2e2 : (prediction_error_continuous_state_node
      (posterior_update_continuous_state_node N 1) 1).edge 2 = some expAdj2 := hEm.e2
  have hKV : couplingAt ((prediction_error_continuous_state_node
      (posterior_update_continuous_state_node N 1) 1).getV 2
        "volatility_coupling_children") 0 1 = 1 := by
    have hv2 : (prediction_error_continuous_state_node
        (posterior_update_continuous_state_node N 1) 1).getV 2
          "volatility_coupling_children" = some [1] := hEm.vc2
    rw [hv2]
    rfl
  obtain ⟨g1, g2, g3, g4⟩ := poCont2Unb_eval ops (prediction_error_continuous_state_node
    (posterior_update_continuous_state_node N 1) 1) 1 _ _ _ _ _ _ _ _ _ _ _ _ _ _ _ _ _
    hN2e2 hKV rfl rfl rfl rfl rfl rfl rfl rfl rfl rfl rfl rfl rfl rfl rfl rfl rfl
  -- read equalities between the two mid states
  have q_ep1 : M.getFD 1 "expected_precision" 0 = N.getFD 1 "expected_precision" 0 :=
    getFD_congrF M N 1 1 _ _ 0 hm.eprec1
  have q_ep0 : M.getFD 0 "expected_precision" 0 = N.getFD 0 "expected_precision" 0 :=
    getFD_congrF M N 0 0 _ _ 0 (hm.node0 _)
  have q_vpe0 : M.getFD 0 "value_prediction_error" 0
      = N.getFD 0 "value_prediction_error" 0 :=
    getFD_congrF M N 0 0 _ _ 0 (hm.node0 _)
  have q_em1 : M.getFD 1 "expected_mean" 0 = N.getFD 1 "expected_mean" 0 :=
    getFD_congrF M N 1 1 _ _ 0 hm.emean1
  have q_epv : M.getFD 1 "expected_precision_vol" 0 = N.getFD 2 "expected_precision" 0 :=
    getFD_congrF M N 1 2 _ _ 0 hm.eprec2
  have q_emv : M.getFD 1 "expected_mean_vol" 0 = N.getFD 2 "expected_mean" 0 :=
    getFD_congrF M N 1 2 _ _ 0 hm.emean2
  have q_eff1 : M.getFD 1 "effective_precision" 0 = N.getFD 1 "effective_precision" 0 := by
    rw [getFD_as_getD, getFD_as_getD]
    exact hm.effp1
  have q_vci : M.getFD 1 "volatility_coupling_internal" 0 = 1 :=
    getFD_eq M 1 _ 0 1 hm.vci
  have q_obs : M.getFD 1 "observed" 1 = 1 := getFD_eq M 1 _ 1 1 hm.obs1
  have q_tv1 : M.getFD 1 "tonic_volatility" 0 = N.getFD 1 "tonic_volatility" 0 :=
    getFD_congrF M N 1 1 _ _ 0 hm.tvol1
  have q_cv1 : M.getFD 1 "current_variance" 0 = N.getFD 1 "current_variance" 0 :=
    getFD_congrF M N 1 1 _ _ 0 hm.cvar1
  -- floor transport and the max collapses
  have hP1 : tiny ≤ N.getFD 1 "expected_precision" 0 + N.getFD 0 "expected_precision" 0 := by
    rw [← q_ep1, ← q_ep0, ← puvl_eval M hVm.e1 hVm.cc1]
    exact h1
  have hmaxP : max (N.getFD 1 "expected_precision" 0
      + N.getFD 0 "expected_precision" 0) tiny
      = N.getFD 1 "expected_precision" 0 + N.getFD 0 "expected_precision" 0 :=
    max_eq_left hP1
  rw [hmaxP] at ep1 em1
  -- normalize the E-side layer-2 reads down to N-reads
  have r_ep2 : (prediction_error_continuous_state_node
      (posterior_update_continuous_state_node N 1) 1).getFD 2 "expected_precision" 0
      = N.getFD 2 "expected_precision" 0 := by
    apply getFD_congrF
    rw [f3 2 _ (by decide)]
    exact eo1 2 _ (by decide)
  have r_em2 : (prediction_error_continuous_state_node
      (posterior_update_continuous_state_node N 1) 1).getFD 2 "expected_mean" 0
      = N.getFD 2 "expected_mean" 0 := by
    apply getFD_congrF
    rw [f3 2 _ (by decide)]
    exact eo1 2 _ (by decide)
  have r_eff1 : (prediction_error_continuous_state_node
      (posterior_update_continuous_state_node N 1) 1).getFD 1 "effective_precision" 0
      = N.getFD 1 "effective_precision" 0 := by
    apply getFD_congrF
    rw [f4 _ (by decide)]
    exact ek1 _ (by decide)
  have r_prec1 : (posterior_update_continuous_state_node N 1).getFD 1 "precision" 0
      = N.getFD 1 "expected_precision" 0 + N.getFD 0 "expected_precision" 0 :=
    getFD_eq _ 1 _ 0 _ ep1
  have r_mean1 : (posterior_update_continuous_state_node N 1).getFD 1 "mean" 0
      = N.getFD 1 "expected_mean" 0 + N.getFD 0 "expected_precision" 0
          / (N.getFD 1 "expected_precision" 0 + N.getFD 0 "expected_precision" 0)
          * N.getFD 0 "value_prediction_error" 0 :=
    getFD_eq _ 1 _ 0 _ em1
  have r_ep1k : (posterior_update_continuous_state_node N 1).getFD 1
      "expected_precision" 0 = N.getFD 1 "expected_precision" 0 := by
    apply getFD_congrF
    exact ek1 _ (by decide)
  have r_em1k : (posterior_update_continuous_state_node N 1).getFD 1
      "expected_mean" 0 = N.getFD 1 "expected_mean" 0 := by
    apply getFD_congrF
    exact ek1 _ (by decide)
  -- the recomputed prediction errors on the E side, in N-reads
  rw [r_mean1, r_em1k] at f1
  rw [r_prec1, r_mean1, r_em1k, r_ep1k] at f2
  have r_wpe1 : (prediction_error_continuous_state_node
      (posterior_update_continuous_state_node N 1) 1).getFD 1
        "volatility_prediction_error" 0
      = N.getFD 1 "expected_precision" 0
          / (N.getFD 1 "expected_precision" 0 + N.getFD 0 "expected_precision" 0)
        + N.getFD 1 "expected_precision" 0
          * (N.getFD 1 "expected_mean" 0 + N.getFD 0 "expected_precision" 0
              / (N.getFD 1 "expected_precision" 0 + N.getFD 0 "expected_precision" 0)
              * N.getFD 0 "value_prediction_error" 0
            - N.getFD 1 "expected_mean" 0) ^ 2 - 1 :=
    getFD_eq _ 1 _ 0 _ f2
  have r2_mean1 : (prediction_error_continuous_state_node
      (posterior_update_continuous_state_node N 1) 1).getFD 1 "mean" 0
      = N.getFD 1 "expected_mean" 0 + N.getFD 0 "expected_precision" 0
          / (N.getFD 1 "expected_precision" 0 + N.getFD 0 "expected_precision" 0)
          * N.getFD 0 "value_prediction_error" 0 := by
    rw [getFD_congrF (prediction_error_continuous_state_node
        (posterior_update_continuous_state_node N 1) 1)
      (posterior_update_continuous_state_node N 1) 1 1 "mean" "mean" 0
      (f4 _ (by decide))]
    exact r_mean1
  have r2_prec1 : (prediction_error_continuous_state_node
      (posterior_update_continuous_state_node N 1) 1).getFD 1 "precision" 0
      = N.getFD 1 "expected_precision" 0 + N.getFD 0 "expected_precision" 0 := by
    rw [getFD_congrF (prediction_error_continuous_state_node
        (posterior_update_continuous_state_node N 1) 1)
      (posterior_update_continuous_state_node N 1) 1 1 "precision" "precision" 0
      (f4 _ (by decide))]
    exact r_prec1
  have r2_em1 : (prediction_error_continuous_state_node
      (posterior_update_continuous_state_node N 1) 1).getFD 1 "expected_mean" 0
      = N.getFD 1 "expected_mean" 0 := by
    rw [getFD_congrF (prediction_error_continuous_state_node
        (posterior_update_continuous_state_node N 1) 1)
      (posterior_update_continuous_state_node N 1) 1 1 "expected_mean" "expected_mean" 0
      (f4 _ (by decide))]
    exact r_em1k
  have r2_tv1 : (prediction_error_continuous_state_node
      (posterior_update_continuous_state_node N 1) 1).getFD 1 "tonic_volatility" 0
      = N.getFD 1 "tonic_volatility" 0 := by
    apply getFD_congrF
    rw [f4 _ (by decide)]
    exact ek1 _ (by decide)
  have r2_cv1 : (prediction_error_continuous_state_node
      (posterior_update_continuous_state_node N 1) 1).getFD 1 "current_variance" 0
      = N.getFD 1 "current_variance" 0 := by
    apply getFD_congrF
    rw [f4 _ (by decide)]
    exact ek1 _ (by decide)
  rw [r2_mean1, r2_prec1, r2_em1, r2_tv1, r2_cv1, r_em2, r_ep2] at g1 g2
  simp only [add_sub_cancel_left] at g1 g2
  refine ⟨?_, ?_, ?_⟩
  · exact
      { e0 := hVm.e0
        e1 := hVm.e1
        cp0 := hVm.cp0
        cc1 := hVm.cc1
        inp := hVm.inp
        m0 := by rw [vo 0 _ (by decide)]; exact hVm.m0 }
  · exact
      { e0 := hEm.e0
        e1 := hEm.e1
        e2 := hEm.e2
        cp0 := hEm.cp0
        cc1 := hEm.cc1
        vp1 := hEm.vp1
        vc2 := hEm.vc2
        fn0 := hEm.fn0
        inp := hEm.inp
        m0 := by
          rw [g3 0 _ (by decide), f3 0 _ (by decide), eo1 0 _ (by decide)]
          exact hEm.m0 }
  · refine
      { node0 := ?_, prec1some := ?_, mean1 := ?_, emean1 := ?_, prec1 := ?_,
        eprec1 := ?_, tvol1 := ?_, tdrift1 := ?_, auto1 := ?_, cvar1 := ?_,
        effp1 := ?_, vpe1 := ?_, wpe1 := ?_, mean2 := ?_, emean2 := ?_, prec2 := ?_,
        eprec2 := ?_, tvol2 := ?_, effp2 := ?_, vci := ?_, obs1 := ?_, autoVol := ?_,
        driftVol := ?_, auto2 := ?_, drift2 := ?_ }
    · intro k
      rw [vo 0 k (by decide), g3 0 k (by decide), f3 0 k (by decide),
        eo1 0 k (by decide)]
      exact hm.node0 k
    · rw [vp]
      rfl
    · rw [vm, g3 1 _ (by decide), f4 _ (by decide), em1, q_em1, q_ep0, q_ep1, q_vpe0]
    · rw [vk _ (by decide), g3 1 _ (by decide), f4 _ (by decide), ek1 _ (by decide)]
      exact hm.emean1
    · rw [vp, g3 1 _ (by decide), f4 _ (by decide), ep1, q_ep1, q_ep0]
    · rw [vk _ (by decide), g3 1 _ (by decide), f4 _ (by decide), ek1 _ (by decide)]
      exact hm.eprec1
    · rw [vk _ (by decide), g3 1 _ (by decide), f4 _ (by decide), ek1 _ (by decide)]
      exact hm.tvol1
    · rw [vk _ (by decide), g3 1 _ (by decide), f4 _ (by decide), ek1 _ (by decide)]
      exact hm.tdrift1
    · rw [vk _ (by decide), g3 1 _ (by decide), f4 _ (by decide), ek1 _ (by decide)]
      exact hm.auto1
    · rw [vk _ (by decide), g3 1 _ (by decide), f4 _ (by decide), ek1 _ (by decide)]
      exact hm.cvar1
    · rw [vk _ (by decide), g3 1 _ (by decide), f4 _ (by decide), ek1 _ (by decide)]
      exact hm.effp1
    · rw [vv, g3 1 _ (by decide), f1, q_ep0, q_ep1, q_vpe0]
      simp
    · rw [vw, g3 1 _ (by decide), f2, q_ep0, q_ep1, q_vpe0]
      simp
    · rw [vmv, g2, q_emv, q_vci, q_tv1, q_cv1, q_epv, q_ep1, q_ep0, q_vpe0]
    · rw [vk _ (by decide), g4 _ (by decide), f3 2 _ (by decide), eo1 2 _ (by decide)]
      exact hm.emean2
    · rw [vpv, g1, q_epv, q_vci, q_tv1, q_cv1, q_ep1, q_ep0, q_vpe0, q_emv]
    · rw [vk _ (by decide), g4 _ (by decide), f3 2 _ (by decide), eo1 2 _ (by decide)]
      exact hm.eprec2
    · rw [vk _ (by decide), g4 _ (by decide), f3 2 _ (by decide), eo1 2 _ (by decide)]
      exact hm.tvol2
    · rw [vk _ (by decide), g4 _ (by decide), f3 2 _ (by decide), eo1 2 _ (by decide)]
      exact hm.effp2
    · rw [vk _ (by decide)]
      exact hm.vci
    · rw [vk _ (by decide)]
      exact hm.obs1
    · rw [vk _ (by decide)]
      exact hm.autoVol
    · rw [vk _ (by decide)]
      exact hm.driftVol
    · rw [g4 _ (by decide), f3 2 _ (by decide), eo1 2 _ (by decide)]
      exact hm.auto2
    · rw [g4 _ (by decide), f3 2 _ (by decide), eo1 2 _ (by decide)]
      exact hm.drift2
theorem traj_step (Vs Es : Network) (tV tE : NodeTrajectories)
    (hc : VolCorr Vs Es) (ht : TrajCorr tV tE) :
    TrajCorr
      { floats := recordFloats Vs.attributes.floats tV.floats,
        vectors := recordVectors Vs.attributes.vectors tV.vectors }
      { floats := recordFloats Es.attributes.floats tE.floats,
        vectors := recordVectors Es.attributes.vectors tE.vectors } := by
  have h1 := hc.mean1
  have h2 := hc.emean1
  have h3 := hc.prec1
  have h4 := hc.eprec1
  have h5 := hc.mean2
  have h6 := hc.emean2
  have h7 := hc.prec2
  have h8 := hc.eprec2
  unfold Network.getF at h1 h2 h3 h4 h5 h6 h7 h8
  exact
    { mean1 := by unfold recordFloats; dsimp only; rw [h1, ht.mean1]
      emean1 := by unfold recordFloats; dsimp only; rw [h2, ht.emean1]
      prec1 := by unfold recordFloats; dsimp only; rw [h3, ht.prec1]
      eprec1 := by unfold recordFloats; dsimp only; rw [h4, ht.eprec1]
      mean2 := by unfold recordFloats; dsimp only; rw [h5, ht.mean2]
      emean2 := by unfold recordFloats; dsimp only; rw [h6, ht.emean2]
      prec2 := by unfold recordFloats; dsimp only; rw [h7, ht.prec2]
      eprec2 := by unfold recordFloats; dsimp only; rw [h8, ht.eprec2] }

theorem run_corr (ops : Ops) (tag tagE : FnTag) (needVol : Bool)
    (hvar : (tag = FnTag.poVolatile ∧ tagE = FnTag.poContinuous ∧ needVol = true)
      ∨ (tag = FnTag.poVolatileEhgf ∧ tagE = FnTag.poContinuousEhgf ∧ needVol = true)
      ∨ (tag = FnTag.poVolatileUnbounded ∧ tagE = FnTag.poContinuousUnbounded
          ∧ needVol = false)) :
    ∀ (obs : List ℚ) (V E : Network) (tV tE : NodeTrajectories),
      VShape V → EShape E → VolCorr V E → TrajCorr tV tE →
      floorsOK ops tag needVol V obs →
      TrajCorr
        (obs.foldl (fun st o2 => inputDataStep ops volPreds (volUpds tag) st o2 1)
          (V, tV)).2
        (obs.foldl (fun st o2 => inputDataStep ops expPreds (expUpds tagE) st o2 1)
          (E, tE)).2 := by
  intro obs
  induction obs with
  | nil =>
    intro V E tV tE _ _ _ ht _
    exact ht
  | cons o rest ih =>
    intro V E tV tE hV hE hc ht hfl
    have hstep : VShape (volStep ops tag V o) ∧ EShape (expStep ops tagE E o)
        ∧ VolCorr (volStep ops tag V o) (expStep ops tagE E o) := by
      rcases hvar with ⟨rfl, rfl, rfl⟩ | ⟨rfl, rfl, rfl⟩ | ⟨rfl, rfl, rfl⟩
      · exact step_corr_std ops V E o hV hE hc hfl.1 (hfl.2.1 rfl)
      · exact step_corr_ehgf ops V E o hV hE hc hfl.1 (hfl.2.1 rfl)
      · exact step_corr_unb ops V E o hV hE hc hfl.1
    have hqV : inputDataStep ops volPreds (volUpds tag) (V, tV) o 1
        = (volStep ops tag V o,
            { floats := recordFloats (volStep ops tag V o).attributes.floats tV.floats,
              vectors := recordVectors (volStep ops tag V o).attributes.vectors
                tV.vectors }) := rfl
    have hqE : inputDataStep ops expPreds (expUpds tagE) (E, tE) o 1
        = (expStep ops tagE E o,
            { floats := recordFloats (expStep ops tagE E o).attributes.floats tE.floats,
              vectors := recordVectors (expStep ops tagE E o).attributes.vectors
                tE.vectors }) := rfl
    simp only [List.foldl, hqV, hqE]
    exact ih (volStep ops tag V o) (expStep ops tagE E o) _ _ hstep.1 hstep.2.1
      hstep.2.2 (traj_step _ _ _ _ hstep.2.2 ht) hfl.2.2
theorem getD_replicate_one (n i : Nat) :
    (((List.replicate n (1 : ℚ)).get? i).getD 1) = 1 := by
  rw [List.get?_eq_getElem?, List.getElem?_replicate]
  split <;> rfl

theorem foldl_enumFrom_one (ops : Ops) (preds upds : List (Nat × FnTag)) (n : Nat) :
    ∀ (obs : List ℚ) (i : Nat) (st : Network × NodeTrajectories),
      (List.enumFrom i obs).foldl (fun state p => inputDataStep ops preds upds state p.2
        (((List.replicate n (1 : ℚ)).get? p.1).getD 1)) st
      = obs.foldl (fun state o2 => inputDataStep ops preds upds state o2 1) st := by
  intro obs
  induction obs with
  | nil => intro i st; rfl
  | cons o rest ih =>
    intro i st
    simp only [List.enumFrom, List.foldl]
    rw [getD_replicate_one]
    exact ih (i + 1) _

theorem input_data_run (ops : Ops) (net0 : Network) (obs : List ℚ)
    (preds upds : List (Nat × FnTag))
    (h1 : net0.update_sequence.predictions = [])
    (h2 : net0.update_sequence.updates = [])
    (hp : (set_update_sequence net0).update_sequence.predictions = preds)
    (hu : (set_update_sequence net0).update_sequence.updates = upds) :
    (input_data ops net0 obs none).node_trajectories
      = (obs.foldl (fun st o2 => inputDataStep ops preds upds st o2 1)
          (set_update_sequence net0,
            preallocTrajectories (set_update_sequence net0))).2 := by
  unfold input_data
  rw [h1, h2]
  simp only [List.isEmpty_nil, Bool.and_self, if_true, Option.getD_none, hp, hu,
    List.enum]
  rw [foldl_enumFrom_one]

theorem init_shapes (ut : String) :
    VShape (set_update_sequence (volNet ut)) ∧ EShape (set_update_sequence (expNet ut))
    ∧ VolCorr (set_update_sequence (volNet ut)) (set_update_sequence (expNet ut))
    ∧ TrajCorr (preallocTrajectories (set_update_sequence (volNet ut)))
        (preallocTrajectories (set_update_sequence (expNet ut))) := by
  refine ⟨?_, ?_, ?_, ?_⟩
  · exact
      { e0 := by with_unfolding_all rfl
        e1 := by with_unfolding_all rfl
        cp0 := by with_unfolding_all rfl
        cc1 := by with_unfolding_all rfl
        inp := by with_unfolding_all rfl
        m0 := by with_unfolding_all rfl }
  · exact
      { e0 := by with_unfolding_all rfl
        e1 := by with_unfolding_all rfl
        e2 := by with_unfolding_all rfl
        cp0 := by with_unfolding_all rfl
        cc1 := by with_unfolding_all rfl
        vp1 := by with_unfolding_all rfl
        vc2 := by with_unfolding_all rfl
        fn0 := by with_unfolding_all rfl
        inp := by with_unfolding_all rfl
        m0 := by with_unfolding_all rfl }
  · exact
      { node0 := fun k => by with_unfolding_all rfl
        prec1some := by with_unfolding_all rfl
        mean1 := by with_unfolding_all rfl
        emean1 := by with_unfolding_all rfl
        prec1 := by with_unfolding_all rfl
        eprec1 := by with_unfolding_all rfl
        tvol1 := by with_unfolding_all rfl
        tdrift1 := by with_unfolding_all rfl
        auto1 := by with_unfolding_all rfl
        cvar1 := by with_unfolding_all rfl
        effp1 := by with_unfolding_all rfl
        vpe1 := by with_unfolding_all rfl
        wpe1 := by with_unfolding_all rfl
        mean2 := by with_unfolding_all rfl
        emean2 := by with_unfolding_all rfl
        prec2 := by with_unfolding_all rfl
        eprec2 := by with_unfolding_all rfl
        tvol2 := by with_unfolding_all rfl
        effp2 := by with_unfolding_all rfl
        vci := by with_unfolding_all rfl
        obs1 := by with_unfolding_all rfl
        autoVol := by with_unfolding_all rfl
        driftVol := by with_unfolding_all rfl
        auto2 := by with_unfolding_all rfl
        drift2 := by with_unfolding_all rfl }
  · exact
      { mean1 := by with_unfolding_all rfl
        emean1 := by with_unfolding_all rfl
        prec1 := by with_unfolding_all rfl
        eprec1 := by with_unfolding_all rfl
        mean2 := by with_unfolding_all rfl
        emean2 := by with_unfolding_all rfl
        prec2 := by with_unfolding_all rfl
        eprec2 := by with_unfolding_all rfl }
/-- C2 (amended): with the default unit time steps, a volatile-state pair and
the explicit three-node chain (input, continuous value parent, continuous
volatility grandparent) produce *exactly* equal trajectories for the eight
compared series — `mean`, `expected_mean`, `precision`, `expected_precision`
of the volatile node against the explicit value parent, and their `_vol`
counterparts against the explicit grandparent — for each update type in
{standard, eHGF, unbounded}, *provided* the two posterior precisions that the
explicit chain floors at `1e-128` stay above the floor at every step (the
volatile kernels apply no floor, so when the floor engages the two runs
diverge, as the counterexample shows). -/
theorem volatile_equivalence (ops : Ops) (ut : String) (obs : List ℚ)
    (hut : ut = "standard" ∨ ut = "eHGF" ∨ ut = "unbounded")
    (hfl : floorsOK ops (volTagFor ut) (volNeedVol ut)
        (set_update_sequence (volNet ut)) obs) :
    TrajCorr (input_data ops (volNet ut) obs none).node_trajectories
      (input_data ops (expNet ut) obs none).node_trajectories := by
  obtain ⟨hVS, hES, hVC, hTC⟩ := init_shapes ut
  rcases hut with rfl | rfl | rfl
  · rw [input_data_run ops (volNet "standard") obs volPreds
        (volUpds FnTag.poVolatile) (by with_unfolding_all rfl)
        (by with_unfolding_all rfl) (by with_unfolding_all rfl)
        (by with_unfolding_all rfl),
      input_data_run ops (expNet "standard") obs expPreds
        (expUpds FnTag.poContinuous) (by with_unfolding_all rfl)
        (by with_unfolding_all rfl) (by with_unfolding_all rfl)
        (by with_unfolding_all rfl)]
    exact run_corr ops FnTag.poVolatile FnTag.poContinuous true
      (Or.inl ⟨rfl, rfl, rfl⟩) obs _ _ _ _ hVS hES hVC hTC hfl
  · rw [input_data_run ops (volNet "eHGF") obs volPreds
        (volUpds FnTag.poVolatileEhgf) (by with_unfolding_all rfl)
        (by with_unfolding_all rfl) (by with_unfolding_all rfl)
        (by with_unfolding_all rfl),
      input_data_run ops (expNet "eHGF") obs expPreds
        (expUpds FnTag.poContinuousEhgf) (by with_unfolding_all rfl)
        (by with_unfolding_all rfl) (by with_unfolding_all rfl)
        (by with_unfolding_all rfl)]
    exact run_corr ops FnTag.poVolatileEhgf FnTag.poContinuousEhgf true
      (Or.inr (Or.inl ⟨rfl, rfl, rfl⟩)) obs _ _ _ _ hVS hES hVC hTC hfl
  · rw [input_data_run ops (volNet "unbounded") obs volPreds
        (volUpds FnTag.poVolatileUnbounded) (by with_unfolding_all rfl)
        (by with_unfolding_all rfl) (by with_unfolding_all rfl)
        (by with_unfolding_all rfl),
      input_data_run ops (expNet "unbounded") obs expPreds
        (expUpds FnTag.poContinuousUnbounded) (by with_unfolding_all rfl)
        (by with_unfolding_all rfl) (by with_unfolding_all rfl)
        (by with_unfolding_all rfl)]
    exact run_corr ops FnTag.poVolatileUnbounded FnTag.poContinuousUnbounded false
      (Or.inr (Or.inr ⟨rfl, rfl, rfl⟩)) obs _ _ _ _ hVS hES hVC hTC hfl

set_option maxRecDepth 100000 in
/-- Witness for the volatile-equivalence theorem: the standard update type on
the single observation `0.2`, where both floored precisions stay far above
`1e-128`, so the eight recorded trajectory pairs agree exactly. -/
theorem volatile_equivalence_witness :
    ("standard" = "standard" ∨ "standard" = "eHGF" ∨ "standard" = "unbounded")
    ∧ floorsOK opsApprox (volTagFor "standard") (volNeedVol "standard")
        (set_update_sequence (volNet "standard")) [1 / 5]
    ∧ TrajCorr
        (input_data opsApprox (volNet "standard") [1 / 5] none).node_trajectories
        (input_data opsApprox (expNet "standard") [1 / 5] none).node_trajectories := by
  have hfl : floorsOK opsApprox (volTagFor "standard") (volNeedVol "standard")
      (set_update_sequence (volNet "standard")) [1 / 5] := by
    refine ⟨?_, fun _ => ?_, trivial⟩
    · have h : precision_update_value_level
          (volMid opsApprox (set_update_sequence (volNet "standard")) (1 / 5)) 1
          = 2018315639 / 1018315639 := by with_unfolding_all rfl
      rw [h]
      norm_num [tiny]
    · have h : precision_update_volatility_level (volatile_value_level_step
          (volMid opsApprox (set_update_sequence (volNet "standard")) (1 / 5)) 1) 1
          = 4167002819269017323162189480380000000
            / 4224185660025687455522007916213979041 := by with_unfolding_all rfl
      rw [h]
      norm_num [tiny]
  exact ⟨Or.inl rfl, hfl,
    volatile_equivalence opsApprox "standard" [1 / 5] (Or.inl rfl) hfl⟩

set_option maxRecDepth 100000 in
/-- C2 (counterexample): without the floor side condition the claimed
equivalence (tolerance `1e-6`) is false.  On the standard update type with
observation `100`, the volatile pair records `precision_vol ≈ −20.69` while
the explicit grandparent's posterior precision is floored to `1e-128`; the
recorded trajectory entries differ by ≈ 20.69. -/
theorem volatile_equivalence_counterexample :
    ∃ x y : ℚ,
      (input_data opsApprox (volNet "standard") [100] none).node_trajectories.floats 1
          "precision_vol" = some [x]
      ∧ (input_data opsApprox (expNet "standard") [100] none).node_trajectories.floats 2
          "precision" = some [y]
      ∧ 1 / 10 ^ 6 < |x - y| := by
  refine ⟨-87380104928508708066622880762000000000
      / 4224185660025687455522007916213979041, 1 / 10 ^ 128, ?_, ?_, ?_⟩
  · with_unfolding_all rfl
  · with_unfolding_all rfl
  · rw [abs_of_nonpos (by norm_num)]
    norm_num

end Pyhgf
